import Mathlib

/-!
# Verification of the ads.txt validator core (miyaichi/adstxt-validator)

Shallow embedding of `src/index.ts`: the line/content parser, the duplicate
detector, the sellers.json cross-check orchestrator (batch-provider and
legacy paths), the relationship validator, the warning synthesizer, and the
`optimizeAdsTxt` pass.  JavaScript string primitives (`trim`, `split`,
`toLowerCase`, ...) are modelled explicitly over `List Char`; external
collaborators (the `psl` public-suffix library and the sellers.json
providers) are parameters returning `Except String _`, so that a thrown
exception is an `Except.error` value, and each `try`/`catch` of the source
is an explicit `match` on that value.
-/

namespace AdsTxt

/-! ## JavaScript string primitives -/

/-- Characters stripped by the JavaScript `String.prototype.trim`
(ECMAScript WhiteSpace and LineTerminator sets). -/
def isJsWhitespace (c : Char) : Bool :=
  let n := c.toNat
  n = 0x09 || n = 0x0A || n = 0x0B || n = 0x0C || n = 0x0D ||
  n = 0x20 || n = 0xA0 || n = 0x1680 ||
  (0x2000 ≤ n && n ≤ 0x200A) ||
  n = 0x2028 || n = 0x2029 || n = 0x202F || n = 0x205F ||
  n = 0x3000 || n = 0xFEFF

/-- JavaScript line terminators (the characters `.` does not match in a
JavaScript regular expression). -/
def isLineTerm (c : Char) : Bool :=
  c.toNat = 0x0A || c.toNat = 0x0D || c.toNat = 0x2028 || c.toNat = 0x2029

def trimLeftL (l : List Char) : List Char := l.dropWhile isJsWhitespace

def trimRightL (l : List Char) : List Char :=
  (l.reverse.dropWhile isJsWhitespace).reverse

def jsTrimL (l : List Char) : List Char := trimRightL (trimLeftL l)

/-- JavaScript `s.trim()`. -/
def jsTrim (s : String) : String := ⟨jsTrimL s.data⟩

/-- JavaScript `s.toLowerCase()` (ASCII case mapping). -/
def jsToLower (s : String) : String := ⟨s.data.map Char.toLower⟩

/-- JavaScript `s.toUpperCase()` (ASCII case mapping). -/
def jsToUpper (s : String) : String := ⟨s.data.map Char.toUpper⟩

def jsStartsWithChar (s : String) (c : Char) : Bool :=
  match s.data with
  | [] => false
  | d :: _ => d = c

/-- JavaScript `s.split(sep)` for a one-character separator: no collapsing,
`"".split(sep) = [""]`. -/
def splitL (sep : Char) : List Char → List (List Char)
  | [] => [[]]
  | c :: cs =>
    let r := splitL sep cs
    if c = sep then [] :: r
    else
      match r with
      | h :: t => (c :: h) :: t
      | [] => [[c]]

def jsSplitChar (sep : Char) (s : String) : List String :=
  (splitL sep s.data).map (fun l => ⟨l⟩)

/-- Lexicographic code-point comparison, modelling both the default
`Array.prototype.sort` string order and `localeCompare` (taken here to be
plain code-point order). -/
def jsCmpL : List Char → List Char → Ordering
  | [], [] => .eq
  | [], _ :: _ => .lt
  | _ :: _, [] => .gt
  | a :: as, b :: bs =>
    if a < b then .lt else if b < a then .gt else jsCmpL as bs

def jsCompare (a b : String) : Ordering := jsCmpL a.data b.data

/-- Stable insertion used by the stable sort: a new element goes after the
block of elements it compares equal to.  `Array.prototype.sort` is stable. -/
def insertSorted (cmp : α → α → Ordering) (x : α) : List α → List α
  | [] => [x]
  | y :: ys =>
    if cmp x y = .gt then y :: insertSorted cmp x ys else x :: y :: ys

/-- Stable sort modelling `Array.prototype.sort` with a comparator. -/
def stableSortBy (cmp : α → α → Ordering) (l : List α) : List α :=
  l.foldr (insertSorted cmp) []

/-- Truthiness of an optional string (`undefined`, `null` and `""` are
falsy in JavaScript). -/
def jsTruthyStr : Option String → Bool
  | none => false
  | some s => s ≠ ""

/-- Truthiness of a nullable boolean (`null` and `false` are falsy). -/
def jsTruthyOB : Option Bool → Bool
  | some true => true
  | _ => false

/-! ## Insertion-ordered maps (JavaScript `Map`)

Only `has`, `get` and `set` are used by the source; `set` overwrites the
value in place, keeping the original insertion position. -/

def mapSet (k : String) (v : α) : List (String × α) → List (String × α)
  | [] => [(k, v)]
  | (k', v') :: t => if k' = k then (k, v) :: t else (k', v') :: mapSet k v t

def mapHas (k : String) : List (String × α) → Bool
  | [] => false
  | kv :: t => kv.1 = k || mapHas k t

def mapGet? (k : String) : List (String × α) → Option α
  | [] => none
  | kv :: t => if kv.1 = k then some kv.2 else mapGet? k t

/-- The `map.set(k, (map.get(k) ?? []).push(v))` pattern used to build
per-key lists. -/
def mapPush (k : String) (v : α) (m : List (String × List α)) :
    List (String × List α) :=
  mapSet k (((mapGet? k m).getD []) ++ [v]) m

/-! ## Data model (`src/index.ts` interfaces) -/

/-- The `Severity` enum. -/
inductive Severity
  | error
  | warning
  | info
deriving DecidableEq, Repr

/-- The `relationship` field values, normalized to DIRECT/RESELLER. -/
inductive Relationship
  | DIRECT
  | RESELLER
deriving DecidableEq, Repr

def Relationship.str : Relationship → String
  | .DIRECT => "DIRECT"
  | .RESELLER => "RESELLER"

/-- The five recognized ads.txt variable names. -/
inductive VariableType
  | CONTACT
  | SUBDOMAIN
  | INVENTORYPARTNERDOMAIN
  | OWNERDOMAIN
  | MANAGERDOMAIN
deriving DecidableEq, Repr

def VariableType.str : VariableType → String
  | .CONTACT => "CONTACT"
  | .SUBDOMAIN => "SUBDOMAIN"
  | .INVENTORYPARTNERDOMAIN => "INVENTORYPARTNERDOMAIN"
  | .OWNERDOMAIN => "OWNERDOMAIN"
  | .MANAGERDOMAIN => "MANAGERDOMAIN"

/- The `VALIDATION_KEYS` table. -/
namespace VALIDATION_KEYS

def MISSING_FIELDS : String := "missingFields"
def INVALID_FORMAT : String := "invalidFormat"
def INVALID_RELATIONSHIP : String := "invalidRelationship"
def INVALID_DOMAIN : String := "invalidDomain"
def EMPTY_ACCOUNT_ID : String := "emptyAccountId"
def IMPLIMENTED : String := "implimentedEntry"
def NO_SELLERS_JSON : String := "noSellersJson"
def DIRECT_ACCOUNT_ID_NOT_IN_SELLERS_JSON : String := "directAccountIdNotInSellersJson"
def RESELLER_ACCOUNT_ID_NOT_IN_SELLERS_JSON : String := "resellerAccountIdNotInSellersJson"
def DOMAIN_MISMATCH : String := "domainMismatch"
def DIRECT_NOT_PUBLISHER : String := "directNotPublisher"
def SELLER_ID_NOT_UNIQUE : String := "sellerIdNotUnique"
def RESELLER_NOT_INTERMEDIARY : String := "resellerNotIntermediary"
def SELLERS_JSON_VALIDATION_ERROR : String := "sellersJsonValidationError"
def EMPTY_FILE : String := "emptyFile"
def INVALID_CHARACTERS : String := "invalidCharacters"

end VALIDATION_KEYS

/-- A `{ key, params, severity }` warning object (`createWarning`). -/
structure WarningItem where
  key : String
  params : List (String × String) := []
  severity : Severity := .warning
deriving DecidableEq, Repr

/-- A sellers.json seller record (`SellersJsonSellerRecord` / `Seller`). -/
structure Seller where
  seller_id : String
  name : Option String := none
  domain : Option String := none
  seller_type : Option String := none
  is_confidential : Option Nat := none
deriving DecidableEq, Repr

/-- The `CrossCheckValidationResult` interface.  The spec's data model
declares all nine flags tri-state; the code assigns `directAccountIdInSellersJson`
only boolean values, which appear here as `some _`.  `sellerData` collapses
the `undefined`/`null` distinction (every read in the source goes through
`?.` or a truthiness test, so the two are observably equal). -/
structure CrossCheckValidationResult where
  hasSellerJson : Bool
  directAccountIdInSellersJson : Option Bool
  directDomainMatchesSellerJsonEntry : Option Bool
  directEntryHasPublisherType : Option Bool
  directSellerIdIsUnique : Option Bool
  resellerAccountIdInSellersJson : Option Bool
  resellerDomainMatchesSellerJsonEntry : Option Bool
  resellerEntryHasIntermediaryType : Option Bool
  resellerSellerIdIsUnique : Option Bool
  sellerData : Option Seller := none
  error : Option String := none
deriving DecidableEq, Repr

/-- `ParsedAdsTxtRecord`. -/
structure ParsedAdsTxtRecord where
  domain : String
  account_id : String
  account_type : String
  certification_authority_id : Option String := none
  relationship : Relationship
  line_number : Int
  raw_line : String
  is_valid : Bool
  error : Option String := none
  has_warning : Bool := false
  warning : Option String := none
  validation_key : Option String := none
  severity : Option Severity := none
  warning_params : Option (List (String × String)) := none
  all_warnings : Option (List WarningItem) := none
  validation_error : Option String := none
  duplicate_domain : Option String := none
  validation_results : Option CrossCheckValidationResult := none
deriving DecidableEq, Repr

/-- `ParsedAdsTxtVariable`. -/
structure ParsedAdsTxtVariable where
  variable_type : VariableType
  value : String
  line_number : Int
  raw_line : String
  is_valid : Bool
deriving DecidableEq, Repr

/-- `ParsedAdsTxtEntry`, the tagged union.  The source discriminates with
the `isAdsTxtRecord`/`isAdsTxtVariable` field-presence guards, which agree
with the tag because only the parser constructs entries. -/
inductive ParsedAdsTxtEntry
  | record (r : ParsedAdsTxtRecord)
  | varEntry (v : ParsedAdsTxtVariable)
deriving DecidableEq, Repr

/-- The `isAdsTxtRecord` type guard. -/
def isAdsTxtRecord : ParsedAdsTxtEntry → Bool
  | .record _ => true
  | .varEntry _ => false

/-- The `isAdsTxtVariable` type guard. -/
def isAdsTxtVariable : ParsedAdsTxtEntry → Bool
  | .record _ => false
  | .varEntry _ => true

def entryRecord? : ParsedAdsTxtEntry → Option ParsedAdsTxtRecord
  | .record r => some r
  | .varEntry _ => none

def entryVariable? : ParsedAdsTxtEntry → Option ParsedAdsTxtVariable
  | .record _ => none
  | .varEntry v => some v

def entryIsValid : ParsedAdsTxtEntry → Bool
  | .record r => r.is_valid
  | .varEntry v => v.is_valid

/-- The external `psl` public-suffix collaborator.  Both operations are
foreign calls and may throw: `isValid` is called without a surrounding
`try` in the parser, `parse` is always wrapped in `try`/`catch`. -/
structure PslLib where
  isValid : String → Except String Bool
  parseDomain : String → Except String (Option String)

/-! ## Line parser (`parseAdsTxtLine` and helpers) -/

/-- Union of the two character classes of `hasInvalidCharacters`. -/
def isInvalidChar (c : Char) : Bool :=
  let n := c.toNat
  n ≤ 0x08 || n = 0x0B || n = 0x0C || (0x0E ≤ n && n ≤ 0x1F) ||
  (0x7F ≤ n && n ≤ 0x9F) || (0x2028 ≤ n && n ≤ 0x202F) ||
  (0x205F ≤ n && n ≤ 0x206F) || n = 0xFEFF

/-- `hasInvalidCharacters`: tests the line for control / non-printable
characters. -/
def hasInvalidCharacters (line : String) : Bool :=
  line.data.any isInvalidChar

/-- `createInvalidRecord`: defaults (`|| ''`, `|| 'DIRECT'`) overridden by
whatever partial fields the call site provides. -/
def createInvalidRecord (domain account_id account_type : Option String)
    (certAuthorityId : Option String) (relationship : Option Relationship)
    (lineNumber : Int) (rawLine : String) (validationKey : String) :
    ParsedAdsTxtRecord :=
  { domain := domain.getD "", account_id := account_id.getD "",
    account_type := account_type.getD "",
    certification_authority_id := certAuthorityId,
    relationship := relationship.getD .DIRECT,
    line_number := lineNumber, raw_line := rawLine, is_valid := false,
    error := some validationKey, validation_key := some validationKey,
    severity := some .error }

/-- Case-insensitive prefix strip, modelling the regex alternation of
`parseAdsTxtVariable` (pattern given in upper case). -/
def stripPrefixCI : List Char → List Char → Option (List Char)
  | [], l => some l
  | _ :: _, [] => none
  | p :: ps, c :: cs => if Char.toUpper c = p then stripPrefixCI ps cs else none

def tryVarType (vt : VariableType) (l : List Char) :
    Option (VariableType × List Char) :=
  match stripPrefixCI (vt.str.data ++ ['=']) l with
  | some rest => some (vt, rest)
  | none => none

/-- The `^(CONTACT|SUBDOMAIN|INVENTORYPARTNERDOMAIN|OWNERDOMAIN|MANAGERDOMAIN)=`
part of the variable regex (the five names start with distinct letters, so
alternation order is irrelevant). -/
def matchVariable (l : List Char) : Option (VariableType × List Char) :=
  tryVarType .CONTACT l <|> tryVarType .SUBDOMAIN l <|>
  tryVarType .INVENTORYPARTNERDOMAIN l <|> tryVarType .OWNERDOMAIN l <|>
  tryVarType .MANAGERDOMAIN l

/-- `parseAdsTxtVariable`: matches `^(NAMES)=(.+)$` case-insensitively on
the trimmed line; `.` does not match a line terminator and `+` requires a
nonempty remainder. -/
def parseAdsTxtVariable (line : String) (lineNumber : Int) :
    Option ParsedAdsTxtVariable :=
  let trimmedLine := jsTrim line
  match matchVariable trimmedLine.data with
  | some (vt, rest) =>
    if rest ≠ [] && rest.all (fun c => !isLineTerm c) then
      some { variable_type := vt, value := jsTrim ⟨rest⟩,
             line_number := lineNumber, raw_line := line, is_valid := true }
    else none
  | none => none

def relOfUpper (s : String) : Option Relationship :=
  if s = "DIRECT" then some .DIRECT
  else if s = "RESELLER" then some .RESELLER
  else none

/-- Result shape of `processRelationship`. -/
structure RelResult where
  relationship : Relationship
  certAuthorityId : Option String := none
  error : Option String := none
deriving DecidableEq, Repr

/-- The "Process remaining parts" tail of `processRelationship`. -/
def processRest (rel : Relationship) (rest : List String) : RelResult :=
  match rest with
  | [] => { relationship := rel }
  | r0 :: rtail =>
    match relOfUpper (jsToUpper r0) with
    | some newRel => { relationship := newRel, certAuthorityId := rtail.head? }
    | none => { relationship := rel, certAuthorityId := some r0 }

/-- `processRelationship`: position 3 may carry the relationship; otherwise
position 4 must, or the record is flagged `invalidRelationship`. -/
def processRelationship (accountType : String) (rest : List String) :
    RelResult :=
  let upperAccountType := jsToUpper accountType
  match relOfUpper upperAccountType with
  | some rel => processRest rel rest
  | none =>
    match rest.head? with
    | some r0 =>
      if (relOfUpper (jsToUpper r0)).isSome then processRest .DIRECT rest
      else { relationship := .DIRECT,
             error := some VALIDATION_KEYS.INVALID_RELATIONSHIP }
    | none =>
      { relationship := .DIRECT,
        error := some VALIDATION_KEYS.INVALID_RELATIONSHIP }

/-- `parseAdsTxtLine`.  `psl.isValid` is a foreign call outside any
`try`/`catch`, so its exception propagates as `Except.error`. -/
def parseAdsTxtLine (psl : PslLib) (line : String) (lineNumber : Int) :
    Except String (Option ParsedAdsTxtEntry) :=
  if hasInvalidCharacters line then
    .ok (some (.record (createInvalidRecord none none none none none
      lineNumber line VALIDATION_KEYS.INVALID_CHARACTERS)))
  else
    let trimmedLine := jsTrim line
    if trimmedLine = "" || jsStartsWithChar trimmedLine '#' then .ok none
    else
      let hashPresent := trimmedLine.data.any (fun c => c = '#')
      let trimmedLine2 :=
        if hashPresent then jsTrim ⟨trimmedLine.data.takeWhile (fun c => c ≠ '#')⟩
        else trimmedLine
      if hashPresent && trimmedLine2 = "" then .ok none
      else
        match parseAdsTxtVariable line lineNumber with
        | some v => .ok (some (.varEntry v))
        | none =>
          let parts := (jsSplitChar ',' trimmedLine2).map jsTrim
          if parts.length < 3 then
            .ok (some (.record (createInvalidRecord
              (some ((parts.get? 0).getD "")) (some ((parts.get? 1).getD ""))
              (some ((parts.get? 2).getD "")) none none lineNumber line
              VALIDATION_KEYS.MISSING_FIELDS)))
          else if parts.length = 1 && parts.get? 0 = some trimmedLine2 then
            .ok (some (.record (createInvalidRecord (parts.get? 0) none none
              none none lineNumber line VALIDATION_KEYS.INVALID_FORMAT)))
          else
            match parts with
            | domain :: accountId :: accountType :: rest =>
              let pr := processRelationship accountType rest
              match pr.error with
              | some e => .ok (some (.record (createInvalidRecord
                  (some domain) (some accountId) (some accountType)
                  pr.certAuthorityId (some pr.relationship) lineNumber line e)))
              | none =>
                match psl.isValid domain with
                | .error e => .error e
                | .ok pslOk =>
                  if !pslOk then
                    .ok (some (.record (createInvalidRecord (some domain)
                      (some accountId) (some accountType) pr.certAuthorityId
                      (some pr.relationship) lineNumber line
                      VALIDATION_KEYS.INVALID_DOMAIN)))
                  else if accountId = "" then
                    .ok (some (.record (createInvalidRecord (some domain)
                      (some accountId) (some accountType) pr.certAuthorityId
                      (some pr.relationship) lineNumber line
                      VALIDATION_KEYS.EMPTY_ACCOUNT_ID)))
                  else
                    let validRec : ParsedAdsTxtRecord :=
                      { domain := domain, account_id := accountId,
                        account_type := accountType,
                        certification_authority_id := pr.certAuthorityId,
                        relationship := pr.relationship,
                        line_number := lineNumber, raw_line := line,
                        is_valid := true }
                    .ok (some (.record validRec))
            | _ => .ok none

/-- The per-line `forEach` of `parseAdsTxtContent` (line numbers start
at 1). -/
def parseLines (psl : PslLib) : List String → Int →
    Except String (List ParsedAdsTxtEntry)
  | [], _ => .ok []
  | l :: ls, n => do
    let e ← parseAdsTxtLine psl l n
    let restEntries ← parseLines psl ls (n + 1)
    match e with
    | some entry => pure (entry :: restEntries)
    | none => pure restEntries

/-- `parseAdsTxtContent`: empty-file sentinel, per-line parse, and the
default `OWNERDOMAIN` appended when a publisher domain is supplied
(`psl.parse` wrapped in `try`/`catch`, so its failure only skips the
default). -/
def parseAdsTxtContent (psl : PslLib) (content : String)
    (publisherDomain : Option String) :
    Except String (List ParsedAdsTxtEntry) := do
  if jsTrim content = "" then
    let emptyRec : ParsedAdsTxtRecord :=
      { domain := "", account_id := "", account_type := "",
        relationship := .DIRECT, line_number := 1, raw_line := "",
        is_valid := false, error := some VALIDATION_KEYS.EMPTY_FILE,
        validation_key := some VALIDATION_KEYS.EMPTY_FILE,
        severity := some .error }
    pure [.record emptyRec]
  else
    let lines := jsSplitChar '\n' content
    let entries ← parseLines psl lines 1
    if jsTruthyStr publisherDomain then
      let hasOwnerDomain := entries.any (fun e =>
        match e with
        | .varEntry v => v.variable_type = .OWNERDOMAIN
        | .record _ => false)
      if !hasOwnerDomain then
        match psl.parseDomain (publisherDomain.getD "") with
        | .ok (some rootDomain) =>
          let defaultOwnerDomain : ParsedAdsTxtVariable :=
            { variable_type := .OWNERDOMAIN, value := rootDomain,
              line_number := -1, raw_line := "OWNERDOMAIN=" ++ rootDomain,
              is_valid := true }
          pure (entries ++ [.varEntry defaultOwnerDomain])
        | .ok none => pure entries
        | .error _ => pure entries
      else pure entries
    else pure entries

/-! ## Duplicate detector -/

/-- `createWarningRecord`.  The `additionalProps` object spread is modelled
as a final record update. -/
def createWarningRecord (record : ParsedAdsTxtRecord) (validationKey : String)
    (params : List (String × String)) (severity : Severity)
    (additionalProps : ParsedAdsTxtRecord → ParsedAdsTxtRecord) :
    ParsedAdsTxtRecord :=
  additionalProps
    { record with
      is_valid := true, has_warning := true,
      warning := some validationKey, validation_key := some validationKey,
      severity := some severity, warning_params := some params }

/-- `createDuplicateWarningRecord`. -/
def createDuplicateWarningRecord (record : ParsedAdsTxtRecord)
    (publisherDomain : String) (validationKey : String) (severity : Severity) :
    ParsedAdsTxtRecord :=
  createWarningRecord record validationKey [("domain", publisherDomain)]
    severity (fun r => { r with duplicate_domain := some publisherDomain })

/-- `createLookupKey`: `lowercase(domain).trim() | account_id | relationship`. -/
def createLookupKey (record : ParsedAdsTxtRecord) : String :=
  jsTrim (jsToLower record.domain) ++ "|" ++ record.account_id ++ "|" ++
    record.relationship.str

/-- `createExistingRecordsMap`: valid cached records keyed by
`createLookupKey`. -/
def createExistingRecordsMap (existingRecords : List ParsedAdsTxtRecord) :
    List (String × ParsedAdsTxtRecord) :=
  existingRecords.foldl
    (fun m record =>
      if record.is_valid then mapSet (createLookupKey record) record m else m)
    []

/-- `findDuplicateRecords`. -/
def findDuplicateRecords (records : List ParsedAdsTxtRecord)
    (existingRecordMap : List (String × ParsedAdsTxtRecord))
    (publisherDomain : String) : List ParsedAdsTxtRecord :=
  records.map fun record =>
    if !record.is_valid then record
    else if mapHas (createLookupKey record) existingRecordMap then
      createDuplicateWarningRecord record publisherDomain
        VALIDATION_KEYS.IMPLIMENTED .info
    else record

/-- `checkForDuplicates`: a falsy (`null` or empty) cached content skips
the check; otherwise the cached content is parsed (without a publisher
domain) and matched against. -/
def checkForDuplicates (psl : PslLib) (publisherDomain : String)
    (parsedRecords : List ParsedAdsTxtRecord)
    (cachedAdsTxtContent : Option String) :
    Except String (List ParsedAdsTxtRecord) := do
  if jsTruthyStr cachedAdsTxtContent then
    let existingRecords ← parseAdsTxtContent psl (cachedAdsTxtContent.getD "") none
    let recordEntries := existingRecords.filterMap entryRecord?
    let existingRecordMap := createExistingRecordsMap recordEntries
    pure (findDuplicateRecords parsedRecords existingRecordMap publisherDomain)
  else pure parsedRecords

/-! ## Seller data access -/

/-- `SellersJsonMetadata` (all fields optional). -/
structure SellersJsonMetadata where
  version : Option String := none
  contact_email : Option String := none
  contact_address : Option String := none
  seller_count : Option Nat := none
  identifiers : Option (List String) := none
deriving DecidableEq, Repr

/-- `Object.keys(metadata).length > 0`. -/
def SellersJsonMetadata.hasKeys (m : SellersJsonMetadata) : Bool :=
  m.version.isSome || m.contact_email.isSome || m.contact_address.isSome ||
  m.seller_count.isSome || m.identifiers.isSome

/-- One element of `BatchSellersResult.results`. -/
structure SellerResult where
  sellerId : String
  seller : Option Seller := none
  found : Bool
deriving DecidableEq, Repr

/-- `BatchSellersResult` (the unused `cache` field is omitted). -/
structure BatchSellersResult where
  domain : String := ""
  requested_count : Nat := 0
  found_count : Nat := 0
  results : List SellerResult := []
  metadata : SellersJsonMetadata := {}
deriving DecidableEq, Repr

/-- The batch `SellersJsonProvider` (only the two operations the
cross-check flow calls).  Both are foreign calls and may throw. -/
structure SellersJsonProvider where
  batchGetSellers : String → List String → Except String BatchSellersResult
  hasSellerJson : String → Except String Bool

/-- The object a legacy `getSellersJson` fetch resolves to: `null`, or an
object whose `sellers` member may or may not be an array. -/
structure SellersJsonFile where
  sellers : Option (List Seller) := none
deriving DecidableEq, Repr

/-- Structural dispatch of `validateAgainstSellersJsonOptimized`: an object
with a `batchGetSellers` member, or a bare fetch function. -/
inductive SellerAccess
  | provider (p : SellersJsonProvider)
  | legacy (fetch : String → Except String (Option SellersJsonFile))

/-! ## Relationship validator -/

/-- `createInitialValidationResult`. -/
def createInitialValidationResult : CrossCheckValidationResult :=
  { hasSellerJson := false, directAccountIdInSellersJson := some false,
    directDomainMatchesSellerJsonEntry := none,
    directEntryHasPublisherType := none, directSellerIdIsUnique := none,
    resellerAccountIdInSellersJson := none,
    resellerDomainMatchesSellerJsonEntry := none,
    resellerEntryHasIntermediaryType := none,
    resellerSellerIdIsUnique := none }

/-- `extractDomainsFromVariables`: `MANAGERDOMAIN` values keep only the
part before the first comma. -/
def extractDomainsFromVariables (parsedEntries : List ParsedAdsTxtEntry)
    (variableType : VariableType) : List String :=
  ((parsedEntries.filterMap entryVariable?).filter
    (fun v => v.variable_type = variableType)).map fun entry =>
      if variableType = .MANAGERDOMAIN && entry.value.data.any (fun c => c = ',') then
        jsTrim (jsToLower (((jsSplitChar ',' entry.value).get? 0).getD ""))
      else jsTrim (jsToLower entry.value)

/-- The shared Case 13/18 domain-match computation on a matched,
non-confidential seller that has a domain. -/
def domainMatchValue (seller : Seller) (publisherDomain : String)
    (parsedEntries : List ParsedAdsTxtEntry) : Bool :=
  let ownerDomains := extractDomainsFromVariables parsedEntries .OWNERDOMAIN
  let managerDomains := extractDomainsFromVariables parsedEntries .MANAGERDOMAIN
  let sellerDomainLower := jsTrim (jsToLower (seller.domain.getD ""))
  let matchesOwnerDomain := ownerDomains.any (fun d => d = sellerDomainLower)
  let matchesManagerDomain := managerDomains.any (fun d => d = sellerDomainLower)
  if ownerDomains.isEmpty && managerDomains.isEmpty then
    jsToLower publisherDomain = sellerDomainLower
  else matchesOwnerDomain || matchesManagerDomain

/-- `validateDirectRelationship` (in-place mutation of the result object
rendered as a functional update). -/
def validateDirectRelationship (validationResult : CrossCheckValidationResult)
    (matchingSeller : Option Seller) (publisherDomain : String)
    (normalizedAccountId : String) (sellerIdCounts : List (String × Nat))
    (parsedEntries : List ParsedAdsTxtEntry) : CrossCheckValidationResult :=
  let vr := { validationResult with
    resellerAccountIdInSellersJson := none,
    resellerDomainMatchesSellerJsonEntry := none,
    resellerEntryHasIntermediaryType := none,
    resellerSellerIdIsUnique := none }
  match matchingSeller with
  | some seller =>
    let vr :=
      if seller.is_confidential = some 1 || !jsTruthyStr seller.domain then
        { vr with directDomainMatchesSellerJsonEntry := none }
      else
        { vr with
          directDomainMatchesSellerJsonEntry :=
            some (domainMatchValue seller publisherDomain parsedEntries) }
    let sellerType := jsToUpper ((seller.seller_type.getD ""))
    let vr := { vr with
      directEntryHasPublisherType :=
        some (sellerType = "PUBLISHER" || sellerType = "BOTH") }
    match mapGet? normalizedAccountId sellerIdCounts with
    | some count => { vr with directSellerIdIsUnique := some (count = 1) }
    | none => { vr with directSellerIdIsUnique := none }
  | none => { vr with directSellerIdIsUnique := none }

/-- `validateResellerRelationship`. -/
def validateResellerRelationship (validationResult : CrossCheckValidationResult)
    (matchingSeller : Option Seller) (publisherDomain : String)
    (normalizedAccountId : String) (sellerIdCounts : List (String × Nat))
    (parsedEntries : List ParsedAdsTxtEntry) : CrossCheckValidationResult :=
  let vr := { validationResult with
    directEntryHasPublisherType := none,
    directDomainMatchesSellerJsonEntry := none,
    directSellerIdIsUnique := none }
  let vr := { vr with resellerAccountIdInSellersJson := some matchingSeller.isSome }
  let vr :=
    match matchingSeller with
    | some seller =>
      if seller.is_confidential = some 1 || !jsTruthyStr seller.domain then
        { vr with resellerDomainMatchesSellerJsonEntry := none }
      else
        { vr with
          resellerDomainMatchesSellerJsonEntry :=
            some (domainMatchValue seller publisherDomain parsedEntries) }
    | none => vr
  match matchingSeller with
  | some seller =>
    let sellerType := jsToUpper ((seller.seller_type.getD ""))
    let vr := { vr with
      resellerEntryHasIntermediaryType :=
        some (sellerType = "INTERMEDIARY" || sellerType = "BOTH") }
    match mapGet? normalizedAccountId sellerIdCounts with
    | some count => { vr with resellerSellerIdIsUnique := some (count = 1) }
    | none => { vr with resellerSellerIdIsUnique := none }
  | none =>
    { vr with
      resellerEntryHasIntermediaryType := none,
      resellerSellerIdIsUnique := none }

/-! ## Warning synthesizer -/

/-- `createWarning`. -/
def createWarning (validationKey : String) (params : List (String × String))
    (severity : Severity) : WarningItem :=
  { key := validationKey, params := params, severity := severity }

/-- `validationResult.sellerData?.domain || 'unknown'`. -/
def sellerDomainOrUnknown (vr : CrossCheckValidationResult) : String :=
  match vr.sellerData with
  | some s =>
    match s.domain with
    | some d => if d = "" then "unknown" else d
    | none => "unknown"
  | none => "unknown"

/-- `validationResult.sellerData?.seller_type || 'unknown'`. -/
def sellerTypeOrUnknown (vr : CrossCheckValidationResult) : String :=
  match vr.sellerData with
  | some s =>
    match s.seller_type with
    | some t => if t = "" then "unknown" else t
    | none => "unknown"
  | none => "unknown"

/-- `generateWarnings`: early exits for missing sellers.json and unmatched
account id, then the ordered accumulation of cases 13, 18, 14, 5/8, 19. -/
def generateWarnings (record : ParsedAdsTxtRecord)
    (validationResult : CrossCheckValidationResult) (publisherDomain : String) :
    List WarningItem :=
  if !validationResult.hasSellerJson then
    [createWarning VALIDATION_KEYS.NO_SELLERS_JSON
      [("domain", record.domain)] .warning]
  else if !jsTruthyOB validationResult.directAccountIdInSellersJson then
    if record.relationship = .DIRECT then
      [createWarning VALIDATION_KEYS.DIRECT_ACCOUNT_ID_NOT_IN_SELLERS_JSON
        [("domain", record.domain), ("account_id", record.account_id)] .warning]
    else
      [createWarning VALIDATION_KEYS.RESELLER_ACCOUNT_ID_NOT_IN_SELLERS_JSON
        [("domain", record.domain), ("account_id", record.account_id)] .warning]
  else
    let mismatchDirect :=
      if record.relationship = .DIRECT &&
          validationResult.directDomainMatchesSellerJsonEntry = some false then
        [createWarning VALIDATION_KEYS.DOMAIN_MISMATCH
          [("domain", record.domain), ("publisher_domain", publisherDomain),
           ("seller_domain", sellerDomainOrUnknown validationResult)] .warning]
      else []
    let resellerExempt :=
      match validationResult.sellerData with
      | some s =>
        match s.seller_type with
        | some t => t ≠ "" &&
            (jsToUpper t = "INTERMEDIARY" || jsToUpper t = "BOTH")
        | none => false
      | none => false
    let resellerHasTypedSeller :=
      match validationResult.sellerData with
      | some s =>
        match s.seller_type with
        | some t => t ≠ ""
        | none => false
      | none => false
    let mismatchReseller :=
      if record.relationship = .RESELLER &&
          validationResult.resellerDomainMatchesSellerJsonEntry = some false &&
          resellerHasTypedSeller && !resellerExempt then
        [createWarning VALIDATION_KEYS.DOMAIN_MISMATCH
          [("domain", record.domain), ("publisher_domain", publisherDomain),
           ("seller_domain", sellerDomainOrUnknown validationResult)] .warning]
      else []
    let notPublisher :=
      if record.relationship = .DIRECT &&
          validationResult.directEntryHasPublisherType = some false then
        [createWarning VALIDATION_KEYS.DIRECT_NOT_PUBLISHER
          [("domain", record.domain), ("account_id", record.account_id),
           ("seller_type", sellerTypeOrUnknown validationResult)] .warning]
      else []
    let hasDuplicateDirectSellerId :=
      record.relationship = .DIRECT &&
      jsTruthyOB validationResult.directAccountIdInSellersJson &&
      validationResult.directSellerIdIsUnique = some false
    let hasDuplicateResellerSellerId :=
      record.relationship = .RESELLER &&
      jsTruthyOB validationResult.resellerAccountIdInSellersJson &&
      validationResult.resellerSellerIdIsUnique = some false
    let notUnique :=
      if hasDuplicateDirectSellerId || hasDuplicateResellerSellerId then
        [createWarning VALIDATION_KEYS.SELLER_ID_NOT_UNIQUE
          [("domain", record.domain), ("account_id", record.account_id)] .warning]
      else []
    let notIntermediary :=
      if record.relationship = .RESELLER &&
          jsTruthyOB validationResult.directAccountIdInSellersJson &&
          validationResult.resellerEntryHasIntermediaryType = some false then
        [createWarning VALIDATION_KEYS.RESELLER_NOT_INTERMEDIARY
          [("domain", record.domain), ("account_id", record.account_id),
           ("seller_type", sellerTypeOrUnknown validationResult)] .warning]
      else []
    mismatchDirect ++ mismatchReseller ++ notPublisher ++ notUnique ++
      notIntermediary

/-! ## Optimized batch validation -/

/-- `validateSingleRecordOptimized` (pure given the pre-fetched per-domain
sellers map and metadata). -/
def validateSingleRecordOptimized (record : ParsedAdsTxtRecord)
    (publisherDomain : String) (sellersMap : List (String × Seller))
    (metadata : SellersJsonMetadata) (allEntries : List ParsedAdsTxtEntry) :
    ParsedAdsTxtRecord :=
  let validationResult := createInitialValidationResult
  let validationResult := { validationResult with
    hasSellerJson := sellersMap.length > 0 || metadata.hasKeys }
  if !validationResult.hasSellerJson then
    createWarningRecord record VALIDATION_KEYS.NO_SELLERS_JSON
      [("domain", record.domain)] .warning
      (fun r => { r with validation_results := some validationResult })
  else
    let normalizedAccountId := jsTrim record.account_id
    let matchingSeller := mapGet? normalizedAccountId sellersMap
    let validationResult := { validationResult with
      sellerData := matchingSeller,
      directAccountIdInSellersJson := some matchingSeller.isSome }
    let sellerIdCounts : List (String × Nat) :=
      if (metadata.seller_count.getD 0) > 0 then
        sellersMap.foldl (fun m kv => mapSet kv.1 1 m) []
      else []
    let validationResult :=
      match record.relationship with
      | .DIRECT =>
        validateDirectRelationship validationResult matchingSeller
          publisherDomain normalizedAccountId sellerIdCounts allEntries
      | .RESELLER =>
        validateResellerRelationship validationResult matchingSeller
          publisherDomain normalizedAccountId sellerIdCounts allEntries
    let warnings := generateWarnings record validationResult publisherDomain
    match warnings with
    | [] => { record with validation_results := some validationResult }
    | w :: _ =>
      { record with
        has_warning := true, warning := some w.key,
        warning_params := some w.params, validation_key := some w.key,
        severity := some w.severity, all_warnings := some warnings,
        validation_results := some validationResult }

/-- Events of the batch-provider call trace (used to state how often the
orchestrator consults the collaborator). -/
inductive ProviderCall
  | hasCall (domain : String)
  | batchCall (domain : String) (sellerIds : List String)
deriving DecidableEq, Repr

/-- The `batchResult.results.forEach` that builds the per-domain sellers
map (`found` results with a present seller). -/
def sellersMapOfResults (results : List SellerResult) :
    List (String × Seller) :=
  results.foldl
    (fun m result =>
      if result.found then
        match result.seller with
        | some s => mapSet result.sellerId s m
        | none => m
      else m) []

/-- One iteration of the per-domain batch-fetch loop of
`validateWithOptimizedProvider`, with its `try`/`catch`: an exception from
either collaborator call leaves the domain mapped to an empty sellers map
and empty metadata.  Also returns the collaborator calls issued. -/
def fetchDomainSellers (provider : SellersJsonProvider) (domain : String)
    (sellerIds : List String) :
    (List (String × Seller) × SellersJsonMetadata) × List ProviderCall :=
  match provider.hasSellerJson domain with
  | .error _ => (([], {}), [.hasCall domain])
  | .ok false => (([], {}), [.hasCall domain])
  | .ok true =>
    match provider.batchGetSellers domain sellerIds with
    | .error _ => (([], {}), [.hasCall domain, .batchCall domain sellerIds])
    | .ok batchResult =>
      ((sellersMapOfResults batchResult.results, batchResult.metadata),
       [.hasCall domain, .batchCall domain sellerIds])

/-- One step of the record-grouping `forEach` of
`validateWithOptimizedProvider`. -/
def buildDomainMapsStep
    (acc : List (String × List String) × List (String × List ParsedAdsTxtRecord))
    (record : ParsedAdsTxtRecord) :
    List (String × List String) × List (String × List ParsedAdsTxtRecord) :=
  if !record.is_valid then acc
  else
    let domain := jsToLower record.domain
    let maps :=
      if !mapHas domain acc.1 then
        (mapSet domain [] acc.1, mapSet domain [] acc.2)
      else acc
    (mapPush domain record.account_id maps.1, mapPush domain record maps.2)

/-- The record-grouping `forEach` of `validateWithOptimizedProvider`:
`domainToSellerIds` and `domainToRecords`, keyed by the lowercased record
domain, in first-occurrence order. -/
def buildDomainMaps (records : List ParsedAdsTxtRecord) :
    List (String × List String) × List (String × List ParsedAdsTxtRecord) :=
  records.foldl buildDomainMapsStep ([], [])

/-- One step of the per-domain fetch loop. -/
def fetchAllStep (provider : SellersJsonProvider)
    (acc : List (String × (List (String × Seller) × SellersJsonMetadata)) ×
      List ProviderCall) (kv : String × List String) :
    List (String × (List (String × Seller) × SellersJsonMetadata)) ×
      List ProviderCall :=
  let fetched := fetchDomainSellers provider kv.1 kv.2
  (mapSet kv.1 fetched.1 acc.1, acc.2 ++ fetched.2)

/-- The per-domain fetch loop: the two value maps of the source
(`domainSellersMap`, `domainMetadataMap`) are carried as one map of pairs,
and the collaborator calls are accumulated in order. -/
def fetchAllDomains (provider : SellersJsonProvider)
    (domainToSellerIds : List (String × List String)) :
    List (String × (List (String × Seller) × SellersJsonMetadata)) ×
      List ProviderCall :=
  domainToSellerIds.foldl (fetchAllStep provider) ([], [])

/-- `validateWithOptimizedProvider`, returning the validated records and
the collaborator call trace. -/
def validateWithOptimizedProvider (publisherDomain : String)
    (records : List ParsedAdsTxtRecord) (provider : SellersJsonProvider)
    (allEntries : List ParsedAdsTxtEntry) :
    List ParsedAdsTxtRecord × List ProviderCall :=
  let domainToSellerIds := (buildDomainMaps records).1
  let fetched := fetchAllDomains provider domainToSellerIds
  let domainDataMap := fetched.1
  let validatedRecords := records.map fun record =>
    if !record.is_valid then record
    else
      let domain := jsToLower record.domain
      let data := (mapGet? domain domainDataMap).getD ([], {})
      validateSingleRecordOptimized record publisherDomain data.1 data.2
        allEntries
  (validatedRecords, fetched.2)

/-! ## Legacy validation path

Under `Promise.all` every per-record task checks `sellersJsonCache` before
any task's fetch resolves, so within one call the cache never hits and the
seller-id-count map is recomputed deterministically from the same fetched
data; both caches are therefore modelled as always-miss (observably equal
behaviour for a deterministic fetch function). -/

/-- `findMatchingSeller`. -/
def findMatchingSeller (sellers : List Seller) (normalizedAccountId : String) :
    Option Seller :=
  sellers.find? fun seller =>
    seller.seller_id ≠ "" && jsTrim seller.seller_id = normalizedAccountId

/-- `getSellerIdCounts` (always-miss cache: counts recomputed from the
domain's seller array). -/
def getSellerIdCounts (sellers : List Seller) : List (String × Nat) :=
  sellers.foldl
    (fun m seller =>
      if seller.seller_id ≠ "" then
        let currentId := jsTrim seller.seller_id
        mapSet currentId (((mapGet? currentId m).getD 0) + 1) m
      else m)
    []

/-- `validateSingleRecord` (legacy): a rejection of the fetch propagates as
`Except.error`, to be caught per record by the caller. -/
def validateSingleRecord (record : ParsedAdsTxtRecord)
    (publisherDomain : String)
    (getSellersJson : String → Except String (Option SellersJsonFile))
    (allEntries : List ParsedAdsTxtEntry) :
    Except String ParsedAdsTxtRecord := do
  let adSystemDomain := jsToLower record.domain
  let validationResult := createInitialValidationResult
  let sellersJsonData ← getSellersJson adSystemDomain
  let validationResult := { validationResult with
    hasSellerJson := sellersJsonData.isSome }
  let sellersArr? := sellersJsonData.bind (fun f => f.sellers)
  match sellersArr? with
  | none =>
    pure (createWarningRecord record VALIDATION_KEYS.NO_SELLERS_JSON
      [("domain", record.domain)] .warning
      (fun r => { r with validation_results := some validationResult }))
  | some sellers =>
    let sellerIdCounts := getSellerIdCounts sellers
    let normalizedAccountId := jsTrim record.account_id
    let matchingSeller := findMatchingSeller sellers normalizedAccountId
    let validationResult := { validationResult with
      sellerData := matchingSeller,
      directAccountIdInSellersJson := some matchingSeller.isSome }
    let validationResult :=
      match record.relationship with
      | .DIRECT =>
        validateDirectRelationship validationResult matchingSeller
          publisherDomain normalizedAccountId sellerIdCounts allEntries
      | .RESELLER =>
        validateResellerRelationship validationResult matchingSeller
          publisherDomain normalizedAccountId sellerIdCounts allEntries
    let warnings := generateWarnings record validationResult publisherDomain
    match warnings with
    | [] => pure { record with validation_results := some validationResult }
    | w :: _ =>
      pure { record with
        has_warning := true, warning := some w.key,
        warning_params := some w.params, validation_key := some w.key,
        severity := some w.severity, all_warnings := some warnings,
        validation_results := some validationResult }

/-- `validateAgainstSellersJson` (legacy): each record validated
independently, exceptions caught per record and turned into a
`SELLERS_JSON_VALIDATION_ERROR` warning. -/
def validateAgainstSellersJson (publisherDomain : String)
    (records : List ParsedAdsTxtRecord)
    (getSellersJson : String → Except String (Option SellersJsonFile))
    (allEntries : List ParsedAdsTxtEntry) : List ParsedAdsTxtRecord :=
  records.map fun record =>
    if !record.is_valid then record
    else
      match validateSingleRecord record publisherDomain getSellersJson
          allEntries with
      | .ok r => r
      | .error e =>
        createWarningRecord record
          VALIDATION_KEYS.SELLERS_JSON_VALIDATION_ERROR
          [("message", e), ("domain", record.domain)] .warning
          (fun r => { r with validation_error := some e })

/-- `validateAgainstSellersJsonOptimized`: structural dispatch between the
batch provider and the legacy fetch function. -/
def validateAgainstSellersJsonOptimized (publisherDomain : String)
    (records : List ParsedAdsTxtRecord) (access : SellerAccess)
    (allEntries : List ParsedAdsTxtEntry) : List ParsedAdsTxtRecord :=
  match access with
  | .provider p =>
    (validateWithOptimizedProvider publisherDomain records p allEntries).1
  | .legacy fetch =>
    validateAgainstSellersJson publisherDomain records fetch allEntries

/-! ## Cross-check orchestrator -/

/-- The `try` block of `crossCheckAdsTxtRecords`: duplicate detection then
sellers.json validation, variables passed through ahead of the records. -/
def crossCheckBody (psl : PslLib) (publisherDomain : String)
    (parsedEntries : List ParsedAdsTxtEntry)
    (cachedAdsTxtContent : Option String) (access : SellerAccess) :
    Except String (List ParsedAdsTxtEntry) := do
  let variableEntries := parsedEntries.filterMap entryVariable?
  let recordEntries := parsedEntries.filterMap entryRecord?
  let resultRecords ← checkForDuplicates psl publisherDomain recordEntries
    cachedAdsTxtContent
  let validatedRecords := validateAgainstSellersJsonOptimized publisherDomain
    resultRecords access parsedEntries
  pure (variableEntries.map .varEntry ++ validatedRecords.map .record)

/-- `crossCheckAdsTxtRecords`: no-op on a falsy publisher domain, and the
top-level `try`/`catch` that returns the input entries on any error. -/
def crossCheckAdsTxtRecords (psl : PslLib) (publisherDomain : Option String)
    (parsedEntries : List ParsedAdsTxtEntry)
    (cachedAdsTxtContent : Option String) (access : SellerAccess) :
    List ParsedAdsTxtEntry :=
  if !jsTruthyStr publisherDomain then parsedEntries
  else
    match crossCheckBody psl (publisherDomain.getD "") parsedEntries
        cachedAdsTxtContent access with
    | .ok result => result
    | .error _ => parsedEntries

/-! ## Content optimization (`optimizeAdsTxt`) -/

/-- The outer comparator of the `optimizeAdsTxt` entry sort: variables
before records; variables by `variable_type`, records by `domain`. -/
def entryCmp (a b : ParsedAdsTxtEntry) : Ordering :=
  match a, b with
  | .varEntry va, .varEntry vb => jsCompare va.variable_type.str vb.variable_type.str
  | .varEntry _, .record _ => .lt
  | .record _, .varEntry _ => .gt
  | .record ra, .record rb => jsCompare ra.domain rb.domain

/-- The inner per-domain comparator: DIRECT before RESELLER, then by
`account_id`. -/
def recCmp (a b : ParsedAdsTxtRecord) : Ordering :=
  if a.relationship = .DIRECT && b.relationship = .RESELLER then .lt
  else if a.relationship = .RESELLER && b.relationship = .DIRECT then .gt
  else jsCompare a.account_id b.account_id

/-- Accumulated state of the per-line loop of `optimizeAdsTxt`. -/
structure OptimizeState where
  uniqueRecordMap : List (String × ParsedAdsTxtRecord) := []
  uniqueVariableMap : List (String × ParsedAdsTxtVariable) := []
  comments : List (Nat × String) := []
  parsedEntries : List ParsedAdsTxtEntry := []
  hasOwnerDomain : Bool := false

/-- One iteration of the line loop of `optimizeAdsTxt`.  The whole body is
inside `try`/`catch`, so a parse exception only skips the line; invalid
entries are dropped; variables and records are deduplicated by key. -/
def optimizeLineStep (psl : PslLib) (st : OptimizeState) (line : String)
    (index : Nat) : OptimizeState :=
  let trimmedLine := jsTrim line
  if jsStartsWithChar trimmedLine '#' then
    { st with comments := st.comments ++ [(index, line)] }
  else if trimmedLine = "" then st
  else
    match parseAdsTxtLine psl line (Int.ofNat index + 1) with
    | .error _ => st
    | .ok none => st
    | .ok (some parsedEntry) =>
      if !entryIsValid parsedEntry then st
      else
        match parsedEntry with
        | .varEntry v =>
          let st :=
            if v.variable_type = .OWNERDOMAIN then
              { st with hasOwnerDomain := true }
            else st
          let key := v.variable_type.str ++ "|" ++ jsToLower v.value
          if !mapHas key st.uniqueVariableMap then
            { st with
              uniqueVariableMap := mapSet key v st.uniqueVariableMap,
              parsedEntries := st.parsedEntries ++ [.varEntry v] }
          else st
        | .record r =>
          let key := jsToLower r.domain ++ "|" ++ r.account_id ++ "|" ++
            r.relationship.str
          if !mapHas key st.uniqueRecordMap then
            { st with
              uniqueRecordMap := mapSet key r st.uniqueRecordMap,
              parsedEntries := st.parsedEntries ++ [.record r] }
          else st

/-- Rendering of one record line (`certification_authority_id` appended
when truthy). -/
def formatRecordLine (record : ParsedAdsTxtRecord) : String :=
  let line := record.domain ++ ", " ++ record.account_id ++ ", " ++
    record.relationship.str
  match record.certification_authority_id with
  | some c => if c ≠ "" then line ++ ", " ++ c else line
  | none => line

/-- Variable-group output: keys sorted, a `# TYPE Variables` header, the
variables, then a blank line. -/
def renderVariableGroups (variableEntries : List ParsedAdsTxtVariable) :
    List String :=
  if variableEntries.length > 0 then
    let groupedVariables := variableEntries.foldl
      (fun g v => mapPush v.variable_type.str v g) []
    (stableSortBy jsCompare (groupedVariables.map (fun kv => kv.1))).flatMap
      fun variableType =>
        let groupVars := (mapGet? variableType groupedVariables).getD []
        ["# " ++ variableType ++ " Variables"] ++
          groupVars.map (fun v => v.variable_type.str ++ "=" ++ v.value) ++
          [""]
  else []

/-- Record-group output: the constant header, then per lowercased domain
(sorted) the DIRECT-first record lines. -/
def renderRecordGroups (recordEntries : List ParsedAdsTxtRecord) :
    List String :=
  ["# Advertising System Records"] ++
    (if recordEntries.length > 0 then
      let groupedRecords := recordEntries.foldl
        (fun g r => mapPush (jsTrim (jsToLower r.domain)) r g) []
      (stableSortBy jsCompare (groupedRecords.map (fun kv => kv.1))).flatMap
        fun domain =>
          let records := stableSortBy recCmp ((mapGet? domain groupedRecords).getD [])
          records.map formatRecordLine
    else [])

/-- `optimizeAdsTxt`. -/
def optimizeAdsTxt (psl : PslLib) (content : String)
    (publisherDomain : Option String) : String :=
  let lines := jsSplitChar '\n' content
  let st := (lines.enum).foldl
    (fun st p => optimizeLineStep psl st p.2 p.1) {}
  let parsedEntries :=
    if jsTruthyStr publisherDomain && !st.hasOwnerDomain then
      match psl.parseDomain (publisherDomain.getD "") with
      | .ok (some rootDomain) =>
        let defaultOwnerDomain : ParsedAdsTxtVariable :=
          { variable_type := .OWNERDOMAIN, value := rootDomain,
            line_number := -1, raw_line := "OWNERDOMAIN=" ++ rootDomain,
            is_valid := true }
        st.parsedEntries ++ [.varEntry defaultOwnerDomain]
      | .ok none => st.parsedEntries
      | .error _ => st.parsedEntries
    else st.parsedEntries
  let sortedEntries := stableSortBy entryCmp parsedEntries
  let headerLines :=
    match st.comments with
    | (0, text) :: _ => [text, ""]
    | _ => []
  let variableEntries := sortedEntries.filterMap entryVariable?
  let recordEntries := sortedEntries.filterMap entryRecord?
  let optimizedLines := headerLines ++ renderVariableGroups variableEntries ++
    renderRecordGroups recordEntries
  String.intercalate "\n" optimizedLines

/-! ## Helper lemmas: association maps -/

theorem mapGet?_mapSet_self (k : String) (v : α) (m : List (String × α)) :
    mapGet? k (mapSet k v m) = some v := by
  induction m with
  | nil => simp [mapSet, mapGet?]
  | cons kv t ih =>
    by_cases h : kv.1 = k
    · simp [mapSet, h, mapGet?]
    · simp [mapSet, h, mapGet?, ih]

theorem mapGet?_mapSet_ne (k k' : String) (v : α) (m : List (String × α))
    (h : k' ≠ k) : mapGet? k (mapSet k' v m) = mapGet? k m := by
  induction m with
  | nil => simp [mapSet, mapGet?, h]
  | cons kv t ih =>
    by_cases hk : kv.1 = k'
    · have hkk : kv.1 ≠ k := by rw [hk]; exact h
      simp [mapSet, hk, mapGet?, h, hkk]
    · by_cases hk2 : kv.1 = k
      · simp [mapSet, hk, mapGet?, hk2, Ne.symm h]
      · simp [mapSet, hk, mapGet?, hk2, ih]

theorem mapHas_iff_mapGet?_isSome (k : String) (m : List (String × α)) :
    mapHas k m = ((mapGet? k m).isSome) := by
  induction m with
  | nil => simp [mapHas, mapGet?]
  | cons kv t ih =>
    by_cases h : kv.1 = k
    · simp [mapHas, mapGet?, h]
    · simp [mapHas, mapGet?, h, ih]

theorem mapHas_mapSet (k k' : String) (v : α) (m : List (String × α)) :
    mapHas k (mapSet k' v m) = ((k' = k) || mapHas k m) := by
  by_cases h : k' = k
  · subst h
    simp [mapHas_iff_mapGet?_isSome, mapGet?_mapSet_self]
  · simp [mapHas_iff_mapGet?_isSome, mapGet?_mapSet_ne _ _ _ _ h, h]

/-- Keys of a map, in order. -/
def mapKeys (m : List (String × α)) : List String := m.map (fun kv => kv.1)

theorem mapKeys_mapSet_of_has (k : String) (v : α) (m : List (String × α))
    (h : mapHas k m = true) : mapKeys (mapSet k v m) = mapKeys m := by
  induction m with
  | nil => simp [mapHas] at h
  | cons kv t ih =>
    by_cases hk : kv.1 = k
    · simp [mapSet, hk, mapKeys]
    · simp [mapHas, hk] at h
      simp only [mapSet, if_neg hk, mapKeys, List.map_cons]
      simp only [mapKeys] at ih
      rw [ih h]

theorem mapKeys_mapSet_of_not_has (k : String) (v : α) (m : List (String × α))
    (h : mapHas k m = false) : mapKeys (mapSet k v m) = mapKeys m ++ [k] := by
  induction m with
  | nil => simp [mapSet, mapKeys]
  | cons kv t ih =>
    by_cases hk : kv.1 = k
    · simp [mapHas, hk] at h
    · simp [mapHas, hk] at h
      simp only [mapSet, if_neg hk, mapKeys, List.map_cons]
      simp only [mapKeys] at ih
      rw [ih h]
      simp

theorem mapHas_iff_mem_mapKeys (k : String) (m : List (String × α)) :
    mapHas k m = true ↔ k ∈ mapKeys m := by
  induction m with
  | nil => simp [mapHas, mapKeys]
  | cons kv t ih =>
    by_cases h : kv.1 = k
    · simp [mapHas, mapKeys, h]
    · simp [mapHas, mapKeys, h, Ne.symm h, ih]

/-! ## Relationship-validator field lemmas -/

theorem vdr_resellerAccount (vr : CrossCheckValidationResult)
    (ms : Option Seller) (pd id : String) (cnts : List (String × Nat))
    (es : List ParsedAdsTxtEntry) :
    (validateDirectRelationship vr ms pd id cnts es).resellerAccountIdInSellersJson = none := by
  unfold validateDirectRelationship
  cases ms with
  | none => simp
  | some seller =>
    dsimp only
    rcases h : mapGet? id cnts with _ | cnt <;> split_ifs <;> simp [h]

theorem vdr_resellerDomain (vr : CrossCheckValidationResult)
    (ms : Option Seller) (pd id : String) (cnts : List (String × Nat))
    (es : List ParsedAdsTxtEntry) :
    (validateDirectRelationship vr ms pd id cnts es).resellerDomainMatchesSellerJsonEntry = none := by
  unfold validateDirectRelationship
  cases ms with
  | none => simp
  | some seller =>
    dsimp only
    rcases h : mapGet? id cnts with _ | cnt <;> split_ifs <;> simp [h]

theorem vdr_resellerIntermediary (vr : CrossCheckValidationResult)
    (ms : Option Seller) (pd id : String) (cnts : List (String × Nat))
    (es : List ParsedAdsTxtEntry) :
    (validateDirectRelationship vr ms pd id cnts es).resellerEntryHasIntermediaryType = none := by
  unfold validateDirectRelationship
  cases ms with
  | none => simp
  | some seller =>
    dsimp only
    rcases h : mapGet? id cnts with _ | cnt <;> split_ifs <;> simp [h]

theorem vdr_resellerUnique (vr : CrossCheckValidationResult)
    (ms : Option Seller) (pd id : String) (cnts : List (String × Nat))
    (es : List ParsedAdsTxtEntry) :
    (validateDirectRelationship vr ms pd id cnts es).resellerSellerIdIsUnique = none := by
  unfold validateDirectRelationship
  cases ms with
  | none => simp
  | some seller =>
    dsimp only
    rcases h : mapGet? id cnts with _ | cnt <;> split_ifs <;> simp [h]

theorem vdr_hasSellerJson (vr : CrossCheckValidationResult)
    (ms : Option Seller) (pd id : String) (cnts : List (String × Nat))
    (es : List ParsedAdsTxtEntry) :
    (validateDirectRelationship vr ms pd id cnts es).hasSellerJson =
      vr.hasSellerJson := by
  unfold validateDirectRelationship
  cases ms with
  | none => simp
  | some seller =>
    dsimp only
    rcases h : mapGet? id cnts with _ | cnt <;> split_ifs <;> simp [h]

theorem vrr_directDomain (vr : CrossCheckValidationResult)
    (ms : Option Seller) (pd id : String) (cnts : List (String × Nat))
    (es : List ParsedAdsTxtEntry) :
    (validateResellerRelationship vr ms pd id cnts es).directDomainMatchesSellerJsonEntry = none := by
  unfold validateResellerRelationship
  cases ms with
  | none => simp
  | some seller =>
    dsimp only
    rcases h : mapGet? id cnts with _ | cnt <;> split_ifs <;> simp [h]

theorem vrr_directPublisher (vr : CrossCheckValidationResult)
    (ms : Option Seller) (pd id : String) (cnts : List (String × Nat))
    (es : List ParsedAdsTxtEntry) :
    (validateResellerRelationship vr ms pd id cnts es).directEntryHasPublisherType = none := by
  unfold validateResellerRelationship
  cases ms with
  | none => simp
  | some seller =>
    dsimp only
    rcases h : mapGet? id cnts with _ | cnt <;> split_ifs <;> simp [h]

theorem vrr_directUnique (vr : CrossCheckValidationResult)
    (ms : Option Seller) (pd id : String) (cnts : List (String × Nat))
    (es : List ParsedAdsTxtEntry) :
    (validateResellerRelationship vr ms pd id cnts es).directSellerIdIsUnique = none := by
  unfold validateResellerRelationship
  cases ms with
  | none => simp
  | some seller =>
    dsimp only
    rcases h : mapGet? id cnts with _ | cnt <;> split_ifs <;> simp [h]

theorem vrr_hasSellerJson (vr : CrossCheckValidationResult)
    (ms : Option Seller) (pd id : String) (cnts : List (String × Nat))
    (es : List ParsedAdsTxtEntry) :
    (validateResellerRelationship vr ms pd id cnts es).hasSellerJson =
      vr.hasSellerJson := by
  unfold validateResellerRelationship
  cases ms with
  | none => simp
  | some seller =>
    dsimp only
    rcases h : mapGet? id cnts with _ | cnt <;> split_ifs <;> simp [h]

/-! ## Claim C3 -/

/-- C3: whenever a validation result has `hasSellerJson = false`, the
warning synthesizer produces exactly one warning, `noSellersJson` with the
record's domain as its parameter, and performs no further checks (all other
fields of the validation result are irrelevant). -/
theorem generateWarnings_no_sellers_json (record : ParsedAdsTxtRecord)
    (validationResult : CrossCheckValidationResult) (publisherDomain : String)
    (h : validationResult.hasSellerJson = false) :
    generateWarnings record validationResult publisherDomain =
      [{ key := VALIDATION_KEYS.NO_SELLERS_JSON,
         params := [("domain", record.domain)], severity := .warning }] := by
  simp [generateWarnings, h, createWarning]

/-- Witness for C3 at a concrete record and validation result. -/
theorem generateWarnings_no_sellers_json_witness :
    createInitialValidationResult.hasSellerJson = false ∧
    generateWarnings
      { domain := "openx.com", account_id := "541058490",
        account_type := "RESELLER", relationship := .RESELLER,
        line_number := 1, raw_line := "", is_valid := true }
      createInitialValidationResult "pub.com" =
      [{ key := VALIDATION_KEYS.NO_SELLERS_JSON,
         params := [("domain", "openx.com")], severity := .warning }] :=
  ⟨rfl, generateWarnings_no_sellers_json _ _ _ rfl⟩

/-! ## Claim C2 -/

/-- C2 counterexample: for a RESELLER record with a matched seller, the
returned validation result carries `directAccountIdInSellersJson = true`
(a boolean, not null), refuting the claim that every DIRECT-specific field
(that one included) is null when the relationship is RESELLER. -/
theorem c2_direct_account_field_not_null_counterexample :
    ((validateSingleRecordOptimized
      { domain := "ssp.com", account_id := "s1", account_type := "RESELLER",
        relationship := .RESELLER, line_number := 1,
        raw_line := "ssp.com, s1, RESELLER", is_valid := true }
      "pub.com"
      [("s1", { seller_id := "s1", domain := some "pub.com",
                seller_type := some "INTERMEDIARY" })]
      {} []).validation_results.map
        (fun vr => vr.directAccountIdInSellersJson)) = some (some true) := by
  decide

/-- The validation result that `validateSingleRecordOptimized` attaches to
its output (the record assembly stripped away). -/
def vsroFinalVR (record : ParsedAdsTxtRecord) (publisherDomain : String)
    (sellersMap : List (String × Seller)) (metadata : SellersJsonMetadata)
    (allEntries : List ParsedAdsTxtEntry) : CrossCheckValidationResult :=
  let vr0 := { createInitialValidationResult with
    hasSellerJson := sellersMap.length > 0 || metadata.hasKeys }
  if !vr0.hasSellerJson then vr0
  else
    let normalizedAccountId := jsTrim record.account_id
    let matchingSeller := mapGet? normalizedAccountId sellersMap
    let vr1 := { vr0 with
      sellerData := matchingSeller,
      directAccountIdInSellersJson := some matchingSeller.isSome }
    let sellerIdCounts : List (String × Nat) :=
      if (metadata.seller_count.getD 0) > 0 then
        sellersMap.foldl (fun m kv => mapSet kv.1 1 m) []
      else []
    match record.relationship with
    | .DIRECT =>
      validateDirectRelationship vr1 matchingSeller publisherDomain
        normalizedAccountId sellerIdCounts allEntries
    | .RESELLER =>
      validateResellerRelationship vr1 matchingSeller publisherDomain
        normalizedAccountId sellerIdCounts allEntries

theorem vsro_validation_results (record : ParsedAdsTxtRecord)
    (publisherDomain : String) (sellersMap : List (String × Seller))
    (metadata : SellersJsonMetadata) (allEntries : List ParsedAdsTxtEntry) :
    (validateSingleRecordOptimized record publisherDomain sellersMap metadata
      allEntries).validation_results =
      some (vsroFinalVR record publisherDomain sellersMap metadata allEntries) := by
  unfold validateSingleRecordOptimized vsroFinalVR
  dsimp only
  split_ifs with hs
  · simp [createWarningRecord]
  all_goals (split <;> rfl)

theorem vsroFinalVR_reseller_fields (record : ParsedAdsTxtRecord)
    (publisherDomain : String) (sellersMap : List (String × Seller))
    (metadata : SellersJsonMetadata) (allEntries : List ParsedAdsTxtEntry)
    (hrel : record.relationship = .RESELLER) :
    (vsroFinalVR record publisherDomain sellersMap metadata
      allEntries).directDomainMatchesSellerJsonEntry = none ∧
    (vsroFinalVR record publisherDomain sellersMap metadata
      allEntries).directEntryHasPublisherType = none ∧
    (vsroFinalVR record publisherDomain sellersMap metadata
      allEntries).directSellerIdIsUnique = none := by
  unfold vsroFinalVR
  dsimp only
  split_ifs with hs
  · simp [createInitialValidationResult]
  all_goals rw [hrel]
  all_goals dsimp only
  all_goals exact ⟨vrr_directDomain _ _ _ _ _ _, vrr_directPublisher _ _ _ _ _ _, vrr_directUnique _ _ _ _ _ _⟩

theorem vsroFinalVR_direct_fields (record : ParsedAdsTxtRecord)
    (publisherDomain : String) (sellersMap : List (String × Seller))
    (metadata : SellersJsonMetadata) (allEntries : List ParsedAdsTxtEntry)
    (hrel : record.relationship = .DIRECT) :
    (vsroFinalVR record publisherDomain sellersMap metadata
      allEntries).resellerAccountIdInSellersJson = none ∧
    (vsroFinalVR record publisherDomain sellersMap metadata
      allEntries).resellerDomainMatchesSellerJsonEntry = none ∧
    (vsroFinalVR record publisherDomain sellersMap metadata
      allEntries).resellerEntryHasIntermediaryType = none ∧
    (vsroFinalVR record publisherDomain sellersMap metadata
      allEntries).resellerSellerIdIsUnique = none := by
  unfold vsroFinalVR
  dsimp only
  split_ifs with hs
  · simp [createInitialValidationResult]
  all_goals rw [hrel]
  all_goals dsimp only
  all_goals exact ⟨vdr_resellerAccount _ _ _ _ _ _, vdr_resellerDomain _ _ _ _ _ _, vdr_resellerIntermediary _ _ _ _ _ _, vdr_resellerUnique _ _ _ _ _ _⟩

/-- C2 amended: the RESELLER branch nulls the three remaining
DIRECT-specific fields (`directDomainMatchesSellerJsonEntry`,
`directEntryHasPublisherType`, `directSellerIdIsUnique`), and the DIRECT
branch nulls all four RESELLER-specific fields;
`directAccountIdInSellersJson` is a plain boolean set for both
relationships and is not reset to null. -/
theorem validateSingleRecordOptimized_fields_reset
    (record : ParsedAdsTxtRecord) (publisherDomain : String)
    (sellersMap : List (String × Seller)) (metadata : SellersJsonMetadata)
    (allEntries : List ParsedAdsTxtEntry) :
    (record.relationship = .RESELLER →
      (validateSingleRecordOptimized record publisherDomain sellersMap
        metadata allEntries).validation_results.map
        (fun vr => (vr.directDomainMatchesSellerJsonEntry,
                    vr.directEntryHasPublisherType,
                    vr.directSellerIdIsUnique)) = some (none, none, none)) ∧
    (record.relationship = .DIRECT →
      (validateSingleRecordOptimized record publisherDomain sellersMap
        metadata allEntries).validation_results.map
        (fun vr => (vr.resellerAccountIdInSellersJson,
                    vr.resellerDomainMatchesSellerJsonEntry,
                    vr.resellerEntryHasIntermediaryType,
                    vr.resellerSellerIdIsUnique)) =
        some (none, none, none, none)) := by
  constructor <;> intro hrel <;> rw [vsro_validation_results]
  · have h := vsroFinalVR_reseller_fields record publisherDomain sellersMap
      metadata allEntries hrel
    simp [h.1, h.2.1, h.2.2]
  · have h := vsroFinalVR_direct_fields record publisherDomain sellersMap
      metadata allEntries hrel
    simp [h.1, h.2.1, h.2.2.1, h.2.2.2]

/-- Witness for the amended C2 at a concrete RESELLER record. -/
theorem validateSingleRecordOptimized_fields_reset_witness :
    (ParsedAdsTxtRecord.relationship
      { domain := "ssp.com", account_id := "s1", account_type := "RESELLER",
        relationship := .RESELLER, line_number := 1,
        raw_line := "ssp.com, s1, RESELLER", is_valid := true } = .RESELLER) ∧
    (validateSingleRecordOptimized
      { domain := "ssp.com", account_id := "s1", account_type := "RESELLER",
        relationship := .RESELLER, line_number := 1,
        raw_line := "ssp.com, s1, RESELLER", is_valid := true }
      "pub.com"
      [("s1", { seller_id := "s1", domain := some "pub.com",
                seller_type := some "INTERMEDIARY" })]
      {} []).validation_results.map
        (fun vr => (vr.directDomainMatchesSellerJsonEntry,
                    vr.directEntryHasPublisherType,
                    vr.directSellerIdIsUnique)) = some (none, none, none) :=
  ⟨rfl, (validateSingleRecordOptimized_fields_reset _ "pub.com" _ {} []).1 rfl⟩

/-! ## Claim C6 -/

theorem mapGet?_ne_nil {k : String} {m : List (String × α)} {v : α}
    (h : mapGet? k m = some v) : m ≠ [] := by
  intro hnil
  subst hnil
  simp [mapGet?] at h

theorem vsroFinalVR_hasSellerJson (record : ParsedAdsTxtRecord)
    (publisherDomain : String) (sellersMap : List (String × Seller))
    (metadata : SellersJsonMetadata) (allEntries : List ParsedAdsTxtEntry) :
    (vsroFinalVR record publisherDomain sellersMap metadata
      allEntries).hasSellerJson =
      (decide (sellersMap.length > 0) || metadata.hasKeys) := by
  unfold vsroFinalVR
  dsimp only
  split_ifs with hs
  · rfl
  all_goals cases hrel : record.relationship
  all_goals dsimp only
  all_goals simp [vdr_hasSellerJson, vrr_hasSellerJson]

theorem createWarning_key (k : String) (ps : List (String × String))
    (sv : Severity) : (createWarning k ps sv).key = k := rfl

theorem mem_ite_singleton {c : Prop} [Decidable c] {w x : α}
    (h : w ∈ (if c then [x] else [])) : w = x := by
  split at h
  · simpa using h
  · simp at h

/-- A DIRECT record whose domain-match field is not the boolean `false`
never receives a `domainMismatch` warning from the synthesizer. -/
theorem generateWarnings_no_domain_mismatch_of_direct
    (record : ParsedAdsTxtRecord) (vr : CrossCheckValidationResult)
    (publisherDomain : String) (hrel : record.relationship = .DIRECT)
    (hdm : vr.directDomainMatchesSellerJsonEntry ≠ some false) :
    ∀ w ∈ generateWarnings record vr publisherDomain,
      w.key ≠ VALIDATION_KEYS.DOMAIN_MISMATCH := by
  intro w hw
  unfold generateWarnings at hw
  by_cases h1 : (!vr.hasSellerJson) = true
  · rw [if_pos h1] at hw
    rcases List.mem_singleton.1 hw with rfl
    rw [createWarning_key]
    decide
  · rw [if_neg h1] at hw
    by_cases h2 : (!jsTruthyOB vr.directAccountIdInSellersJson) = true
    · rw [if_pos h2] at hw
      split_ifs at hw <;>
        (rcases List.mem_singleton.1 hw with rfl; rw [createWarning_key]) <;>
        decide
    · rw [if_neg h2] at hw
      dsimp only at hw
      rw [if_neg (by simp [hdm]), if_neg (by simp [hrel])] at hw
      simp only [List.nil_append] at hw
      rcases List.mem_append.1 hw with hw1 | hE
      · rcases List.mem_append.1 hw1 with hC | hD
        · rcases mem_ite_singleton hC with rfl
          rw [createWarning_key]
          decide
        · rcases mem_ite_singleton hD with rfl
          rw [createWarning_key]
          decide
      · rcases mem_ite_singleton hE with rfl
        rw [createWarning_key]
        decide

/-- C6: for a DIRECT record whose matched seller is confidential
(`is_confidential = 1`) or has no domain, the attached
`directDomainMatchesSellerJsonEntry` is null (never false) and no
`domainMismatch` warning is synthesized, whatever the publisher, owner and
manager domains are. -/
theorem direct_confidential_seller_null_no_mismatch
    (record : ParsedAdsTxtRecord) (publisherDomain : String)
    (sellersMap : List (String × Seller)) (metadata : SellersJsonMetadata)
    (allEntries : List ParsedAdsTxtEntry) (s : Seller)
    (hrel : record.relationship = .DIRECT)
    (hfind : mapGet? (jsTrim record.account_id) sellersMap = some s)
    (hcd : s.is_confidential = some 1 ∨ s.domain = none) :
    (vsroFinalVR record publisherDomain sellersMap metadata
      allEntries).directDomainMatchesSellerJsonEntry = none ∧
    (∀ w ∈ generateWarnings record
        (vsroFinalVR record publisherDomain sellersMap metadata allEntries)
        publisherDomain,
      w.key ≠ VALIDATION_KEYS.DOMAIN_MISMATCH) ∧
    (validateSingleRecordOptimized record publisherDomain sellersMap metadata
      allEntries).validation_results =
      some (vsroFinalVR record publisherDomain sellersMap metadata allEntries) := by
  have hne : sellersMap ≠ [] := mapGet?_ne_nil hfind
  have hlen : sellersMap.length > 0 := by
    cases sellersMap with
    | nil => exact absurd rfl hne
    | cons a t => simp
  have hmain : (vsroFinalVR record publisherDomain sellersMap metadata
      allEntries).directDomainMatchesSellerJsonEntry = none := by
    unfold vsroFinalVR
    dsimp only
    rw [if_neg (by simp [hlen])]
    rw [hrel]
    dsimp only
    unfold validateDirectRelationship
    rw [hfind]
    dsimp only
    have hcond : (s.is_confidential = some 1 || !jsTruthyStr s.domain) = true := by
      rcases hcd with h1 | h2
      · simp [h1]
      · simp [h2, jsTruthyStr]
    rw [if_pos hcond]
    rcases h : mapGet? (jsTrim record.account_id)
        (if metadata.seller_count.getD 0 > 0 then
          List.foldl (fun m kv => mapSet kv.1 1 m) [] sellersMap
        else []) with _ | cnt <;> simp [h]
  refine ⟨hmain, ?_, vsro_validation_results _ _ _ _ _⟩
  exact generateWarnings_no_domain_mismatch_of_direct _ _ _ hrel
    (by rw [hmain]; simp)

/-- Witness for C6 at a concrete confidential seller. -/
theorem direct_confidential_seller_null_no_mismatch_witness :
    (ParsedAdsTxtRecord.relationship
      { domain := "ssp.com", account_id := "s1", account_type := "DIRECT",
        relationship := .DIRECT, line_number := 1,
        raw_line := "ssp.com, s1, DIRECT", is_valid := true } = .DIRECT) ∧
    (mapGet? (jsTrim "s1")
      [("s1", { seller_id := "s1", domain := some "other.com",
                seller_type := some "PUBLISHER",
                is_confidential := some 1 : Seller })] =
      some { seller_id := "s1", domain := some "other.com",
             seller_type := some "PUBLISHER", is_confidential := some 1 }) ∧
    (vsroFinalVR
      { domain := "ssp.com", account_id := "s1", account_type := "DIRECT",
        relationship := .DIRECT, line_number := 1,
        raw_line := "ssp.com, s1, DIRECT", is_valid := true }
      "pub.com"
      [("s1", { seller_id := "s1", domain := some "other.com",
                seller_type := some "PUBLISHER", is_confidential := some 1 })]
      {} []).directDomainMatchesSellerJsonEntry = none :=
  ⟨rfl, rfl,
    (direct_confidential_seller_null_no_mismatch
      { domain := "ssp.com", account_id := "s1", account_type := "DIRECT",
        relationship := .DIRECT, line_number := 1,
        raw_line := "ssp.com, s1, DIRECT", is_valid := true }
      "pub.com"
      [("s1", { seller_id := "s1", domain := some "other.com",
                seller_type := some "PUBLISHER", is_confidential := some 1 })]
      {} []
      { seller_id := "s1", domain := some "other.com",
        seller_type := some "PUBLISHER", is_confidential := some 1 }
      rfl rfl (Or.inl rfl)).1⟩

/-! ## Claim C1 -/

/-- C1: whenever the cross-check body (duplicate detection, seller
fetching, validation, warning synthesis) raises, `crossCheckAdsTxtRecords`
with a defined publisher domain catches the exception and returns the
original input entries unchanged; being a total function into
`List ParsedAdsTxtEntry`, it never propagates the exception. -/
theorem crossCheck_error_returns_entries (psl : PslLib) (pd : String)
    (entries : List ParsedAdsTxtEntry) (cached : Option String)
    (access : SellerAccess) (e : String)
    (h : crossCheckBody psl pd entries cached access = .error e) :
    crossCheckAdsTxtRecords psl (some pd) entries cached access = entries := by
  unfold crossCheckAdsTxtRecords
  by_cases hpd : pd = ""
  · simp [jsTruthyStr, hpd]
  · simp only [jsTruthyStr, hpd]
    simp [h]

/-- Witness for C1: a cross-check whose cached-content parse calls a
throwing `psl.isValid` propagates the error to the top-level catch, which
returns the input entries. -/
theorem crossCheck_error_returns_entries_witness :
    crossCheckBody ⟨fun _ => .error "boom", fun _ => .ok none⟩ "pub.com" []
      (some "a.com, 1, DIRECT") (.legacy (fun _ => .ok none)) =
      .error "boom" ∧
    crossCheckAdsTxtRecords ⟨fun _ => .error "boom", fun _ => .ok none⟩
      (some "pub.com") [] (some "a.com, 1, DIRECT")
      (.legacy (fun _ => .ok none)) = [] :=
  ⟨by rfl,
    crossCheck_error_returns_entries _ _ _ _ _ "boom" (by rfl)⟩

/-! ## Claim C8 -/

/-- C8 (code bug): `optimizeAdsTxt` is not a fixed point of itself.  Its
output begins with the generated header comment
`# Advertising System Records`; a second run preserves that first line as a
leading comment and emits the header again, prepending two lines. -/
theorem optimizeAdsTxt_not_idempotent :
    optimizeAdsTxt ⟨fun d => .ok (d = "example.com"), fun d => .ok (some d)⟩
        "example.com, 1, DIRECT" none =
      "# Advertising System Records\nexample.com, 1, DIRECT" ∧
    optimizeAdsTxt ⟨fun d => .ok (d = "example.com"), fun d => .ok (some d)⟩
        (optimizeAdsTxt ⟨fun d => .ok (d = "example.com"), fun d => .ok (some d)⟩
          "example.com, 1, DIRECT" none) none ≠
      optimizeAdsTxt ⟨fun d => .ok (d = "example.com"), fun d => .ok (some d)⟩
        "example.com, 1, DIRECT" none := by
  constructor
  · rfl
  · decide

/-! ## Claim C5 counterexample -/

/-- C5 counterexample: on the legacy path a fetch exception is converted
into a `sellersJsonValidationError` warning on the record, which differs
from the empty-result state (a `null` fetch result), whose records get
`noSellersJson`. -/
theorem legacy_fetch_error_not_empty_state_counterexample :
    ((validateAgainstSellersJson "pub.com"
        [{ domain := "ssp.com", account_id := "s1", account_type := "RESELLER",
           relationship := .RESELLER, line_number := 1,
           raw_line := "ssp.com, s1, RESELLER", is_valid := true }]
        (fun _ => .error "network down") []).map
      (fun r => r.validation_key)) =
      [some VALIDATION_KEYS.SELLERS_JSON_VALIDATION_ERROR] ∧
    ((validateAgainstSellersJson "pub.com"
        [{ domain := "ssp.com", account_id := "s1", account_type := "RESELLER",
           relationship := .RESELLER, line_number := 1,
           raw_line := "ssp.com, s1, RESELLER", is_valid := true }]
        (fun _ => .ok none) []).map
      (fun r => r.validation_key)) =
      [some VALIDATION_KEYS.NO_SELLERS_JSON] ∧
    VALIDATION_KEYS.SELLERS_JSON_VALIDATION_ERROR ≠
      VALIDATION_KEYS.NO_SELLERS_JSON := by
  refine ⟨by rfl, by rfl, by decide⟩

/-! ## Batch-path decomposition lemmas -/

/-- The seller ids the grouping loop collects for one lowercased domain. -/
def validIdsFor (records : List ParsedAdsTxtRecord) (d : String) :
    List String :=
  (records.filter (fun r => r.is_valid && jsToLower r.domain = d)).map
    (fun r => r.account_id)

theorem mapGet?_none_of_not_has {k : String} {m : List (String × α)}
    (h : mapHas k m = false) : mapGet? k m = none := by
  rw [mapHas_iff_mapGet?_isSome] at h
  cases hm : mapGet? k m
  · rfl
  · rw [hm] at h
    simp at h

theorem buildStep_get?_valid
    (acc : List (String × List String) × List (String × List ParsedAdsTxtRecord))
    (r : ParsedAdsTxtRecord) (hv : r.is_valid = true) (x : String) :
    mapGet? x (buildDomainMapsStep acc r).1 =
      if x = jsToLower r.domain then
        some (((mapGet? (jsToLower r.domain) acc.1).getD []) ++ [r.account_id])
      else mapGet? x acc.1 := by
  have hstep : (buildDomainMapsStep acc r).1 =
      mapPush (jsToLower r.domain) r.account_id
        (if (!mapHas (jsToLower r.domain) acc.1) = true then
          mapSet (jsToLower r.domain) [] acc.1
        else acc.1) := by
    unfold buildDomainMapsStep
    rw [hv]
    simp only [Bool.not_true]
    rw [if_neg (by simp)]
    dsimp only
    split_ifs with h <;> rfl
  rw [hstep]
  by_cases hhas : mapHas (jsToLower r.domain) acc.1 = true
  · have hcond : ¬(!mapHas (jsToLower r.domain) acc.1) = true := by simp [hhas]
    rw [if_neg hcond]
    unfold mapPush
    by_cases hx : x = jsToLower r.domain
    · subst hx
      rw [if_pos rfl, mapGet?_mapSet_self]
    · rw [if_neg hx, mapGet?_mapSet_ne _ _ _ _ (fun h => hx h.symm)]
  · have hf : mapHas (jsToLower r.domain) acc.1 = false :=
      Bool.eq_false_iff.2 hhas
    have hcond : (!mapHas (jsToLower r.domain) acc.1) = true := by
      rw [hf]
      rfl
    rw [if_pos hcond]
    unfold mapPush
    by_cases hx : x = jsToLower r.domain
    · subst hx
      rw [if_pos rfl, mapGet?_mapSet_self, mapGet?_mapSet_self,
        mapGet?_none_of_not_has hf]
      rfl
    · rw [if_neg hx, mapGet?_mapSet_ne _ _ _ _ (fun h => hx h.symm),
        mapGet?_mapSet_ne _ _ _ _ (fun h => hx h.symm)]

theorem buildFold_get? (d : String) (rs : List ParsedAdsTxtRecord) :
    ∀ acc : List (String × List String) ×
      List (String × List ParsedAdsTxtRecord),
    mapGet? d ((rs.foldl buildDomainMapsStep acc).1) =
      match mapGet? d acc.1 with
      | some l => some (l ++ validIdsFor rs d)
      | none =>
        if rs.any (fun r => r.is_valid && jsToLower r.domain = d) then
          some (validIdsFor rs d)
        else none := by
  induction rs with
  | nil =>
    intro acc
    cases h : mapGet? d acc.1 <;> simp [validIdsFor, h]
  | cons r rs' ih =>
    intro acc
    rw [List.foldl_cons, ih (buildDomainMapsStep acc r)]
    by_cases hv : r.is_valid = true
    · rw [buildStep_get?_valid acc r hv d]
      by_cases hdd : d = jsToLower r.domain
      · rw [if_pos hdd]
        have hfil : validIdsFor (r :: rs') d =
            r.account_id :: validIdsFor rs' d := by
          simp [validIdsFor, hv, hdd.symm]
        have hany : ((r :: rs').any
            (fun rr => rr.is_valid && jsToLower rr.domain = d)) = true := by
          simp [List.any_cons, hv, hdd.symm]
        rw [hfil, hany]
        cases h : mapGet? d acc.1 <;> simp [← hdd, h]
      · rw [if_neg hdd]
        have hne : ¬jsToLower r.domain = d := fun hh => hdd hh.symm
        have hfil : validIdsFor (r :: rs') d = validIdsFor rs' d := by
          simp [validIdsFor, hne]
        have hany : ((r :: rs').any
            (fun rr => rr.is_valid && jsToLower rr.domain = d)) =
            (rs'.any (fun rr => rr.is_valid && jsToLower rr.domain = d)) := by
          simp [List.any_cons, hne]
        rw [hfil, hany]
    · have hstep : buildDomainMapsStep acc r = acc := by
        unfold buildDomainMapsStep
        rw [Bool.eq_false_iff.2 (fun hh => hv hh)]
        rfl
      rw [hstep]
      have hfil : validIdsFor (r :: rs') d = validIdsFor rs' d := by
        simp [validIdsFor, Bool.eq_false_iff.2 (fun hh => hv hh)]
      have hany : ((r :: rs').any
          (fun rr => rr.is_valid && jsToLower rr.domain = d)) =
          (rs'.any (fun rr => rr.is_valid && jsToLower rr.domain = d)) := by
        simp [List.any_cons, Bool.eq_false_iff.2 (fun hh => hv hh)]
      rw [hfil, hany]

theorem buildDomainMaps_get? (records : List ParsedAdsTxtRecord) (d : String) :
    mapGet? d (buildDomainMaps records).1 =
      (if records.any (fun r => r.is_valid && jsToLower r.domain = d) then
        some (validIdsFor records d)
      else none) := by
  unfold buildDomainMaps
  rw [buildFold_get? d records ([], [])]
  rfl

theorem buildStep_keys_nodup
    (acc : List (String × List String) × List (String × List ParsedAdsTxtRecord))
    (r : ParsedAdsTxtRecord) (h : (mapKeys acc.1).Nodup) :
    (mapKeys (buildDomainMapsStep acc r).1).Nodup := by
  unfold buildDomainMapsStep
  cases hv : r.is_valid
  · simp only [hv, Bool.not_false, if_pos rfl]
    exact h
  · simp only [hv, Bool.not_true]
    rw [if_neg (by simp)]
    dsimp only
    by_cases hhas : mapHas (jsToLower r.domain) acc.1 = true
    · rw [if_neg (by simp [hhas])]
      unfold mapPush
      rw [mapKeys_mapSet_of_has _ _ _ hhas]
      exact h
    · have hf : mapHas (jsToLower r.domain) acc.1 = false :=
        Bool.eq_false_iff.2 hhas
      rw [if_pos (by rw [hf]; rfl)]
      dsimp only
      unfold mapPush
      have hhas2 : mapHas (jsToLower r.domain)
          (mapSet (jsToLower r.domain) ([] : List String) acc.1) = true := by
        rw [mapHas_mapSet]
        simp
      rw [mapKeys_mapSet_of_has _ _ _ hhas2,
        mapKeys_mapSet_of_not_has _ _ _ hf]
      have hdnotmem : jsToLower r.domain ∉ mapKeys acc.1 := by
        intro hm
        rw [← mapHas_iff_mem_mapKeys, hf] at hm
        cases hm
      simp [List.nodup_append, h, hdnotmem]

theorem buildFold_keys_nodup (rs : List ParsedAdsTxtRecord) :
    ∀ acc : List (String × List String) ×
      List (String × List ParsedAdsTxtRecord),
    (mapKeys acc.1).Nodup →
    (mapKeys ((rs.foldl buildDomainMapsStep acc).1)).Nodup := by
  induction rs with
  | nil => intro acc h; exact h
  | cons r rs' ih =>
    intro acc h
    rw [List.foldl_cons]
    exact ih _ (buildStep_keys_nodup acc r h)

theorem buildDomainMaps_keys_nodup (records : List ParsedAdsTxtRecord) :
    (mapKeys (buildDomainMaps records).1).Nodup :=
  buildFold_keys_nodup records ([], []) (by simp [mapKeys])

theorem fetchAll_trace (provider : SellersJsonProvider)
    (dm : List (String × List String)) :
    ∀ acc, ((dm.foldl (fetchAllStep provider) acc).2) =
      acc.2 ++ dm.flatMap
        (fun kv => (fetchDomainSellers provider kv.1 kv.2).2) := by
  induction dm with
  | nil => intro acc; simp
  | cons kv dm' ih =>
    intro acc
    rw [List.foldl_cons, ih]
    simp [fetchAllStep]

theorem fetchAll_untouched (provider : SellersJsonProvider)
    (dm : List (String × List String)) (d : String) :
    ∀ acc, d ∉ dm.map (fun kv => kv.1) →
      mapGet? d ((dm.foldl (fetchAllStep provider) acc).1) =
        mapGet? d acc.1 := by
  induction dm with
  | nil => intro acc _; rfl
  | cons kv dm' ih =>
    intro acc hmem
    simp only [List.map_cons, List.mem_cons] at hmem
    push_neg at hmem
    rw [List.foldl_cons, ih _ hmem.2]
    exact mapGet?_mapSet_ne _ _ _ _ (fun hh => hmem.1 hh.symm)

theorem fetchAll_get? (provider : SellersJsonProvider)
    (dm : List (String × List String)) (d : String) (ids : List String) :
    ∀ acc, (dm.map (fun kv => kv.1)).Nodup →
      mapGet? d dm = some ids →
      mapGet? d ((dm.foldl (fetchAllStep provider) acc).1) =
        some (fetchDomainSellers provider d ids).1 := by
  induction dm with
  | nil => intro acc _ h; simp [mapGet?] at h
  | cons kv dm' ih =>
    intro acc hnd hget
    rw [List.foldl_cons]
    by_cases hk : kv.1 = d
    · have hids : kv.2 = ids := by
        unfold mapGet? at hget
        rw [if_pos hk] at hget
        exact Option.some.inj hget
      have hnot : d ∉ dm'.map (fun kv => kv.1) := by
        simp only [List.map_cons, List.nodup_cons] at hnd
        rw [← hk]
        exact hnd.1
      rw [fetchAll_untouched provider dm' d _ hnot]
      unfold fetchAllStep
      dsimp only
      rw [← hk, ← hids, mapGet?_mapSet_self]
    · have hget' : mapGet? d dm' = some ids := by
        unfold mapGet? at hget
        rw [if_neg hk] at hget
        exact hget
      have hnd' : (dm'.map (fun kv => kv.1)).Nodup := by
        simp only [List.map_cons, List.nodup_cons] at hnd
        exact hnd.2
      exact ih _ hnd' hget'

/-- Positional decomposition of the batch validation: each valid record's
output depends only on its own (lowercased) domain's fetch, performed with
the seller ids collected for that domain. -/
theorem vwop_result_get? (publisherDomain : String)
    (records : List ParsedAdsTxtRecord) (provider : SellersJsonProvider)
    (allEntries : List ParsedAdsTxtEntry) (i : Nat) (r : ParsedAdsTxtRecord)
    (hi : records.get? i = some r) (hv : r.is_valid = true) :
    (validateWithOptimizedProvider publisherDomain records provider
      allEntries).1.get? i =
      some (validateSingleRecordOptimized r publisherDomain
        (fetchDomainSellers provider (jsToLower r.domain)
          (validIdsFor records (jsToLower r.domain))).1.1
        (fetchDomainSellers provider (jsToLower r.domain)
          (validIdsFor records (jsToLower r.domain))).1.2 allEntries) := by
  have hmem : r ∈ records := List.get?_mem hi
  have hany : (records.any
      (fun rr => rr.is_valid && jsToLower rr.domain = jsToLower r.domain)) = true := by
    rw [List.any_eq_true]
    exact ⟨r, hmem, by simp [hv]⟩
  have h1 : mapGet? (jsToLower r.domain) (buildDomainMaps records).1 =
      some (validIdsFor records (jsToLower r.domain)) := by
    rw [buildDomainMaps_get?, if_pos hany]
  have h2 : mapGet? (jsToLower r.domain)
      (fetchAllDomains provider (buildDomainMaps records).1).1 =
      some (fetchDomainSellers provider (jsToLower r.domain)
        (validIdsFor records (jsToLower r.domain))).1 := by
    unfold fetchAllDomains
    exact fetchAll_get? provider _ _ _ ([], [])
      (buildDomainMaps_keys_nodup records) h1
  unfold validateWithOptimizedProvider
  dsimp only
  rw [List.get?_map, hi]
  simp only [Option.map_some']
  rw [if_neg (by simp [hv]), h2]
  rfl

/-! ## Claim C4 and Claim C5 -/

/-- Predicate picking out `hasSellerJson` calls for one domain. -/
def isHasCallFor (d : String) : ProviderCall → Bool
  | .hasCall dd => dd = d
  | .batchCall _ _ => false

theorem fetchDomainSellers_trace_count (provider : SellersJsonProvider)
    (dk : String) (ids : List String) (d : String) :
    ((fetchDomainSellers provider dk ids).2).countP (isHasCallFor d) =
      if dk = d then 1 else 0 := by
  unfold fetchDomainSellers
  rcases h : provider.hasSellerJson dk with e | b
  · by_cases hdk : dk = d <;>
      simp [List.countP_cons, isHasCallFor, hdk]
  · cases b
    · by_cases hdk : dk = d <;>
        simp [List.countP_cons, isHasCallFor, hdk]
    · rcases hb : provider.batchGetSellers dk ids with e2 | br <;>
        by_cases hdk : dk = d <;>
        simp [List.countP_cons, isHasCallFor, hdk]

theorem trace_countP (provider : SellersJsonProvider)
    (dm : List (String × List String)) (d : String) :
    ((dm.flatMap (fun kv => (fetchDomainSellers provider kv.1 kv.2).2)).countP
      (isHasCallFor d)) =
      (dm.map (fun kv => kv.1)).countP (fun k => k = d) := by
  induction dm with
  | nil => simp
  | cons kv dm' ih =>
    rw [List.flatMap_cons, List.countP_append, ih,
      fetchDomainSellers_trace_count, List.map_cons, List.countP_cons]
    by_cases hk : kv.1 = d <;> simp [hk] <;> omega

theorem countP_eq_indicator (d : String) (l : List String) (h : l.Nodup) :
    l.countP (fun k => k = d) = if d ∈ l then 1 else 0 := by
  induction l with
  | nil => simp
  | cons a l' ih =>
    rw [List.nodup_cons] at h
    rw [List.countP_cons, ih h.2]
    by_cases ha : a = d
    · subst ha
      rw [if_neg h.1]
      simp
    · have hda : ¬d = a := fun hh => ha hh.symm
      simp [ha, hda, List.mem_cons]

theorem buildDomainMaps_has (records : List ParsedAdsTxtRecord) (d : String) :
    mapHas d (buildDomainMaps records).1 =
      records.any (fun r => r.is_valid && jsToLower r.domain = d) := by
  rw [mapHas_iff_mapGet?_isSome, buildDomainMaps_get?]
  by_cases h : (records.any (fun r => r.is_valid && jsToLower r.domain = d)) = true
  · simp [h]
  · simp [Bool.eq_false_iff.2 h]

/-- C4 amended: on the batch path `hasSellerJson` is called exactly once
per distinct lowercased domain of the valid records; when it returns
`false` (or throws) no `batchGetSellers` call is made for that domain and
every record of the domain stores `hasSellerJson = false`; when it returns
`true` and the batch succeeds, the stored `ValidationResult.hasSellerJson`
is true iff the batch returned at least one found seller or nonempty
metadata — not necessarily the provider's boolean. -/
theorem batch_provider_calls (publisherDomain : String)
    (records : List ParsedAdsTxtRecord) (provider : SellersJsonProvider)
    (allEntries : List ParsedAdsTxtEntry) (d : String) :
    (((validateWithOptimizedProvider publisherDomain records provider
        allEntries).2).countP (isHasCallFor d) =
      if records.any (fun r => r.is_valid && jsToLower r.domain = d) then 1
      else 0) ∧
    ((provider.hasSellerJson d = .ok false ∨
        ∃ msg, provider.hasSellerJson d = .error msg) →
      ∀ ids, ProviderCall.batchCall d ids ∉
        (validateWithOptimizedProvider publisherDomain records provider
          allEntries).2) ∧
    (∀ i r, records.get? i = some r → r.is_valid = true →
      jsToLower r.domain = d →
      ((provider.hasSellerJson d = .ok false ∨
          ∃ msg, provider.hasSellerJson d = .error msg) →
        ((validateWithOptimizedProvider publisherDomain records provider
          allEntries).1.get? i).map
          (fun res => res.validation_results.map (fun vr => vr.hasSellerJson)) =
          some (some false)) ∧
      (∀ br, provider.hasSellerJson d = .ok true →
        provider.batchGetSellers d (validIdsFor records d) = .ok br →
        ((validateWithOptimizedProvider publisherDomain records provider
          allEntries).1.get? i).map
          (fun res => res.validation_results.map (fun vr => vr.hasSellerJson)) =
          some (some (decide ((sellersMapOfResults br.results).length > 0) ||
            br.metadata.hasKeys)))) := by
  have htrace : (validateWithOptimizedProvider publisherDomain records
      provider allEntries).2 =
      (buildDomainMaps records).1.flatMap
        (fun kv => (fetchDomainSellers provider kv.1 kv.2).2) := by
    unfold validateWithOptimizedProvider fetchAllDomains
    dsimp only
    rw [fetchAll_trace]
    rfl
  refine ⟨?_, ?_, ?_⟩
  · rw [htrace, trace_countP,
      show (List.map (fun kv => kv.1) (buildDomainMaps records).1) =
        mapKeys (buildDomainMaps records).1 from rfl,
      countP_eq_indicator d _ (buildDomainMaps_keys_nodup records)]
    have hmem : (d ∈ mapKeys (buildDomainMaps records).1) ↔
        (records.any (fun r => r.is_valid && jsToLower r.domain = d)) = true := by
      rw [← mapHas_iff_mem_mapKeys, buildDomainMaps_has]
    by_cases h : (records.any
        (fun r => r.is_valid && jsToLower r.domain = d)) = true
    · rw [if_pos (hmem.2 h), if_pos h]
    · rw [if_neg (fun hm => h (hmem.1 hm)), if_neg h]
  · intro hFF ids hmem
    rw [htrace] at hmem
    rcases List.mem_flatMap.1 hmem with ⟨kv, _, hseg⟩
    revert hseg
    unfold fetchDomainSellers
    rcases h : provider.hasSellerJson kv.1 with e | b
    · intro hseg
      simp at hseg
    · cases b
      · intro hseg
        simp at hseg
      · rcases hb : provider.batchGetSellers kv.1 kv.2 with e2 | br <;>
          intro hseg <;>
          simp at hseg <;>
          rcases hseg with ⟨hd, hids⟩ <;>
          rw [← hd] at h <;>
          (rcases hFF with hf | ⟨msg, herr⟩
           · exact absurd (h.symm.trans hf) (by simp)
           · exact absurd (h.symm.trans herr) (by simp))
  · intro i r hi hv hd
    constructor
    · intro hFF
      have hfetch : (fetchDomainSellers provider (jsToLower r.domain)
          (validIdsFor records (jsToLower r.domain))).1 = ([], {}) := by
        unfold fetchDomainSellers
        rw [hd]
        rcases hFF with hf | ⟨msg, herr⟩
        · rw [hf]
        · rw [herr]
      rw [vwop_result_get? publisherDomain records provider allEntries i r hi
        hv, hfetch]
      dsimp only
      simp only [Option.map_some']
      rw [vsro_validation_results]
      simp only [Option.map_some']
      rw [vsroFinalVR_hasSellerJson]
      rfl
    · intro br htrue hbatch
      have hfetch : (fetchDomainSellers provider (jsToLower r.domain)
          (validIdsFor records (jsToLower r.domain))).1 =
          (sellersMapOfResults br.results, br.metadata) := by
        unfold fetchDomainSellers
        rw [hd, htrue, hbatch]
      rw [vwop_result_get? publisherDomain records provider allEntries i r hi
        hv, hfetch]
      dsimp only
      simp only [Option.map_some']
      rw [vsro_validation_results]
      simp only [Option.map_some']
      rw [vsroFinalVR_hasSellerJson]

/-- Witness for the amended C4: a provider that reports no sellers.json
for the domain, and one whose `hasSellerJson` throws, both lead to a
stored `hasSellerJson = false`, and the throwing provider receives no
`batchGetSellers` call. -/
theorem batch_provider_calls_witness :
    ((⟨fun _ _ => .ok {}, fun _ => .ok false⟩ :
        SellersJsonProvider).hasSellerJson "ssp.com" = .ok false) ∧
    ((validateWithOptimizedProvider "pub.com"
        [{ domain := "ssp.com", account_id := "s1",
           account_type := "RESELLER", relationship := .RESELLER,
           line_number := 1, raw_line := "ssp.com, s1, RESELLER",
           is_valid := true }]
        ⟨fun _ _ => .ok {}, fun _ => .ok false⟩ []).1.get? 0).map
      (fun res => res.validation_results.map (fun vr => vr.hasSellerJson)) =
      some (some false) ∧
    ((⟨fun _ _ => .ok {}, fun _ => .error "boom"⟩ :
        SellersJsonProvider).hasSellerJson "ssp.com" = .error "boom") ∧
    ((validateWithOptimizedProvider "pub.com"
        [{ domain := "ssp.com", account_id := "s1",
           account_type := "RESELLER", relationship := .RESELLER,
           line_number := 1, raw_line := "ssp.com, s1, RESELLER",
           is_valid := true }]
        ⟨fun _ _ => .ok {}, fun _ => .error "boom"⟩ []).1.get? 0).map
      (fun res => res.validation_results.map (fun vr => vr.hasSellerJson)) =
      some (some false) ∧
    ProviderCall.batchCall "ssp.com" ["s1"] ∉
      (validateWithOptimizedProvider "pub.com"
        [{ domain := "ssp.com", account_id := "s1",
           account_type := "RESELLER", relationship := .RESELLER,
           line_number := 1, raw_line := "ssp.com, s1, RESELLER",
           is_valid := true }]
        ⟨fun _ _ => .ok {}, fun _ => .error "boom"⟩ []).2 :=
  ⟨rfl,
   ((batch_provider_calls "pub.com"
      [{ domain := "ssp.com", account_id := "s1", account_type := "RESELLER",
         relationship := .RESELLER, line_number := 1,
         raw_line := "ssp.com, s1, RESELLER", is_valid := true }]
      ⟨fun _ _ => .ok {}, fun _ => .ok false⟩ [] "ssp.com").2.2 0 _ rfl rfl
      rfl).1 (Or.inl rfl),
   rfl,
   ((batch_provider_calls "pub.com"
      [{ domain := "ssp.com", account_id := "s1", account_type := "RESELLER",
         relationship := .RESELLER, line_number := 1,
         raw_line := "ssp.com, s1, RESELLER", is_valid := true }]
      ⟨fun _ _ => .ok {}, fun _ => .error "boom"⟩ [] "ssp.com").2.2 0 _ rfl rfl
      rfl).1 (Or.inr ⟨"boom", rfl⟩),
   (batch_provider_calls "pub.com"
      [{ domain := "ssp.com", account_id := "s1", account_type := "RESELLER",
         relationship := .RESELLER, line_number := 1,
         raw_line := "ssp.com, s1, RESELLER", is_valid := true }]
      ⟨fun _ _ => .ok {}, fun _ => .error "boom"⟩ [] "ssp.com").2.1
      (Or.inr ⟨"boom", rfl⟩) ["s1"]⟩

/-- C4 counterexample: the boolean returned by the provider's
`hasSellerJson` is not the value stored in `ValidationResult.hasSellerJson`
— a provider answering `true` whose batch returns no sellers and empty
metadata yields a stored value of `false`. -/
theorem c4_stored_value_counterexample :
    ((⟨fun _ _ => .ok {}, fun _ => .ok true⟩ :
        SellersJsonProvider).hasSellerJson "ssp.com" = .ok true) ∧
    ((validateWithOptimizedProvider "pub.com"
        [{ domain := "ssp.com", account_id := "s1",
           account_type := "RESELLER", relationship := .RESELLER,
           line_number := 1, raw_line := "ssp.com, s1, RESELLER",
           is_valid := true }]
        ⟨fun _ _ => .ok {}, fun _ => .ok true⟩ []).1.map
      (fun res => res.validation_results.map (fun vr => vr.hasSellerJson))) =
      [some false] := by
  exact ⟨rfl, rfl⟩

/-- C5 amended: a collaborator exception while fetching one domain's
seller data never aborts the cross-check and is confined to that domain's
records: on the batch path the domain is mapped to an empty-result state
and its records get `noSellersJson`; on the legacy path each record of the
domain gets a `sellersJsonValidationError` warning carrying the message;
on both paths every record still produces exactly one output record. -/
theorem fetch_error_isolated (pd : String) :
    (∀ (records : List ParsedAdsTxtRecord)
       (fetchFn : String → Except String (Option SellersJsonFile))
       (es : List ParsedAdsTxtEntry) (i : Nat) (r : ParsedAdsTxtRecord)
       (msg : String),
       records.get? i = some r → r.is_valid = true →
       fetchFn (jsToLower r.domain) = .error msg →
       (validateAgainstSellersJson pd records fetchFn es).get? i =
         some (createWarningRecord r
           VALIDATION_KEYS.SELLERS_JSON_VALIDATION_ERROR
           [("message", msg), ("domain", r.domain)] .warning
           (fun rr => { rr with validation_error := some msg }))) ∧
    (∀ (records : List ParsedAdsTxtRecord) (provider : SellersJsonProvider)
       (es : List ParsedAdsTxtEntry) (i : Nat) (r : ParsedAdsTxtRecord),
       records.get? i = some r → r.is_valid = true →
       ((∃ msg, provider.hasSellerJson (jsToLower r.domain) = .error msg) ∨
        (provider.hasSellerJson (jsToLower r.domain) = .ok true ∧
         ∃ msg, provider.batchGetSellers (jsToLower r.domain)
           (validIdsFor records (jsToLower r.domain)) = .error msg)) →
       ((validateWithOptimizedProvider pd records provider es).1.get? i).map
         (fun res => res.validation_key) =
         some (some VALIDATION_KEYS.NO_SELLERS_JSON)) ∧
    (∀ (records : List ParsedAdsTxtRecord) (access : SellerAccess)
       (es : List ParsedAdsTxtEntry),
       (validateAgainstSellersJsonOptimized pd records access es).length =
         records.length) := by
  refine ⟨?_, ?_, ?_⟩
  · intro records fetchFn es i r msg hi hv hfe
    unfold validateAgainstSellersJson
    rw [List.get?_map, hi]
    simp only [Option.map_some']
    rw [if_neg (by simp [hv])]
    have hvsr : validateSingleRecord r pd fetchFn es = .error msg := by
      unfold validateSingleRecord
      dsimp only
      rw [hfe]
      rfl
    rw [hvsr]
  · intro records provider es i r hi hv herr
    have hfetch : (fetchDomainSellers provider (jsToLower r.domain)
        (validIdsFor records (jsToLower r.domain))).1 = ([], {}) := by
      rcases herr with ⟨msg, hmsg⟩ | ⟨htrue, msg, hmsg⟩
      · unfold fetchDomainSellers
        rw [hmsg]
      · unfold fetchDomainSellers
        rw [htrue, hmsg]
    rw [vwop_result_get? pd records provider es i r hi hv, hfetch]
    rfl
  · intro records access es
    cases access with
    | provider p =>
      simp [validateAgainstSellersJsonOptimized,
        validateWithOptimizedProvider]
    | legacy f =>
      simp [validateAgainstSellersJsonOptimized, validateAgainstSellersJson]

/-- Witness for the amended C5 on the legacy path with a throwing fetch. -/
theorem fetch_error_isolated_witness :
    ((fun _ => Except.error "network down" :
        String → Except String (Option SellersJsonFile))
      (jsToLower "ssp.com") = .error "network down") ∧
    (validateAgainstSellersJson "pub.com"
      [{ domain := "ssp.com", account_id := "s1", account_type := "RESELLER",
         relationship := .RESELLER, line_number := 1,
         raw_line := "ssp.com, s1, RESELLER", is_valid := true }]
      (fun _ => .error "network down") []).get? 0 =
      some (createWarningRecord
        { domain := "ssp.com", account_id := "s1", account_type := "RESELLER",
          relationship := .RESELLER, line_number := 1,
          raw_line := "ssp.com, s1, RESELLER", is_valid := true }
        VALIDATION_KEYS.SELLERS_JSON_VALIDATION_ERROR
        [("message", "network down"), ("domain", "ssp.com")] .warning
        (fun rr => { rr with validation_error := some "network down" })) :=
  ⟨rfl,
    (fetch_error_isolated "pub.com").1
      [{ domain := "ssp.com", account_id := "s1", account_type := "RESELLER",
         relationship := .RESELLER, line_number := 1,
         raw_line := "ssp.com, s1, RESELLER", is_valid := true }]
      (fun _ => .error "network down") [] 0 _ "network down" rfl rfl rfl⟩

/-! ## Claim C7 -/

theorem cerm_fold_has (k : String) (rs : List ParsedAdsTxtRecord) :
    ∀ m : List (String × ParsedAdsTxtRecord),
    mapHas k (rs.foldl
      (fun m record =>
        if record.is_valid then mapSet (createLookupKey record) record m
        else m) m) =
      (mapHas k m ||
        rs.any (fun r => r.is_valid && createLookupKey r = k)) := by
  induction rs with
  | nil => intro m; simp
  | cons r rs' ih =>
    intro m
    rw [List.foldl_cons]
    cases hv : r.is_valid
    · rw [if_neg (by simp [hv]), ih]
      simp [hv]
    · rw [if_pos rfl, ih, mapHas_mapSet]
      by_cases hk : createLookupKey r = k <;>
        simp [hk, hv, Bool.or_assoc, Bool.or_comm, Bool.or_left_comm]

theorem createExistingRecordsMap_has (k : String)
    (rs : List ParsedAdsTxtRecord) :
    mapHas k (createExistingRecordsMap rs) =
      rs.any (fun r => r.is_valid && createLookupKey r = k) := by
  unfold createExistingRecordsMap
  rw [cerm_fold_has]
  simp [mapHas]

/-- C7: duplicate detection.  With falsy cached content every record is
returned unchanged; otherwise the cached content is parsed, its valid
records are keyed by `lowercase(domain)|account_id|relationship`, and a
valid new record whose key matches becomes an `implimentedEntry` INFO
record with `duplicate_domain` set to the publisher domain and the
original `domain` field unchanged, while invalid records and valid records
without a match pass through unchanged. -/
theorem checkForDuplicates_spec (psl : PslLib) (publisherDomain : String)
    (records : List ParsedAdsTxtRecord) :
    (∀ cached, jsTruthyStr cached = false →
      checkForDuplicates psl publisherDomain records cached = .ok records) ∧
    (∀ c existing, (c : String) ≠ "" →
      parseAdsTxtContent psl c none = .ok existing →
      checkForDuplicates psl publisherDomain records (some c) =
        .ok (findDuplicateRecords records
          (createExistingRecordsMap (existing.filterMap entryRecord?))
          publisherDomain)) ∧
    (∀ (existing : List ParsedAdsTxtEntry) (i : Nat)
       (r : ParsedAdsTxtRecord), records.get? i = some r →
      (r.is_valid = false →
        (findDuplicateRecords records
          (createExistingRecordsMap (existing.filterMap entryRecord?))
          publisherDomain).get? i = some r) ∧
      (r.is_valid = true →
        ((existing.filterMap entryRecord?).any
          (fun er => er.is_valid && createLookupKey er = createLookupKey r)) =
          true →
        (findDuplicateRecords records
          (createExistingRecordsMap (existing.filterMap entryRecord?))
          publisherDomain).get? i =
          some (createDuplicateWarningRecord r publisherDomain
            VALIDATION_KEYS.IMPLIMENTED .info)) ∧
      (r.is_valid = true →
        ((existing.filterMap entryRecord?).any
          (fun er => er.is_valid && createLookupKey er = createLookupKey r)) =
          false →
        (findDuplicateRecords records
          (createExistingRecordsMap (existing.filterMap entryRecord?))
          publisherDomain).get? i = some r)) ∧
    (∀ (r : ParsedAdsTxtRecord) (pd : String),
      (createDuplicateWarningRecord r pd VALIDATION_KEYS.IMPLIMENTED
        .info).validation_key = some VALIDATION_KEYS.IMPLIMENTED ∧
      (createDuplicateWarningRecord r pd VALIDATION_KEYS.IMPLIMENTED
        .info).severity = some .info ∧
      (createDuplicateWarningRecord r pd VALIDATION_KEYS.IMPLIMENTED
        .info).duplicate_domain = some pd ∧
      (createDuplicateWarningRecord r pd VALIDATION_KEYS.IMPLIMENTED
        .info).domain = r.domain ∧
      (createDuplicateWarningRecord r pd VALIDATION_KEYS.IMPLIMENTED
        .info).warning_params = some [("domain", pd)]) := by
  refine ⟨?_, ?_, ?_, ?_⟩
  · intro cached hfalsy
    unfold checkForDuplicates
    rw [hfalsy]
    rfl
  · intro c existing hc hparse
    unfold checkForDuplicates
    rw [show jsTruthyStr (some c) = true by simp [jsTruthyStr, hc]]
    dsimp only
    rw [show (some c).getD "" = c from rfl, hparse]
    rfl
  · intro existing i r hi
    refine ⟨?_, ?_, ?_⟩
    · intro hv
      unfold findDuplicateRecords
      rw [List.get?_map, hi]
      simp [hv]
    · intro hv hmatch
      unfold findDuplicateRecords
      rw [List.get?_map, hi]
      simp only [Option.map_some']
      rw [if_neg (by simp [hv]),
        if_pos (by rw [createExistingRecordsMap_has]; exact hmatch)]
    · intro hv hmatch
      unfold findDuplicateRecords
      rw [List.get?_map, hi]
      simp only [Option.map_some']
      rw [if_neg (by simp [hv]),
        if_neg (by rw [createExistingRecordsMap_has, hmatch]; simp)]
  · intro r pd
    exact ⟨rfl, rfl, rfl, rfl, rfl⟩

/-- Witness for C7: the submitted record `example.com, pub-1, DIRECT`
also present in the cached ads.txt is flagged as an implemented entry. -/
theorem checkForDuplicates_spec_witness :
    (parseAdsTxtContent ⟨fun _ => .ok true, fun _ => .ok none⟩
      "example.com, pub-1, DIRECT" none =
      .ok [ParsedAdsTxtEntry.record
        { domain := "example.com", account_id := "pub-1",
          account_type := "DIRECT", relationship := .DIRECT,
          line_number := 1, raw_line := "example.com, pub-1, DIRECT",
          is_valid := true }]) ∧
    (checkForDuplicates ⟨fun _ => .ok true, fun _ => .ok none⟩ "pub.com"
      [{ domain := "example.com", account_id := "pub-1",
         account_type := "DIRECT", relationship := .DIRECT, line_number := 1,
         raw_line := "example.com, pub-1, DIRECT", is_valid := true }]
      (some "example.com, pub-1, DIRECT") =
      .ok (findDuplicateRecords
        [{ domain := "example.com", account_id := "pub-1",
           account_type := "DIRECT", relationship := .DIRECT,
           line_number := 1, raw_line := "example.com, pub-1, DIRECT",
           is_valid := true }]
        (createExistingRecordsMap
          (([ParsedAdsTxtEntry.record
            { domain := "example.com", account_id := "pub-1",
              account_type := "DIRECT", relationship := .DIRECT,
              line_number := 1, raw_line := "example.com, pub-1, DIRECT",
              is_valid := true }]).filterMap entryRecord?))
        "pub.com")) ∧
    ((findDuplicateRecords
        [{ domain := "example.com", account_id := "pub-1",
           account_type := "DIRECT", relationship := .DIRECT,
           line_number := 1, raw_line := "example.com, pub-1, DIRECT",
           is_valid := true }]
        (createExistingRecordsMap
          (([ParsedAdsTxtEntry.record
            { domain := "example.com", account_id := "pub-1",
              account_type := "DIRECT", relationship := .DIRECT,
              line_number := 1, raw_line := "example.com, pub-1, DIRECT",
              is_valid := true }]).filterMap entryRecord?))
        "pub.com").get? 0 =
      some (createDuplicateWarningRecord
        { domain := "example.com", account_id := "pub-1",
          account_type := "DIRECT", relationship := .DIRECT, line_number := 1,
          raw_line := "example.com, pub-1, DIRECT", is_valid := true }
        "pub.com" VALIDATION_KEYS.IMPLIMENTED .info)) :=
  ⟨by rfl,
   (checkForDuplicates_spec ⟨fun _ => .ok true, fun _ => .ok none⟩ "pub.com"
     _).2.1 "example.com, pub-1, DIRECT" _ (by decide) (by rfl),
   (((checkForDuplicates_spec ⟨fun _ => .ok true, fun _ => .ok none⟩ "pub.com"
     [{ domain := "example.com", account_id := "pub-1",
        account_type := "DIRECT", relationship := .DIRECT, line_number := 1,
        raw_line := "example.com, pub-1, DIRECT",
        is_valid := true }]).2.2.1
     [ParsedAdsTxtEntry.record
       { domain := "example.com", account_id := "pub-1",
         account_type := "DIRECT", relationship := .DIRECT, line_number := 1,
         raw_line := "example.com, pub-1, DIRECT", is_valid := true }]
     0 _ rfl).2.1 rfl (by rfl))⟩

/-! ## String toolkit lemmas -/

theorem dropWhile_append' [DecidableEq α] (p : α → Bool) (l1 l2 : List α) :
    (l1 ++ l2).dropWhile p =
      if l1.dropWhile p = [] then l2.dropWhile p
      else l1.dropWhile p ++ l2 := by
  induction l1 with
  | nil => simp
  | cons a t ih =>
    by_cases h : p a
    · simp only [List.cons_append, List.dropWhile_cons, h, if_true]
      exact ih
    · simp [List.dropWhile_cons, h]

theorem dropWhile_idem (p : α → Bool) (l : List α) :
    (l.dropWhile p).dropWhile p = l.dropWhile p := by
  induction l with
  | nil => simp
  | cons a t ih =>
    by_cases h : p a
    · simp only [List.dropWhile_cons, h, if_true]
      exact ih
    · simp [List.dropWhile_cons, h]

theorem mem_dropWhile (p : α → Bool) (c : α) :
    ∀ l : List α, c ∈ l.dropWhile p → c ∈ l := by
  intro l
  induction l with
  | nil => simp
  | cons a t ih =>
    by_cases h : p a
    · rw [List.dropWhile_cons, if_pos h]
      intro hc
      exact List.mem_cons_of_mem a (ih hc)
    · rw [List.dropWhile_cons, if_neg h]
      exact id

theorem mem_takeWhile (p : α → Bool) (c : α) :
    ∀ l : List α, c ∈ l.takeWhile p → c ∈ l := by
  intro l
  induction l with
  | nil => simp
  | cons a t ih =>
    by_cases h : p a
    · rw [List.takeWhile_cons, if_pos h]
      intro hc
      rcases List.mem_cons.1 hc with rfl | hct
      · exact List.mem_cons_self _ _
      · exact List.mem_cons_of_mem a (ih hct)
    · rw [List.takeWhile_cons, if_neg h]
      simp

theorem takeWhile_prop (p : α → Bool) (c : α) :
    ∀ l : List α, c ∈ l.takeWhile p → p c = true := by
  intro l
  induction l with
  | nil => simp
  | cons a t ih =>
    by_cases h : p a
    · rw [List.takeWhile_cons, if_pos h]
      intro hc
      rcases List.mem_cons.1 hc with rfl | hct
      · exact h
      · exact ih hct
    · rw [List.takeWhile_cons, if_neg h]
      simp

theorem takeWhile_eq_self (p : α → Bool) :
    ∀ l : List α, (∀ c ∈ l, p c = true) → l.takeWhile p = l := by
  intro l
  induction l with
  | nil => simp
  | cons a t ih =>
    intro h
    rw [List.takeWhile_cons, if_pos (h a (List.mem_cons_self _ _))]
    rw [ih (fun c hc => h c (List.mem_cons_of_mem a hc))]

theorem takeWhile_append_all (p : α → Bool) (l1 l2 : List α)
    (h : ∀ c ∈ l1, p c = true) :
    (l1 ++ l2).takeWhile p = l1 ++ l2.takeWhile p := by
  induction l1 with
  | nil => simp
  | cons a t ih =>
    rw [List.cons_append, List.takeWhile_cons,
      if_pos (h a (List.mem_cons_self _ _)), List.cons_append,
      ih (fun c hc => h c (List.mem_cons_of_mem a hc))]

theorem dropWhile_eq_nil_iff' (p : α → Bool) (l : List α) :
    l.dropWhile p = [] ↔ ∀ c ∈ l, p c = true := by
  induction l with
  | nil => simp
  | cons a t ih =>
    by_cases h : p a
    · rw [List.dropWhile_cons, if_pos h]
      simp [ih, h]
    · rw [List.dropWhile_cons, if_neg h]
      simp [h]

theorem length_dropWhile_le' (p : α → Bool) (l : List α) :
    (l.dropWhile p).length ≤ l.length := by
  induction l with
  | nil => simp
  | cons a t ih =>
    by_cases h : p a
    · rw [List.dropWhile_cons, if_pos h]
      exact Nat.le_succ_of_le ih
    · rw [List.dropWhile_cons, if_neg h]

theorem trimRightL_append (a b : List Char) :
    trimRightL (a ++ b) =
      if trimRightL b = [] then trimRightL a else a ++ trimRightL b := by
  unfold trimRightL
  rw [List.reverse_append, dropWhile_append']
  by_cases h : b.reverse.dropWhile isJsWhitespace = []
  · rw [if_pos h, if_pos (by rw [h]; rfl)]
  · rw [if_neg h, if_neg (by simp [h])]
    rw [List.reverse_append, List.reverse_reverse]

theorem trimRightL_cons (a : Char) (t : List Char) :
    trimRightL (a :: t) =
      if trimRightL t = [] then
        (if isJsWhitespace a then [] else [a])
      else a :: trimRightL t := by
  have h := trimRightL_append [a] t
  rw [show ([a] ++ t) = a :: t from rfl] at h
  rw [h]
  by_cases ht : trimRightL t = []
  · rw [if_pos ht, if_pos ht]
    unfold trimRightL
    by_cases ha : isJsWhitespace a <;> simp [List.dropWhile_cons, ha]
  · rw [if_neg ht, if_neg ht]
    rfl

theorem trimRightL_eq_nil_iff (l : List Char) :
    trimRightL l = [] ↔ ∀ c ∈ l, isJsWhitespace c = true := by
  unfold trimRightL
  rw [List.reverse_eq_nil_iff, dropWhile_eq_nil_iff']
  constructor
  · intro h c hc
    exact h c (List.mem_reverse.2 hc)
  · intro h c hc
    exact h c (List.mem_reverse.1 hc)

theorem trimRightL_eq_self (a : List Char)
    (ha : ∀ c ∈ a, isJsWhitespace c = false) : trimRightL a = a := by
  induction a with
  | nil => rfl
  | cons c t ih =>
    rw [trimRightL_cons,
      ih (fun x hx => ha x (List.mem_cons_of_mem c hx))]
    by_cases ht : (t : List Char) = []
    · subst ht
      simp [ha c (List.mem_cons_self _ _)]
    · rw [if_neg ht]

theorem trimRightL_idem (l : List Char) :
    trimRightL (trimRightL l) = trimRightL l := by
  unfold trimRightL
  rw [List.reverse_reverse, dropWhile_idem]

theorem mem_trimRightL (c : Char) (l : List Char)
    (h : c ∈ trimRightL l) : c ∈ l := by
  unfold trimRightL at h
  rw [List.mem_reverse] at h
  exact List.mem_reverse.1 (mem_dropWhile _ _ _ h)

theorem mem_trimLeftL (c : Char) (l : List Char)
    (h : c ∈ trimLeftL l) : c ∈ l :=
  mem_dropWhile _ _ _ h

theorem mem_jsTrimL (c : Char) (l : List Char)
    (h : c ∈ jsTrimL l) : c ∈ l :=
  mem_trimLeftL _ _ (mem_trimRightL _ _ h)

theorem trimLeftL_eq_nil_iff (l : List Char) :
    trimLeftL l = [] ↔ ∀ c ∈ l, isJsWhitespace c = true :=
  dropWhile_eq_nil_iff' _ _

theorem trimLeftL_head_not (l : List Char) (a : Char) (t : List Char)
    (h : trimLeftL l = a :: t) : isJsWhitespace a = false := by
  induction l with
  | nil => cases h
  | cons b t' ih =>
    unfold trimLeftL at h ih
    rw [List.dropWhile_cons] at h
    by_cases hb : isJsWhitespace b
    · rw [if_pos hb] at h
      exact ih h
    · rw [if_neg hb] at h
      rcases h with ⟨rfl, rfl⟩
      exact Bool.eq_false_iff.2 hb

theorem jsTrimL_eq_nil_iff (l : List Char) :
    jsTrimL l = [] ↔ ∀ c ∈ l, isJsWhitespace c = true := by
  unfold jsTrimL
  rw [trimRightL_eq_nil_iff]
  constructor
  · intro h
    cases hl : trimLeftL l with
    | nil => exact (trimLeftL_eq_nil_iff l).1 hl
    | cons a t =>
      have ha := trimLeftL_head_not l a t hl
      have := h a (by rw [hl]; exact List.mem_cons_self _ _)
      rw [this] at ha
      cases ha
  · intro h c hc
    exact h c (mem_trimLeftL c l hc)

theorem trimLeftL_cons_nws (a : Char) (t : List Char)
    (ha : isJsWhitespace a = false) : trimLeftL (a :: t) = a :: t := by
  unfold trimLeftL
  rw [List.dropWhile_cons, if_neg (by simp [ha])]

theorem jsTrimL_cleanPrefix (a b : List Char)
    (ha : ∀ c ∈ a, isJsWhitespace c = false) (hne : a ≠ []) :
    jsTrimL (a ++ b) = a ++ trimRightL b := by
  unfold jsTrimL
  cases a with
  | nil => exact absurd rfl hne
  | cons c t =>
    rw [List.cons_append,
      trimLeftL_cons_nws c (t ++ b) (ha c (List.mem_cons_self _ _)),
      ← List.cons_append, trimRightL_append]
    by_cases hb : trimRightL b = []
    · rw [if_pos hb, trimRightL_eq_self _ ha, hb, List.append_nil]
    · rw [if_neg hb]

theorem trimLeftL_fix_not_ws (a : Char) (t : List Char)
    (h : trimLeftL (a :: t) = a :: t) : isJsWhitespace a = false := by
  by_cases ha : isJsWhitespace a
  · exfalso
    unfold trimLeftL at h
    rw [List.dropWhile_cons, if_pos ha] at h
    have hlen := length_dropWhile_le' isJsWhitespace t
    rw [h] at hlen
    simp at hlen
  · exact Bool.eq_false_iff.2 ha

theorem trimLeftL_trimRightL (l : List Char) (h : trimLeftL l = l) :
    trimLeftL (trimRightL l) = trimRightL l := by
  cases l with
  | nil => rfl
  | cons a t =>
    have ha := trimLeftL_fix_not_ws a t h
    rw [trimRightL_cons]
    by_cases ht : trimRightL t = []
    · rw [if_pos ht, if_neg (by simp [ha])]
      exact trimLeftL_cons_nws a [] ha
    · rw [if_neg ht]
      exact trimLeftL_cons_nws a (trimRightL t) ha

theorem jsTrimL_idem (l : List Char) : jsTrimL (jsTrimL l) = jsTrimL l := by
  show trimRightL (trimLeftL (trimRightL (trimLeftL l))) = trimRightL (trimLeftL l)
  rw [trimLeftL_trimRightL (trimLeftL l) (dropWhile_idem _ _), trimRightL_idem]

/-! ## C9: comment handling in the line parser -/

theorem jsTrimL_cons_ne_nil (c : Char) (t : List Char)
    (hc : isJsWhitespace c = false) : jsTrimL (c :: t) ≠ [] := by
  rw [Ne, jsTrimL_eq_nil_iff]
  intro h
  have hcw := h c (List.mem_cons_self _ _)
  rw [hcw] at hc
  cases hc

theorem jsTrimL_head_not_ws (l : List Char) (c : Char) (t : List Char)
    (h : jsTrimL l = c :: t) : isJsWhitespace c = false := by
  unfold jsTrimL at h
  cases hx : trimLeftL l with
  | nil => rw [hx] at h; cases h
  | cons a t' =>
    have ha := trimLeftL_head_not l a t' hx
    rw [hx, trimRightL_cons] at h
    by_cases ht : trimRightL t' = []
    · rw [if_pos ht, if_neg (by simp [ha])] at h
      injection h with h1 h2
      rw [← h1]
      exact ha
    · rw [if_neg ht] at h
      injection h with h1 h2
      rw [← h1]
      exact ha

theorem trimLeftL_trimRightL_comm (l : List Char) :
    trimLeftL (trimRightL l) = trimRightL (trimLeftL l) := by
  cases hx : trimLeftL l with
  | nil =>
    have hall := (trimLeftL_eq_nil_iff l).1 hx
    rw [(trimRightL_eq_nil_iff l).2 hall]
    rfl
  | cons a t =>
    have ha := trimLeftL_head_not l a t hx
    have hsplit : l.takeWhile isJsWhitespace ++ (a :: t) = l := by
      rw [← hx]
      exact List.takeWhile_append_dropWhile isJsWhitespace l
    have hwAll : ∀ c ∈ l.takeWhile isJsWhitespace, isJsWhitespace c = true :=
      fun c hc => takeWhile_prop _ c l hc
    have hRne : trimRightL (a :: t) ≠ [] := by
      rw [Ne, trimRightL_eq_nil_iff]
      intro hall2
      have := hall2 a (List.mem_cons_self _ _)
      rw [this] at ha
      cases ha
    have h1 : trimRightL l =
        trimRightL (l.takeWhile isJsWhitespace ++ (a :: t)) := by
      rw [hsplit]
    rw [h1, trimRightL_append, if_neg hRne]
    unfold trimLeftL
    rw [dropWhile_append',
      if_pos ((dropWhile_eq_nil_iff' _ _).2 hwAll)]
    rw [trimRightL_cons]
    by_cases ht : trimRightL t = []
    · rw [if_pos ht, if_neg (by simp [ha])]
      simp [List.dropWhile_cons, ha]
    · rw [if_neg ht]
      rw [List.dropWhile_cons, if_neg (by simp [ha])]

theorem jsTrimL_trimRightL (x : List Char) :
    jsTrimL (trimRightL x) = jsTrimL x := by
  unfold jsTrimL
  rw [trimLeftL_trimRightL_comm, trimRightL_idem]

theorem matchVariable_contact (r : List Char) :
    matchVariable ("CONTACT=".data ++ r) = some (.CONTACT, r) := rfl

theorem string_eq_empty_of_data (s : String) (h : s.data = []) : s = "" := by
  cases s with
  | mk d =>
    have h' : d = [] := h
    subst h'
    rfl

theorem parseAdsTxtVariable_contact (v : String) (n : Int)
    (hne : jsTrimL v.data ≠ [])
    (hterm : v.data.all (fun c => !isLineTerm c) = true) :
    parseAdsTxtVariable ("CONTACT=" ++ v) n =
      some { variable_type := .CONTACT, value := jsTrim v,
             line_number := n, raw_line := "CONTACT=" ++ v,
             is_valid := true } := by
  have hdata : ("CONTACT=" ++ v).data = "CONTACT=".data ++ v.data := by
    cases v
    rfl
  have htrimd : (jsTrim ("CONTACT=" ++ v)).data =
      "CONTACT=".data ++ trimRightL v.data := by
    show jsTrimL ("CONTACT=" ++ v).data = _
    rw [hdata]
    exact jsTrimL_cleanPrefix "CONTACT=".data v.data (by decide) (by decide)
  have hne' : trimRightL v.data ≠ [] := by
    intro hnil
    exact hne ((jsTrimL_eq_nil_iff v.data).2 ((trimRightL_eq_nil_iff v.data).1 hnil))
  have hall : (trimRightL v.data).all (fun c => !isLineTerm c) = true :=
    List.all_eq_true.2 (fun c hc =>
      List.all_eq_true.1 hterm c (mem_trimRightL c v.data hc))
  have hval : jsTrim ⟨trimRightL v.data⟩ = jsTrim v := by
    show (⟨jsTrimL (trimRightL v.data)⟩ : String) = _
    rw [jsTrimL_trimRightL]
    rfl
  unfold parseAdsTxtVariable
  dsimp only
  rw [htrimd, matchVariable_contact]
  dsimp only
  rw [if_pos (by simp [hne', hall]), hval]

theorem parseAdsTxtLine_comment_line (psl : PslLib) (line : String) (n : Int)
    (hinv : hasInvalidCharacters line = false)
    (hstart : jsStartsWithChar (jsTrim line) '#' = true) :
    parseAdsTxtLine psl line n = .ok none := by
  unfold parseAdsTxtLine
  rw [if_neg (by simp [hinv])]
  dsimp only
  rw [if_pos (by simp [hstart])]

theorem jsTrimL_takeWhile_hash_ne_nil (c : Char) (t : List Char)
    (hcw : isJsWhitespace c = false) (hch : ¬(c = '#')) :
    jsTrimL ((c :: t).takeWhile (fun x => x ≠ '#')) ≠ [] := by
  rw [List.takeWhile_cons, if_pos (by simp [hch])]
  exact jsTrimL_cons_ne_nil c _ hcw

theorem jsTrim_strip_ne_empty (s : String)
    (hne : jsTrim s ≠ "")
    (hstart : jsStartsWithChar (jsTrim s) '#' = false) :
    jsTrim ⟨(jsTrim s).data.takeWhile (fun x => x ≠ '#')⟩ ≠ "" := by
  cases hT : (jsTrim s).data with
  | nil => exact absurd (string_eq_empty_of_data _ hT) hne
  | cons c t =>
    have hch : ¬(c = '#') := by
      unfold jsStartsWithChar at hstart
      rw [hT] at hstart
      simpa using hstart
    have hcw : isJsWhitespace c = false := jsTrimL_head_not_ws s.data c t hT
    intro h0
    exact jsTrimL_takeWhile_hash_ne_nil c t hcw hch (congrArg String.data h0)

theorem parseAdsTxtLine_stripped_empty (psl : PslLib) (line : String) (n : Int)
    (hinv : hasInvalidCharacters line = false)
    (hstrip : jsTrim ⟨(jsTrim line).data.takeWhile (fun c => c ≠ '#')⟩ = "") :
    parseAdsTxtLine psl line n = .ok none := by
  cases hT : (jsTrim line).data with
  | nil =>
    have hempty : jsTrim line = "" := string_eq_empty_of_data _ hT
    unfold parseAdsTxtLine
    rw [if_neg (by simp [hinv])]
    dsimp only
    rw [if_pos (by simp [hempty])]
  | cons c t =>
    by_cases hch : c = '#'
    · have hstart : jsStartsWithChar (jsTrim line) '#' = true := by
        unfold jsStartsWithChar
        rw [hT]
        simp [hch]
      exact parseAdsTxtLine_comment_line psl line n hinv hstart
    · exfalso
      have hcw : isJsWhitespace c = false := jsTrimL_head_not_ws line.data c t hT
      have h1 : jsTrimL ((jsTrim line).data.takeWhile (fun x => x ≠ '#')) = [] :=
        congrArg String.data hstrip
      rw [hT] at h1
      exact jsTrimL_takeWhile_hash_ne_nil c t hcw hch h1

theorem parseAdsTxtLine_variable_branch (psl : PslLib) (line : String)
    (n : Int) (v : ParsedAdsTxtVariable)
    (hinv : hasInvalidCharacters line = false)
    (hTne : jsTrim line ≠ "")
    (hstart : jsStartsWithChar (jsTrim line) '#' = false)
    (hvar : parseAdsTxtVariable line n = some v) :
    parseAdsTxtLine psl line n = .ok (some (.varEntry v)) := by
  have hstrip := jsTrim_strip_ne_empty line hTne hstart
  unfold parseAdsTxtLine
  rw [if_neg (by simp [hinv])]
  dsimp only
  rw [if_neg (by simp [hTne, hstart])]
  split
  next hB =>
    split
    next hA =>
      exfalso
      rcases (Bool.and_eq_true _ _).mp hA with ⟨hany, hempty⟩
      exact hstrip (of_decide_eq_true hempty)
    next hA =>
      rw [hvar]
  next hB =>
    split
    next hA =>
      exfalso
      rcases (Bool.and_eq_true _ _).mp hA with ⟨hany, hempty⟩
      exact hTne (of_decide_eq_true hempty)
    next hA =>
      rw [hvar]

/-- **C9** counterexample: variable recognition runs on the ORIGINAL line,
before inline-comment stripping, so the `#`-comment text survives inside the
parsed variable's value ("foo # comment" instead of "foo"). -/
theorem c9_inline_comment_reaches_variable_counterexample :
    parseAdsTxtLine ⟨fun _ => .ok true, fun _ => .ok none⟩
        "CONTACT=foo # comment" 1 =
      .ok (some (.varEntry
        { variable_type := .CONTACT, value := "foo # comment",
          line_number := 1, raw_line := "CONTACT=foo # comment",
          is_valid := true })) ∧
    ("foo # comment" : String) ≠ "foo" :=
  ⟨by rfl, by decide⟩

/-- **C9** (corrected). Comment handling in `parseAdsTxtLine`: (a) a line
without invalid characters whose trimmed form starts with `#` yields no
entry; (b) a line without invalid characters whose trimmed form becomes
empty after stripping the text from an inline `#` and re-trimming yields no
entry; but (c) inline comments are NOT stripped before variable
recognition: `parseAdsTxtVariable` runs on the original un-stripped line,
and whenever it accepts that line the parser returns exactly that variable
entry; (d) concretely, a `CONTACT=` line keeps any inline `#`-comment text
inside the variable's value (the value is the trim of everything after the
`=`, comment included). -/
theorem parseAdsTxtLine_comment_handling :
    (∀ (psl : PslLib) (line : String) (n : Int),
      hasInvalidCharacters line = false →
      jsStartsWithChar (jsTrim line) '#' = true →
      parseAdsTxtLine psl line n = .ok none) ∧
    (∀ (psl : PslLib) (line : String) (n : Int),
      hasInvalidCharacters line = false →
      jsTrim ⟨(jsTrim line).data.takeWhile (fun c => c ≠ '#')⟩ = "" →
      parseAdsTxtLine psl line n = .ok none) ∧
    (∀ (psl : PslLib) (line : String) (n : Int) (v : ParsedAdsTxtVariable),
      hasInvalidCharacters line = false →
      jsTrim line ≠ "" →
      jsStartsWithChar (jsTrim line) '#' = false →
      parseAdsTxtVariable line n = some v →
      parseAdsTxtLine psl line n = .ok (some (.varEntry v))) ∧
    (∀ (psl : PslLib) (v : String) (n : Int),
      hasInvalidCharacters ("CONTACT=" ++ v) = false →
      jsTrimL v.data ≠ [] →
      v.data.all (fun c => !isLineTerm c) = true →
      parseAdsTxtLine psl ("CONTACT=" ++ v) n =
        .ok (some (.varEntry
          { variable_type := .CONTACT, value := jsTrim v,
            line_number := n, raw_line := "CONTACT=" ++ v,
            is_valid := true }))) := by
  refine ⟨parseAdsTxtLine_comment_line, parseAdsTxtLine_stripped_empty,
    parseAdsTxtLine_variable_branch, ?_⟩
  intro psl v n hinv hne hterm
  have hdata : ("CONTACT=" ++ v).data = "CONTACT=".data ++ v.data := by
    cases v
    rfl
  have htrimd : (jsTrim ("CONTACT=" ++ v)).data =
      "CONTACT=".data ++ trimRightL v.data := by
    show jsTrimL ("CONTACT=" ++ v).data = _
    rw [hdata]
    exact jsTrimL_cleanPrefix "CONTACT=".data v.data (by decide) (by decide)
  have hd : (jsTrim ("CONTACT=" ++ v)).data =
      'C' :: ("ONTACT=".data ++ trimRightL v.data) := by
    rw [htrimd]
    rfl
  have hTne : jsTrim ("CONTACT=" ++ v) ≠ "" := by
    intro h0
    have h1 := congrArg String.data h0
    rw [hd] at h1
    exact absurd h1 (List.cons_ne_nil _ _)
  have hstart : jsStartsWithChar (jsTrim ("CONTACT=" ++ v)) '#' = false := by
    unfold jsStartsWithChar
    rw [hd]
    rfl
  exact parseAdsTxtLine_variable_branch psl ("CONTACT=" ++ v) n _ hinv hTne
    hstart (parseAdsTxtVariable_contact v n hne hterm)

/-- Witness for the C9 theorem: concrete lines exercising all four parts. -/
theorem parseAdsTxtLine_comment_handling_witness :
    parseAdsTxtLine ⟨fun _ => .ok true, fun _ => .ok none⟩ "# note" 1 =
      .ok none ∧
    parseAdsTxtLine ⟨fun _ => .ok true, fun _ => .ok none⟩ "   " 2 =
      .ok none ∧
    parseAdsTxtLine ⟨fun _ => .ok true, fun _ => .ok none⟩
        "CONTACT=me@x.com" 3 =
      .ok (some (.varEntry
        { variable_type := .CONTACT, value := "me@x.com",
          line_number := 3, raw_line := "CONTACT=me@x.com",
          is_valid := true })) ∧
    parseAdsTxtLine ⟨fun _ => .ok true, fun _ => .ok none⟩
        "CONTACT=foo # bar" 4 =
      .ok (some (.varEntry
        { variable_type := .CONTACT, value := jsTrim "foo # bar",
          line_number := 4, raw_line := "CONTACT=foo # bar",
          is_valid := true })) :=
  ⟨parseAdsTxtLine_comment_handling.1 ⟨fun _ => .ok true, fun _ => .ok none⟩
      "# note" 1 (by decide) (by decide),
   parseAdsTxtLine_comment_handling.2.1
      ⟨fun _ => .ok true, fun _ => .ok none⟩ "   " 2 (by decide) (by decide),
   parseAdsTxtLine_comment_handling.2.2.1
      ⟨fun _ => .ok true, fun _ => .ok none⟩ "CONTACT=me@x.com" 3
      { variable_type := .CONTACT, value := "me@x.com", line_number := 3,
        raw_line := "CONTACT=me@x.com", is_valid := true }
      (by decide) (by decide) (by decide) (by decide),
   parseAdsTxtLine_comment_handling.2.2.2
      ⟨fun _ => .ok true, fun _ => .ok none⟩ "foo # bar" 4
      (by decide) (by decide) (by decide)⟩

/-! ## C10 stage 1: split / intercalate / trim utilities -/

theorem string_mk_data (s : String) : (⟨s.data⟩ : String) = s := by
  cases s
  rfl

theorem string_data_append (a b : String) :
    (a ++ b).data = a.data ++ b.data := by
  cases a
  cases b
  rfl

theorem splitL_ne_nil (sep : Char) (l : List Char) : splitL sep l ≠ [] := by
  cases l with
  | nil => simp [splitL]
  | cons c cs =>
    unfold splitL
    dsimp only
    by_cases h : c = sep
    · simp [h]
    · rw [if_neg h]
      cases splitL sep cs <;> simp

theorem splitL_no_sep (sep : Char) :
    ∀ (l x : List Char), x ∈ splitL sep l → ∀ c ∈ x, ¬(c = sep) := by
  intro l
  induction l with
  | nil =>
    intro x hx c hc
    rw [show splitL sep [] = [[]] from rfl] at hx
    simp at hx
    subst hx
    cases hc
  | cons a t ih =>
    intro x hx c hc
    unfold splitL at hx
    dsimp only at hx
    by_cases ha : a = sep
    · rw [if_pos ha] at hx
      rcases List.mem_cons.1 hx with rfl | hx2
      · cases hc
      · exact ih x hx2 c hc
    · rw [if_neg ha] at hx
      cases hr : splitL sep t with
      | nil => exact absurd hr (splitL_ne_nil sep t)
      | cons h0 t0 =>
        rw [hr] at hx
        rcases List.mem_cons.1 hx with rfl | hx2
        · rcases List.mem_cons.1 hc with rfl | hc2
          · exact ha
          · exact ih h0 (by rw [hr]; exact List.mem_cons_self _ _) c hc2
        · exact ih x (by rw [hr]; exact List.mem_cons_of_mem _ hx2) c hc

theorem splitL_mem_subset (sep : Char) :
    ∀ (l x : List Char), x ∈ splitL sep l → ∀ c ∈ x, c ∈ l := by
  intro l
  induction l with
  | nil =>
    intro x hx c hc
    rw [show splitL sep [] = [[]] from rfl] at hx
    simp at hx
    subst hx
    cases hc
  | cons a t ih =>
    intro x hx c hc
    unfold splitL at hx
    dsimp only at hx
    by_cases ha : a = sep
    · rw [if_pos ha] at hx
      rcases List.mem_cons.1 hx with rfl | hx2
      · cases hc
      · exact List.mem_cons_of_mem a (ih x hx2 c hc)
    · rw [if_neg ha] at hx
      cases hr : splitL sep t with
      | nil => exact absurd hr (splitL_ne_nil sep t)
      | cons h0 t0 =>
        rw [hr] at hx
        rcases List.mem_cons.1 hx with rfl | hx2
        · rcases List.mem_cons.1 hc with rfl | hc2
          · exact List.mem_cons_self _ _
          · exact List.mem_cons_of_mem a
              (ih h0 (by rw [hr]; exact List.mem_cons_self _ _) c hc2)
        · exact List.mem_cons_of_mem a
            (ih x (by rw [hr]; exact List.mem_cons_of_mem _ hx2) c hc)

theorem splitL_eq_self (sep : Char) (l : List Char)
    (h : ∀ c ∈ l, ¬(c = sep)) : splitL sep l = [l] := by
  induction l with
  | nil => rfl
  | cons a t ih =>
    unfold splitL
    dsimp only
    rw [if_neg (h a (List.mem_cons_self _ _)),
      ih (fun c hc => h c (List.mem_cons_of_mem a hc))]

theorem splitL_cons (sep c : Char) (cs : List Char) :
    splitL sep (c :: cs) =
      if c = sep then [] :: splitL sep cs
      else match splitL sep cs with
           | h :: t => (c :: h) :: t
           | [] => [[c]] := rfl

theorem splitL_append_sep (sep : Char) (xs ys : List Char)
    (h : ∀ c ∈ xs, ¬(c = sep)) :
    splitL sep (xs ++ sep :: ys) = xs :: splitL sep ys := by
  induction xs with
  | nil => simp [splitL]
  | cons a t ih =>
    rw [List.cons_append, splitL_cons,
      if_neg (h a (List.mem_cons_self _ _)),
      ih (fun c hc => h c (List.mem_cons_of_mem a hc))]

/-- `sep ++ x0 ++ sep ++ x1 ++ ...`, the tail of a separator join. -/
def sepJoin (sep : List Char) : List (List Char) → List Char
  | [] => []
  | x :: xs => sep ++ x ++ sepJoin sep xs

theorem intercalate_go_data (s : String) :
    ∀ (as : List String) (acc : String),
      (String.intercalate.go acc s as).data =
        acc.data ++ sepJoin s.data (as.map String.data) := by
  intro as
  induction as with
  | nil =>
    intro acc
    simp [String.intercalate.go, sepJoin]
  | cons a t ih =>
    intro acc
    rw [show String.intercalate.go acc s (a :: t) =
      String.intercalate.go (acc ++ s ++ a) s t from rfl]
    rw [ih]
    simp [sepJoin, string_data_append]

theorem intercalate_data (s a : String) (as : List String) :
    (String.intercalate s (a :: as)).data =
      a.data ++ sepJoin s.data (as.map String.data) := by
  rw [show String.intercalate s (a :: as) =
    String.intercalate.go a s as from rfl]
  exact intercalate_go_data s as a

theorem splitL_sepJoin (sep : Char) :
    ∀ (as : List (List Char)) (a : List Char),
      (∀ c ∈ a, ¬(c = sep)) →
      (∀ x ∈ as, ∀ c ∈ x, ¬(c = sep)) →
      splitL sep (a ++ sepJoin [sep] as) = a :: as := by
  intro as
  induction as with
  | nil =>
    intro a ha _
    rw [show sepJoin [sep] [] = [] from rfl, List.append_nil,
      splitL_eq_self sep a ha]
  | cons x xs ih =>
    intro a ha hxs
    rw [show sepJoin [sep] (x :: xs) = [sep] ++ x ++ sepJoin [sep] xs from rfl]
    rw [show a ++ ([sep] ++ x ++ sepJoin [sep] xs) =
      a ++ sep :: (x ++ sepJoin [sep] xs) from by simp]
    rw [splitL_append_sep sep a _ ha,
      ih x (hxs x (List.mem_cons_self _ _))
        (fun y hy => hxs y (List.mem_cons_of_mem x hy))]

/-- Splitting the `\n`-intercalation of `\n`-free lines restores the lines. -/
theorem jsSplitChar_intercalate (a : String) (as : List String)
    (ha : ∀ c ∈ a.data, ¬(c = '\x0a'))
    (has : ∀ s ∈ as, ∀ c ∈ s.data, ¬(c = '\x0a')) :
    jsSplitChar '\x0a' (String.intercalate "\x0a" (a :: as)) = a :: as := by
  unfold jsSplitChar
  rw [intercalate_data]
  rw [show ("\x0a" : String).data = ['\x0a'] from rfl]
  rw [splitL_sepJoin '\x0a' (as.map String.data) a.data ha
    (by
      intro x hx c hc
      rcases List.mem_map.1 hx with ⟨s, hs, rfl⟩
      exact has s hs c hc)]
  rw [List.map_cons, string_mk_data, List.map_map]
  rw [show ((fun l => (⟨l⟩ : String)) ∘ String.data) = id from by
    funext s
    exact string_mk_data s]
  rw [List.map_id]

theorem trimLeftL_jsTrimL (x : List Char) :
    trimLeftL (jsTrimL x) = jsTrimL x :=
  trimLeftL_trimRightL (trimLeftL x) (dropWhile_idem _ _)

theorem trimRightL_jsTrimL (x : List Char) :
    trimRightL (jsTrimL x) = jsTrimL x := by
  unfold jsTrimL
  exact trimRightL_idem _

theorem jsTrim_idem (s : String) : jsTrim (jsTrim s) = jsTrim s := by
  unfold jsTrim
  rw [show (⟨jsTrimL s.data⟩ : String).data = jsTrimL s.data from rfl,
    jsTrimL_idem]

theorem length_trimRightL_le (l : List Char) :
    (trimRightL l).length ≤ l.length := by
  unfold trimRightL
  rw [List.length_reverse]
  calc (l.reverse.dropWhile isJsWhitespace).length
      ≤ l.reverse.length := length_dropWhile_le' _ _
    _ = l.length := List.length_reverse l

theorem jsTrimL_ws_cons (w : Char) (x : List Char)
    (hw : isJsWhitespace w = true) : jsTrimL (w :: x) = jsTrimL x := by
  unfold jsTrimL trimLeftL
  rw [List.dropWhile_cons, if_pos hw]

theorem trimLeftL_field_comma (x rest : List Char) (hx : trimLeftL x = x) :
    trimLeftL (x ++ ',' :: rest) = x ++ ',' :: rest := by
  cases x with
  | nil => exact trimLeftL_cons_nws ',' rest (by decide)
  | cons c0 t0 =>
    have hc0 := trimLeftL_fix_not_ws c0 t0 hx
    rw [List.cons_append]
    exact trimLeftL_cons_nws c0 _ hc0

theorem trimRightL_append_fix (x z : List Char) (hz : trimRightL z = z)
    (hzne : z ≠ []) : trimRightL (x ++ z) = x ++ z := by
  rw [trimRightL_append, if_neg (by rw [hz]; exact hzne), hz]

theorem jsTrimL_head (c : Char) (x : List Char)
    (hc : isJsWhitespace c = false) :
    ∃ t, jsTrimL (c :: x) = c :: t := by
  unfold jsTrimL
  rw [trimLeftL_cons_nws c x hc, trimRightL_cons]
  by_cases h : trimRightL x = []
  · exact ⟨[], by rw [if_pos h, if_neg (by simp [hc])]⟩
  · exact ⟨trimRightL x, by rw [if_neg h]⟩

theorem jsStartsWithChar_head (c : Char) (x : List Char)
    (hc : isJsWhitespace c = false) :
    jsStartsWithChar (jsTrim ⟨c :: x⟩) c = true := by
  obtain ⟨t, ht⟩ := jsTrimL_head c x hc
  unfold jsStartsWithChar
  rw [show (jsTrim ⟨c :: x⟩).data = jsTrimL (c :: x) from rfl, ht]
  simp

theorem hasInvalidCharacters_append (a b : String) :
    hasInvalidCharacters (a ++ b) =
      (hasInvalidCharacters a || hasInvalidCharacters b) := by
  unfold hasInvalidCharacters
  rw [string_data_append, List.any_append]

/-! ## C10 stage 2: parse inversion -/

/-- What reparsing needs of a printed record field: trim-fixed, drawn from
the source line, and free of separators and comment marks. -/
def FieldLineClean (line s : String) : Prop :=
  jsTrim s = s ∧ ∀ c ∈ s.data, c ∈ line.data ∧ ¬(c = ',') ∧ ¬(c = '#')

theorem stripPrefixCI_inv :
    ∀ (p l r : List Char), stripPrefixCI p l = some r → ∃ l1, l = l1 ++ r := by
  intro p
  induction p with
  | nil =>
    intro l r h
    have h' : l = r := by
      have := h
      unfold stripPrefixCI at this
      exact Option.some.inj this
    exact ⟨[], by rw [h']; rfl⟩
  | cons a ps ih =>
    intro l r h
    cases l with
    | nil => exact absurd h (by simp [stripPrefixCI])
    | cons c cs =>
      unfold stripPrefixCI at h
      by_cases hc : Char.toUpper c = a
      · rw [if_pos hc] at h
        obtain ⟨l1, hl1⟩ := ih cs r h
        exact ⟨c :: l1, by rw [List.cons_append, hl1]⟩
      · rw [if_neg hc] at h
        exact absurd h (by simp)

theorem tryVarType_inv (vt : VariableType) (l : List Char)
    (p : VariableType × List Char) (h : tryVarType vt l = some p) :
    ∃ l1, l = l1 ++ p.2 := by
  unfold tryVarType at h
  cases hs : stripPrefixCI (vt.str.data ++ ['=']) l with
  | none => rw [hs] at h; exact absurd h (by simp)
  | some r =>
    rw [hs] at h
    have hp : p = (vt, r) := (Option.some.inj h).symm
    subst hp
    exact stripPrefixCI_inv _ _ _ hs

theorem matchVariable_inv (l : List Char) (vt : VariableType)
    (rest : List Char) (h : matchVariable l = some (vt, rest)) :
    ∃ l1, l = l1 ++ rest := by
  unfold matchVariable at h
  cases h1 : tryVarType .CONTACT l with
  | some p =>
    rw [h1] at h
    have h' : some p = some (vt, rest) := h
    have hp : p = (vt, rest) := Option.some.inj h'
    subst hp
    exact tryVarType_inv _ _ _ h1
  | none =>
    rw [h1] at h
    have h2 : (tryVarType .SUBDOMAIN l <|> tryVarType .INVENTORYPARTNERDOMAIN l
        <|> tryVarType .OWNERDOMAIN l <|> tryVarType .MANAGERDOMAIN l) =
        some (vt, rest) := h
    cases h3 : tryVarType .SUBDOMAIN l with
    | some p =>
      rw [h3] at h2
      have hp : p = (vt, rest) := Option.some.inj h2
      subst hp
      exact tryVarType_inv _ _ _ h3
    | none =>
      rw [h3] at h2
      have h4 : (tryVarType .INVENTORYPARTNERDOMAIN l <|>
          tryVarType .OWNERDOMAIN l <|> tryVarType .MANAGERDOMAIN l) =
          some (vt, rest) := h2
      cases h5 : tryVarType .INVENTORYPARTNERDOMAIN l with
      | some p =>
        rw [h5] at h4
        have hp : p = (vt, rest) := Option.some.inj h4
        subst hp
        exact tryVarType_inv _ _ _ h5
      | none =>
        rw [h5] at h4
        have h6 : (tryVarType .OWNERDOMAIN l <|>
            tryVarType .MANAGERDOMAIN l) = some (vt, rest) := h4
        cases h7 : tryVarType .OWNERDOMAIN l with
        | some p =>
          rw [h7] at h6
          have hp : p = (vt, rest) := Option.some.inj h6
          subst hp
          exact tryVarType_inv _ _ _ h7
        | none =>
          rw [h7] at h6
          have h8 : tryVarType .MANAGERDOMAIN l = some (vt, rest) := h6
          exact tryVarType_inv _ _ _ h8

theorem parseAdsTxtVariable_valid (line : String) (n : Int)
    (v : ParsedAdsTxtVariable) (h : parseAdsTxtVariable line n = some v) :
    v.is_valid = true := by
  unfold parseAdsTxtVariable at h
  dsimp only at h
  split at h
  · split at h
    · have h1 := Option.some.inj h
      rw [← h1]
    · exact absurd h (by simp)
  · exact absurd h (by simp)

theorem parseAdsTxtVariable_inv (line : String) (n : Int)
    (v : ParsedAdsTxtVariable) (h : parseAdsTxtVariable line n = some v) :
    v.is_valid = true ∧ jsTrimL v.value.data ≠ [] ∧
    v.value.data.all (fun c => !isLineTerm c) = true ∧
    ∀ c ∈ v.value.data, c ∈ line.data := by
  refine ⟨parseAdsTxtVariable_valid line n v h, ?_⟩
  unfold parseAdsTxtVariable at h
  dsimp only at h
  cases hm : matchVariable (jsTrim line).data with
  | none => rw [hm] at h; exact absurd h (by simp)
  | some p =>
    obtain ⟨vt, rest⟩ := p
    rw [hm] at h
    dsimp only at h
    split at h
    case isTrue hc =>
      have h1 := Option.some.inj h
      rcases (Bool.and_eq_true _ _).mp hc with ⟨hrne, hterm⟩
      have hrne' : rest ≠ [] := of_decide_eq_true hrne
      obtain ⟨l1, hl1⟩ := matchVariable_inv _ _ _ hm
      -- trim-right fixedness of the trimmed line forces a non-blank rest
      have hfix : trimRightL (l1 ++ rest) = l1 ++ rest := by
        have := trimRightL_jsTrimL line.data
        rw [show (jsTrim line).data = jsTrimL line.data from rfl] at hl1
        rw [hl1] at this
        exact this
      have hrtr : trimRightL rest ≠ [] := by
        intro hnil
        rw [trimRightL_append, if_pos hnil] at hfix
        have hlen := length_trimRightL_le l1
        rw [hfix] at hlen
        rw [List.length_append] at hlen
        have : rest.length = 0 := by omega
        exact hrne' (List.length_eq_zero.1 this)
      have hjne : jsTrimL rest ≠ [] := by
        intro hnil
        exact hrtr ((trimRightL_eq_nil_iff rest).2
          ((jsTrimL_eq_nil_iff rest).1 hnil))
      have hvval : v.value.data = jsTrimL rest := by
        rw [← h1]
        rfl
      refine ⟨?_, ?_, ?_⟩
      · rw [hvval, jsTrimL_idem]
        exact hjne
      · rw [hvval]
        exact List.all_eq_true.2 (fun c hc2 =>
          List.all_eq_true.1 hterm c (mem_jsTrimL c rest hc2))
      · intro c hc2
        rw [hvval] at hc2
        have hcrest : c ∈ rest := mem_jsTrimL c rest hc2
        have hcl : c ∈ l1 ++ rest := List.mem_append.2 (Or.inr hcrest)
        rw [show (jsTrim line).data = jsTrimL line.data from rfl] at hl1
        rw [← hl1] at hcl
        exact mem_jsTrimL c line.data hcl
    case isFalse hc => exact absurd h (by simp)

theorem parseAdsTxtLine_varEntry_inv (psl : PslLib) (line : String)
    (n : Int) (v : ParsedAdsTxtVariable)
    (h : parseAdsTxtLine psl line n = .ok (some (.varEntry v))) :
    hasInvalidCharacters line = false ∧ parseAdsTxtVariable line n = some v := by
  unfold parseAdsTxtLine at h
  by_cases hinv : hasInvalidCharacters line = true
  · rw [if_pos hinv] at h
    exact absurd h (by simp)
  · refine ⟨Bool.eq_false_iff.2 hinv, ?_⟩
    rw [if_neg hinv] at h
    dsimp only at h
    split at h
    · exact Option.noConfusion (Except.ok.inj h)
    · split at h <;> split at h <;>
        first
          | exact Option.noConfusion (Except.ok.inj h)
          | (cases hvp : parseAdsTxtVariable line n with
             | some v' =>
               rw [hvp] at h
               dsimp only at h
               have hv' : v' = v :=
                 ParsedAdsTxtEntry.varEntry.inj (Option.some.inj (Except.ok.inj h))
               exact congrArg some hv' 
             | none =>
               exfalso
               rw [hvp] at h
               dsimp only at h
               repeat' split at h
               all_goals
                 first
                   | exact Option.noConfusion (Except.ok.inj h)
                   | exact ParsedAdsTxtEntry.noConfusion
                       (Option.some.inj (Except.ok.inj h))
                   | exact Except.noConfusion h)

theorem mem_parts_clean (line T2 : String)
    (hsub : ∀ c ∈ T2.data, c ∈ line.data ∧ ¬(c = '#'))
    (s : String) (hs : s ∈ List.map jsTrim (jsSplitChar ',' T2)) :
    FieldLineClean line s := by
  rcases List.mem_map.1 hs with ⟨piece, hpiece, rfl⟩
  unfold jsSplitChar at hpiece
  rcases List.mem_map.1 hpiece with ⟨pl, hpl, rfl⟩
  constructor
  · exact jsTrim_idem _
  · intro c hc
    have hcpl : c ∈ pl := mem_jsTrimL c pl hc
    have h1 := splitL_mem_subset ',' T2.data pl hpl c hcpl
    have h2 := splitL_no_sep ',' T2.data pl hpl c hcpl
    exact ⟨(hsub c h1).1, h2, (hsub c h1).2⟩

theorem hsub_stripped (line : String) :
    ∀ c ∈ (jsTrim ⟨(jsTrim line).data.takeWhile (fun x => x ≠ '#')⟩).data,
      c ∈ line.data ∧ ¬(c = '#') := by
  intro c hc
  have h1 : c ∈ (jsTrim line).data.takeWhile (fun x => decide (x ≠ '#')) :=
    mem_jsTrimL c _ hc
  refine ⟨mem_jsTrimL c line.data (mem_takeWhile _ c _ h1), ?_⟩
  have h2 := takeWhile_prop _ c _ h1
  exact of_decide_eq_true h2

theorem mem_of_head? (l : List α) (a : α) (h : l.head? = some a) : a ∈ l := by
  cases l with
  | nil => cases h
  | cons x xs =>
    have : x = a := Option.some.inj h
    rw [← this]
    exact List.mem_cons_self _ _

theorem processRest_caid (rel : Relationship) (rest : List String)
    (c' : String) (h : (processRest rel rest).certAuthorityId = some c') :
    c' ∈ rest := by
  unfold processRest at h
  cases rest with
  | nil => cases h
  | cons r0 rtail =>
    dsimp only at h
    cases hr : relOfUpper (jsToUpper r0) with
    | some newRel =>
      rw [hr] at h
      dsimp only at h
      exact List.mem_cons_of_mem r0 (mem_of_head? rtail c' h)
    | none =>
      rw [hr] at h
      dsimp only at h
      have : r0 = c' := Option.some.inj h
      rw [← this]
      exact List.mem_cons_self _ _

theorem processRelationship_caid (accountType : String) (rest : List String)
    (c' : String)
    (h : (processRelationship accountType rest).certAuthorityId = some c') :
    c' ∈ rest := by
  unfold processRelationship at h
  dsimp only at h
  cases h1 : relOfUpper (jsToUpper accountType) with
  | some rel =>
    rw [h1] at h
    exact processRest_caid rel rest c' h
  | none =>
    rw [h1] at h
    cases rest with
    | nil => cases h
    | cons r0 rtail =>
      rw [show (r0 :: rtail).head? = some r0 from rfl] at h
      dsimp only at h
      by_cases h2 : (relOfUpper (jsToUpper r0)).isSome
      · rw [if_pos h2] at h
        exact processRest_caid .DIRECT (r0 :: rtail) c' h
      · rw [if_neg h2] at h
        cases h

theorem valid_fields_clean (line T2 domain accountId accountType : String)
    (rest : List String)
    (hsub : ∀ c ∈ T2.data, c ∈ line.data ∧ ¬(c = '#'))
    (heq : List.map jsTrim (jsSplitChar ',' T2) =
      domain :: accountId :: accountType :: rest) :
    FieldLineClean line domain ∧ FieldLineClean line accountId ∧
    ∀ c' ∈ rest, FieldLineClean line c' :=
  ⟨mem_parts_clean line T2 hsub domain
      (by rw [heq]; exact List.mem_cons_self _ _),
   mem_parts_clean line T2 hsub accountId
      (by rw [heq]; exact List.mem_cons_of_mem _ (List.mem_cons_self _ _)),
   fun c' hc' => mem_parts_clean line T2 hsub c'
      (by
        rw [heq]
        exact List.mem_cons_of_mem _ (List.mem_cons_of_mem _
          (List.mem_cons_of_mem _ hc')))⟩

theorem parseAdsTxtLine_record_inv (psl : PslLib) (line : String) (n : Int)
    (r : ParsedAdsTxtRecord)
    (h : parseAdsTxtLine psl line n = .ok (some (.record r)))
    (hv : r.is_valid = true) :
    hasInvalidCharacters line = false ∧
    psl.isValid r.domain = .ok true ∧ r.account_id ≠ "" ∧
    FieldLineClean line r.domain ∧ FieldLineClean line r.account_id ∧
    ∀ c', r.certification_authority_id = some c' → FieldLineClean line c' := by
  unfold parseAdsTxtLine at h
  by_cases hinv : hasInvalidCharacters line = true
  · rw [if_pos hinv] at h
    exact Bool.noConfusion ((congrArg ParsedAdsTxtRecord.is_valid
      (ParsedAdsTxtEntry.record.inj (Option.some.inj (Except.ok.inj h)))).trans hv)
  · have hinvF : hasInvalidCharacters line = false := Bool.eq_false_iff.2 hinv
    refine ⟨hinvF, ?_⟩
    rw [if_neg hinv] at h
    dsimp only at h
    repeat' split at h
    all_goals
      first
        | exact Option.noConfusion (Except.ok.inj h)
        | exact ParsedAdsTxtEntry.noConfusion (Option.some.inj (Except.ok.inj h))
        | exact Except.noConfusion h
        | exact Bool.noConfusion ((congrArg ParsedAdsTxtRecord.is_valid
            (ParsedAdsTxtEntry.record.inj
              (Option.some.inj (Except.ok.inj h)))).trans hv)
        | skip
    case _ =>
      rename_i hTop hB hOuter xv hvnone hlen hfmt parts dom acc acct restp heq2 x1 herr x0 pslOk hpsl hps hacc
      have hr := ParsedAdsTxtEntry.record.inj (Option.some.inj (Except.ok.inj h))
      subst hr
      have hps' : pslOk = true := by simpa using hps
      rw [hps'] at hpsl
      have hsub : ∀ c ∈ (jsTrim ⟨(jsTrim line).data.takeWhile (fun c => c ≠ '#')⟩).data, c ∈ line.data ∧ ¬(c = '#') := hsub_stripped line
      obtain ⟨hd, ha, hrest⟩ :=
        valid_fields_clean line (jsTrim ⟨(jsTrim line).data.takeWhile (fun c => c ≠ '#')⟩) dom acc acct restp hsub heq2
      refine ⟨hpsl, hacc, hd, ha, ?_⟩
      intro c' hc'
      exact hrest c' (processRelationship_caid acct restp c' hc')
    case _ =>
      rename_i hTop hB hOuter xv hvnone hlen hfmt parts dom acc acct restp heq2 x1 herr x0 pslOk hpsl hps hacc
      have hr := ParsedAdsTxtEntry.record.inj (Option.some.inj (Except.ok.inj h))
      subst hr
      have hps' : pslOk = true := by simpa using hps
      rw [hps'] at hpsl
      have hsub : ∀ c ∈ (jsTrim line).data, c ∈ line.data ∧ ¬(c = '#') := (by
        intro c hc
        refine ⟨mem_jsTrimL c line.data hc, ?_⟩
        intro hcc
        apply hB
        rw [List.any_eq_true]
        exact ⟨c, hc, by simp [hcc]⟩)
      obtain ⟨hd, ha, hrest⟩ :=
        valid_fields_clean line (jsTrim line) dom acc acct restp hsub heq2
      refine ⟨hpsl, hacc, hd, ha, ?_⟩
      intro c' hc'
      exact hrest c' (processRelationship_caid acct restp c' hc')

/-! ## C10 stage 3: reparsing the printed lines -/

/-- Cleanliness of a printed record field, sufficient for reparsing. -/
def FieldClean (s : String) : Prop :=
  jsTrim s = s ∧ ∀ c ∈ s.data,
    ¬(c = ',') ∧ ¬(c = '#') ∧ isInvalidChar c = false ∧ ¬(c = '\x0a')

theorem processRest_error (rel : Relationship) (rest : List String) :
    (processRest rel rest).error = none := by
  unfold processRest
  cases rest with
  | nil => rfl
  | cons r0 t =>
    dsimp only
    cases relOfUpper (jsToUpper r0) <;> rfl

theorem relOfUpper_str (rel : Relationship) :
    relOfUpper (jsToUpper rel.str) = some rel := by
  cases rel <;> rfl

theorem processRelationship_str_error (rel : Relationship)
    (rest : List String) :
    (processRelationship rel.str rest).error = none := by
  unfold processRelationship
  dsimp only
  rw [relOfUpper_str]
  exact processRest_error rel rest

theorem parse_record_generic (psl : PslLib) (L : String) (n : Int)
    (hinv : hasInvalidCharacters L = false)
    (hfix : jsTrim L = L)
    (hLne : ¬(L = ""))
    (hstart : jsStartsWithChar L '#' = false)
    (hhash : (L.data.any fun c => c = '#') = false)
    (domain accountId accountType : String) (restParts : List String)
    (hparts : List.map jsTrim (jsSplitChar ',' L) =
      domain :: accountId :: accountType :: restParts)
    (herr : (processRelationship accountType restParts).error = none)
    (hpsl : psl.isValid domain = .ok true)
    (hacc : ¬(accountId = "")) :
    ∃ e, parseAdsTxtLine psl L n = .ok (some e) ∧ entryIsValid e = true := by
  unfold parseAdsTxtLine
  rw [if_neg (by simp [hinv])]
  dsimp only
  rw [hfix]
  rw [if_neg (by simp [hLne, hstart])]
  rw [hhash]
  simp only [Bool.false_eq_true, if_false, Bool.false_and]
  cases hvar : parseAdsTxtVariable L n with
  | some v =>
    exact ⟨.varEntry v, rfl, parseAdsTxtVariable_valid L n v hvar⟩
  | none =>
    dsimp only
    rw [hparts]
    rw [if_neg (by simp only [List.length_cons]; omega)]
    rw [if_neg (by simp only [List.length_cons]; simp)]
    dsimp only
    rw [herr]
    dsimp only
    rw [hpsl]
    dsimp only
    rw [if_neg (by simp)]
    rw [if_neg hacc]
    refine ⟨.record
      { domain := domain, account_id := accountId,
        account_type := accountType,
        certification_authority_id :=
          (processRelationship accountType restParts).certAuthorityId,
        relationship :=
          (processRelationship accountType restParts).relationship,
        line_number := n, raw_line := L, is_valid := true }, rfl, rfl⟩

theorem string_ext (s t : String) (h : s.data = t.data) : s = t := by
  cases s with
  | mk d1 =>
    cases t with
    | mk d2 =>
      have h' : d1 = d2 := h
      subst h'
      rfl

theorem reparse_shape (psl : PslLib) (d a SUF accountType : String)
    (restParts : List String) (n : Int)
    (hd : FieldClean d) (ha : FieldClean a)
    (hpsl : psl.isValid d = .ok true) (hane : ¬(a = ""))
    (hsufsplit : List.map jsTrim
        (List.map (fun l => (⟨l⟩ : String)) (splitL ',' (' ' :: SUF.data))) =
      accountType :: restParts)
    (herr : (processRelationship accountType restParts).error = none)
    (hSUFfixR : trimRightL SUF.data = SUF.data)
    (hSUFne : ¬(SUF.data = []))
    (hSUFmem : ∀ c ∈ SUF.data,
      ¬(c = '#') ∧ isInvalidChar c = false ∧ ¬(c = '\x0a')) :
    (∃ e, parseAdsTxtLine psl (d ++ ", " ++ a ++ ", " ++ SUF) n =
      .ok (some e) ∧ entryIsValid e = true) ∧
    (∀ c ∈ (d ++ ", " ++ a ++ ", " ++ SUF).data, ¬(c = '\x0a')) := by
  have hLdata : (d ++ ", " ++ a ++ ", " ++ SUF).data =
      d.data ++ ',' :: ' ' :: (a.data ++ ',' :: ' ' :: SUF.data) := by
    rw [string_data_append, string_data_append, string_data_append,
      string_data_append, show (", " : String).data = [',', ' '] from rfl]
    simp
  have hmem : ∀ c ∈ (d ++ ", " ++ a ++ ", " ++ SUF).data,
      ¬(c = '#') ∧ isInvalidChar c = false ∧ ¬(c = '\x0a') := by
    intro c hc
    rw [hLdata] at hc
    rcases List.mem_append.1 hc with hcd | hc2
    · exact ⟨(hd.2 c hcd).2.1, (hd.2 c hcd).2.2.1, (hd.2 c hcd).2.2.2⟩
    · rcases List.mem_cons.1 hc2 with rfl | hc3
      · exact ⟨by decide, by decide, by decide⟩
      · rcases List.mem_cons.1 hc3 with rfl | hc4
        · exact ⟨by decide, by decide, by decide⟩
        · rcases List.mem_append.1 hc4 with hca | hc5
          · exact ⟨(ha.2 c hca).2.1, (ha.2 c hca).2.2.1, (ha.2 c hca).2.2.2⟩
          · rcases List.mem_cons.1 hc5 with rfl | hc6
            · exact ⟨by decide, by decide, by decide⟩
            · rcases List.mem_cons.1 hc6 with rfl | hcs
              · exact ⟨by decide, by decide, by decide⟩
              · exact hSUFmem c hcs
  have hinv : hasInvalidCharacters (d ++ ", " ++ a ++ ", " ++ SUF) = false := by
    unfold hasInvalidCharacters
    rw [List.any_eq_false]
    intro c hc
    simp [(hmem c hc).2.1]
  have hhash : ((d ++ ", " ++ a ++ ", " ++ SUF).data.any fun c => c = '#')
      = false := by
    rw [List.any_eq_false]
    intro c hc
    simp [(hmem c hc).1]
  have hdd : jsTrimL d.data = d.data := congrArg String.data hd.1
  have had : jsTrimL a.data = a.data := congrArg String.data ha.1
  have hdfixL : trimLeftL d.data = d.data := by
    rw [← hdd]
    exact trimLeftL_jsTrimL _
  have hfixL : jsTrimL (d ++ ", " ++ a ++ ", " ++ SUF).data =
      (d ++ ", " ++ a ++ ", " ++ SUF).data := by
    show trimRightL (trimLeftL (d ++ ", " ++ a ++ ", " ++ SUF).data) =
      (d ++ ", " ++ a ++ ", " ++ SUF).data
    rw [hLdata, trimLeftL_field_comma _ _ hdfixL,
      show d.data ++ ',' :: ' ' :: (a.data ++ ',' :: ' ' :: SUF.data) =
        (d.data ++ ',' :: ' ' :: a.data ++ [',', ' ']) ++ SUF.data from by simp]
    exact trimRightL_append_fix _ _ hSUFfixR hSUFne
  have hfix : jsTrim (d ++ ", " ++ a ++ ", " ++ SUF) =
      d ++ ", " ++ a ++ ", " ++ SUF := by
    show (⟨jsTrimL (d ++ ", " ++ a ++ ", " ++ SUF).data⟩ : String) = _
    rw [hfixL]
  have hLne : ¬(d ++ ", " ++ a ++ ", " ++ SUF = "") := by
    intro h0
    have h1 := congrArg String.data h0
    rw [hLdata] at h1
    rcases List.append_eq_nil.1 h1 with ⟨_, h2⟩
    exact List.noConfusion h2
  have hstart : jsStartsWithChar (d ++ ", " ++ a ++ ", " ++ SUF) '#'
      = false := by
    unfold jsStartsWithChar
    rw [hLdata]
    cases hdd2 : d.data with
    | nil => rfl
    | cons c0 t0 =>
      have hc0 : ¬(c0 = '#') :=
        (hd.2 c0 (by rw [hdd2]; exact List.mem_cons_self _ _)).2.1
      simp [hc0]
  have hjd : jsTrim ⟨d.data⟩ = d := by
    rw [string_mk_data]
    exact hd.1
  have hja : jsTrim ⟨' ' :: a.data⟩ = a := by
    show (⟨jsTrimL (' ' :: a.data)⟩ : String) = a
    rw [jsTrimL_ws_cons ' ' a.data (by decide), had]
  have hparts : List.map jsTrim
      (jsSplitChar ',' (d ++ ", " ++ a ++ ", " ++ SUF)) =
      d :: a :: accountType :: restParts := by
    unfold jsSplitChar
    rw [hLdata]
    rw [splitL_append_sep ',' d.data _ (fun c hc => (hd.2 c hc).1)]
    rw [show (' ' :: (a.data ++ ',' :: ' ' :: SUF.data)) =
      (' ' :: a.data) ++ ',' :: (' ' :: SUF.data) from by simp]
    rw [splitL_append_sep ',' (' ' :: a.data) _ (by
      intro c hc
      rcases List.mem_cons.1 hc with rfl | hc2
      · decide
      · exact (ha.2 c hc2).1)]
    simp only [List.map_cons]
    rw [show List.map jsTrim (List.map (fun l => (⟨l⟩ : String))
        (splitL ',' (' ' :: SUF.data))) = accountType :: restParts
      from hsufsplit]
    rw [hjd, hja]
  exact ⟨parse_record_generic psl _ n hinv hfix hLne hstart hhash
    d a accountType restParts hparts herr hpsl hane,
    fun c hc => (hmem c hc).2.2⟩

theorem relStr_trimRight (rel : Relationship) :
    trimRightL rel.str.data = rel.str.data := by
  cases rel <;> rfl

theorem relStr_ne (rel : Relationship) : ¬(rel.str.data = []) := by
  cases rel <;> decide

theorem relStr_mem (rel : Relationship) :
    ∀ c ∈ rel.str.data,
      ¬(c = ',') ∧ ¬(c = '#') ∧ isInvalidChar c = false ∧ ¬(c = '\x0a') := by
  cases rel <;> decide

theorem relStr_jsTrim_sp (rel : Relationship) :
    jsTrim ⟨' ' :: rel.str.data⟩ = rel.str := by
  cases rel <;> rfl

theorem reparse_record_line (psl : PslLib) (r : ParsedAdsTxtRecord) (n : Int)
    (hd : FieldClean r.domain) (ha : FieldClean r.account_id)
    (hcaid : ∀ c', r.certification_authority_id = some c' → FieldClean c')
    (hpsl : psl.isValid r.domain = .ok true)
    (hane : ¬(r.account_id = "")) :
    (∃ e, parseAdsTxtLine psl (formatRecordLine r) n = .ok (some e) ∧
      entryIsValid e = true) ∧
    ∀ c ∈ (formatRecordLine r).data, ¬(c = '\x0a') := by
  have hbase : ∀ x, (∃ e, parseAdsTxtLine psl
        (r.domain ++ ", " ++ r.account_id ++ ", " ++ r.relationship.str) x =
        .ok (some e) ∧ entryIsValid e = true) ∧
      ∀ c ∈ (r.domain ++ ", " ++ r.account_id ++ ", " ++
        r.relationship.str).data, ¬(c = '\x0a') := by
    intro x
    refine reparse_shape psl r.domain r.account_id r.relationship.str
      r.relationship.str [] x hd ha hpsl hane ?_
      (processRelationship_str_error r.relationship [])
      (relStr_trimRight r.relationship) (relStr_ne r.relationship)
      (fun c hc => ⟨(relStr_mem _ c hc).2.1, (relStr_mem _ c hc).2.2.1,
        (relStr_mem _ c hc).2.2.2⟩)
    rw [splitL_eq_self ',' (' ' :: r.relationship.str.data) (by
      intro c hc
      rcases List.mem_cons.1 hc with rfl | hc2
      · decide
      · exact (relStr_mem _ c hc2).1)]
    simp only [List.map_cons, List.map_nil]
    rw [relStr_jsTrim_sp]
  cases hcc : r.certification_authority_id with
  | none =>
    have hL : formatRecordLine r =
        r.domain ++ ", " ++ r.account_id ++ ", " ++ r.relationship.str := by
      unfold formatRecordLine
      rw [hcc]
    rw [hL]
    exact hbase n
  | some cA =>
    by_cases hce : cA = ""
    · have hL : formatRecordLine r =
          r.domain ++ ", " ++ r.account_id ++ ", " ++ r.relationship.str := by
        unfold formatRecordLine
        rw [hcc]
        dsimp only
        rw [if_neg (by simp [hce])]
      rw [hL]
      exact hbase n
    · have hcA := hcaid cA hcc
      have hcadd : jsTrimL cA.data = cA.data := congrArg String.data hcA.1
      have hcAfixR : trimRightL cA.data = cA.data := by
        rw [← hcadd]
        exact trimRightL_jsTrimL _
      have hcAne' : ¬(cA.data = []) := by
        intro h0
        exact hce (string_eq_empty_of_data cA h0)
      have hSdata : (r.relationship.str ++ ", " ++ cA).data =
          r.relationship.str.data ++ ',' :: ' ' :: cA.data := by
        rw [string_data_append, string_data_append,
          show (", " : String).data = [',', ' '] from rfl]
        simp
      have hL : formatRecordLine r =
          r.domain ++ ", " ++ r.account_id ++ ", " ++
            (r.relationship.str ++ ", " ++ cA) := by
        unfold formatRecordLine
        rw [hcc]
        dsimp only
        rw [if_pos (by simp [hce])]
        exact string_ext _ _ (by simp [string_data_append])
      rw [hL]
      refine reparse_shape psl r.domain r.account_id
        (r.relationship.str ++ ", " ++ cA) r.relationship.str [cA] n
        hd ha hpsl hane ?_ (processRelationship_str_error r.relationship [cA])
        ?_ ?_ ?_
      · rw [hSdata]
        rw [show (' ' :: (r.relationship.str.data ++ ',' :: ' ' :: cA.data)) =
          (' ' :: r.relationship.str.data) ++ ',' :: (' ' :: cA.data)
          from by simp]
        rw [splitL_append_sep ',' (' ' :: r.relationship.str.data) _ (by
          intro c hc
          rcases List.mem_cons.1 hc with rfl | hc2
          · decide
          · exact (relStr_mem _ c hc2).1)]
        rw [splitL_eq_self ',' (' ' :: cA.data) (by
          intro c hc
          rcases List.mem_cons.1 hc with rfl | hc2
          · decide
          · exact (hcA.2 c hc2).1)]
        simp only [List.map_cons, List.map_nil]
        rw [relStr_jsTrim_sp]
        rw [show jsTrim ⟨' ' :: cA.data⟩ = cA from by
          show (⟨jsTrimL (' ' :: cA.data)⟩ : String) = cA
          rw [jsTrimL_ws_cons ' ' cA.data (by decide), hcadd]]
      · rw [hSdata,
          show r.relationship.str.data ++ ',' :: ' ' :: cA.data =
            (r.relationship.str.data ++ [',', ' ']) ++ cA.data from by simp]
        exact trimRightL_append_fix _ _ hcAfixR hcAne'
      · rw [hSdata]
        intro h0
        rcases List.append_eq_nil.1 h0 with ⟨h1, _⟩
        exact relStr_ne r.relationship h1
      · intro c hc
        rw [hSdata] at hc
        rcases List.mem_append.1 hc with hc1 | hc2
        · exact ⟨(relStr_mem _ c hc1).2.1, (relStr_mem _ c hc1).2.2.1,
            (relStr_mem _ c hc1).2.2.2⟩
        · rcases List.mem_cons.1 hc2 with rfl | hc3
          · exact ⟨by decide, by decide, by decide⟩
          · rcases List.mem_cons.1 hc3 with rfl | hc4
            · exact ⟨by decide, by decide, by decide⟩
            · exact ⟨(hcA.2 c hc4).2.1, (hcA.2 c hc4).2.2.1,
                (hcA.2 c hc4).2.2.2⟩

theorem matchVariable_self (vt : VariableType) (r : List Char) :
    matchVariable ((vt.str ++ "=").data ++ r) = some (vt, r) := by
  cases vt <;> rfl

theorem parseAdsTxtVariable_self (vt : VariableType) (value : String)
    (n : Int) (hne : jsTrimL value.data ≠ [])
    (hterm : value.data.all (fun c => !isLineTerm c) = true) :
    parseAdsTxtVariable (vt.str ++ "=" ++ value) n =
      some { variable_type := vt, value := jsTrim value, line_number := n,
             raw_line := vt.str ++ "=" ++ value, is_valid := true } := by
  have hdata : (vt.str ++ "=" ++ value).data =
      (vt.str ++ "=").data ++ value.data := string_data_append _ _
  have hPws : ∀ c ∈ (vt.str ++ "=").data, isJsWhitespace c = false := by
    cases vt <;> decide
  have hPne : (vt.str ++ "=").data ≠ [] := by cases vt <;> decide
  have htrimd : (jsTrim (vt.str ++ "=" ++ value)).data =
      (vt.str ++ "=").data ++ trimRightL value.data := by
    show jsTrimL (vt.str ++ "=" ++ value).data = _
    rw [hdata]
    exact jsTrimL_cleanPrefix _ _ hPws hPne
  have hne' : trimRightL value.data ≠ [] := fun hnil =>
    hne ((jsTrimL_eq_nil_iff value.data).2
      ((trimRightL_eq_nil_iff value.data).1 hnil))
  have hall : (trimRightL value.data).all (fun c => !isLineTerm c) = true :=
    List.all_eq_true.2 (fun c hc =>
      List.all_eq_true.1 hterm c (mem_trimRightL c value.data hc))
  have hval : jsTrim ⟨trimRightL value.data⟩ = jsTrim value := by
    show (⟨jsTrimL (trimRightL value.data)⟩ : String) = _
    rw [jsTrimL_trimRightL]
    rfl
  unfold parseAdsTxtVariable
  dsimp only
  rw [htrimd, matchVariable_self]
  dsimp only
  rw [if_pos (by simp [hne', hall]), hval]

theorem parseAdsTxtLine_varline (psl : PslLib) (vt : VariableType)
    (value : String) (n : Int)
    (hinv : hasInvalidCharacters (vt.str ++ "=" ++ value) = false)
    (hne : jsTrimL value.data ≠ [])
    (hterm : value.data.all (fun c => !isLineTerm c) = true) :
    parseAdsTxtLine psl (vt.str ++ "=" ++ value) n =
      .ok (some (.varEntry
        { variable_type := vt, value := jsTrim value,
          line_number := n, raw_line := vt.str ++ "=" ++ value,
          is_valid := true })) := by
  have hdata : (vt.str ++ "=" ++ value).data =
      (vt.str ++ "=").data ++ value.data := string_data_append _ _
  have hPws : ∀ c ∈ (vt.str ++ "=").data, isJsWhitespace c = false := by
    cases vt <;> decide
  have hPne : (vt.str ++ "=").data ≠ [] := by cases vt <;> decide
  have htrimd : (jsTrim (vt.str ++ "=" ++ value)).data =
      (vt.str ++ "=").data ++ trimRightL value.data := by
    show jsTrimL (vt.str ++ "=" ++ value).data = _
    rw [hdata]
    exact jsTrimL_cleanPrefix _ _ hPws hPne
  have hTne : jsTrim (vt.str ++ "=" ++ value) ≠ "" := by
    intro h0
    have h1 := congrArg String.data h0
    rw [htrimd] at h1
    rcases List.append_eq_nil.1 h1 with ⟨hP0, _⟩
    exact hPne hP0
  have hstart : jsStartsWithChar (jsTrim (vt.str ++ "=" ++ value)) '#'
      = false := by
    unfold jsStartsWithChar
    rw [htrimd]
    cases vt <;> rfl
  exact parseAdsTxtLine_variable_branch psl _ n _ hinv hTne hstart
    (parseAdsTxtVariable_self vt value n hne hterm)

/-! ## C10 stage 4: invariants of the optimizer pipeline -/

/-- What the optimizer knows about a kept variable entry. -/
def VarGood (v : ParsedAdsTxtVariable) : Prop :=
  v.is_valid = true ∧ hasInvalidCharacters v.value = false ∧
  jsTrimL v.value.data ≠ [] ∧
  v.value.data.all (fun c => !isLineTerm c) = true

/-- What the optimizer knows about a kept record entry. -/
def RecGood (psl : PslLib) (r : ParsedAdsTxtRecord) : Prop :=
  r.is_valid = true ∧ psl.isValid r.domain = .ok true ∧
  ¬(r.account_id = "") ∧ FieldClean r.domain ∧ FieldClean r.account_id ∧
  ∀ c', r.certification_authority_id = some c' → FieldClean c'

def EntryGood (psl : PslLib) : ParsedAdsTxtEntry → Prop
  | .varEntry v => VarGood v
  | .record r => RecGood psl r

theorem parse_entry_good (psl : PslLib) (line : String) (n : Int)
    (e : ParsedAdsTxtEntry)
    (hline : ∀ c ∈ line.data, ¬(c = '\x0a'))
    (h : parseAdsTxtLine psl line n = .ok (some e))
    (hv : entryIsValid e = true) :
    EntryGood psl e := by
  cases e with
  | varEntry v =>
    obtain ⟨hinv, hvar⟩ := parseAdsTxtLine_varEntry_inv psl line n v h
    obtain ⟨hval, hne, hterm, hsubl⟩ := parseAdsTxtVariable_inv line n v hvar
    refine ⟨hval, ?_, hne, hterm⟩
    unfold hasInvalidCharacters
    rw [List.any_eq_false]
    intro c hc
    have h2 : ∀ x ∈ line.data, ¬(isInvalidChar x = true) := by
      rw [← List.any_eq_false]
      exact hinv
    exact h2 c (hsubl c hc)
  | record r =>
    have hvr : r.is_valid = true := hv
    obtain ⟨hinv, hpsl, hane, hdL, haL, hcaidL⟩ :=
      parseAdsTxtLine_record_inv psl line n r h hvr
    have hinvAll : ∀ x ∈ line.data, ¬(isInvalidChar x = true) := by
      rw [← List.any_eq_false]
      exact hinv
    have hconv : ∀ s, FieldLineClean line s → FieldClean s := by
      intro s hs
      refine ⟨hs.1, ?_⟩
      intro c hc
      obtain ⟨hcl, hcm, hch⟩ := hs.2 c hc
      exact ⟨hcm, hch, Bool.eq_false_iff.2 (hinvAll c hcl), hline c hcl⟩
    exact ⟨hvr, hpsl, hane, hconv _ hdL, hconv _ haL,
      fun c' hc' => hconv _ (hcaidL c' hc')⟩

/-- The loop invariant of `optimizeAdsTxt`'s per-line fold. -/
def StGood (psl : PslLib) (st : OptimizeState) : Prop :=
  (∀ e ∈ st.parsedEntries, EntryGood psl e) ∧
  (∀ p ∈ st.comments,
    jsStartsWithChar (jsTrim p.2) '#' = true ∧ ∀ c ∈ p.2.data, ¬(c = '\x0a'))

theorem optimizeLineStep_good (psl : PslLib) (st : OptimizeState)
    (line : String) (i : Nat)
    (hline : ∀ c ∈ line.data, ¬(c = '\x0a'))
    (hst : StGood psl st) :
    StGood psl (optimizeLineStep psl st line i) := by
  unfold optimizeLineStep
  dsimp only
  by_cases h1 : jsStartsWithChar (jsTrim line) '#' = true
  · rw [if_pos h1]
    refine ⟨hst.1, ?_⟩
    intro p hp
    rcases List.mem_append.1 hp with hp1 | hp2
    · exact hst.2 p hp1
    · have hpl : p = (i, line) := by simpa using hp2
      rw [hpl]
      exact ⟨h1, hline⟩
  · rw [if_neg h1]
    by_cases h2 : jsTrim line = ""
    · rw [if_pos h2]
      exact hst
    · rw [if_neg h2]
      cases hp : parseAdsTxtLine psl line (Int.ofNat i + 1) with
      | error e => exact hst
      | ok oe =>
        cases oe with
        | none => exact hst
        | some pe =>
          dsimp only
          by_cases h3 : entryIsValid pe = true
          · rw [if_neg (by simp [h3])]
            have hgood : EntryGood psl pe :=
              parse_entry_good psl line _ pe hline hp h3
            cases pe with
            | varEntry v =>
              dsimp only
              split <;> split
              all_goals refine ⟨?_, hst.2⟩
              all_goals intro e' he'
              all_goals
                first
                  | exact hst.1 e' he'
                  | (rcases List.mem_append.1 he' with h4 | h5
                     · exact hst.1 e' h4
                     · have h6 : e' = ParsedAdsTxtEntry.varEntry v := by
                         simpa using h5
                       rw [h6]
                       exact hgood)
            | record r =>
              dsimp only
              split
              all_goals refine ⟨?_, hst.2⟩
              all_goals intro e' he'
              all_goals
                first
                  | exact hst.1 e' he'
                  | (rcases List.mem_append.1 he' with h4 | h5
                     · exact hst.1 e' h4
                     · have h6 : e' = ParsedAdsTxtEntry.record r := by
                         simpa using h5
                       rw [h6]
                       exact hgood)
          · rw [if_pos (by simp [h3])]
            exact hst

theorem fold_good (psl : PslLib) :
    ∀ (ps : List (Nat × String)) (st : OptimizeState),
      (∀ p ∈ ps, ∀ c ∈ p.2.data, ¬(c = '\x0a')) → StGood psl st →
      StGood psl
        (ps.foldl (fun st p => optimizeLineStep psl st p.2 p.1) st) := by
  intro ps
  induction ps with
  | nil =>
    intro st _ hst
    exact hst
  | cons p pt ih =>
    intro st hps hst
    rw [List.foldl_cons]
    exact ih _ (fun q hq => hps q (List.mem_cons_of_mem p hq))
      (optimizeLineStep_good psl st p.2 p.1
        (hps p (List.mem_cons_self _ _)) hst)

theorem enumFrom_snd_mem :
    ∀ (l : List α) (k : Nat) (p : Nat × α), p ∈ List.enumFrom k l → p.2 ∈ l := by
  intro l
  induction l with
  | nil =>
    intro k p hp
    cases hp
  | cons a t ih =>
    intro k p hp
    rcases List.mem_cons.1 hp with rfl | hp2
    · exact List.mem_cons_self _ _
    · exact List.mem_cons_of_mem a (ih (k + 1) p hp2)

theorem enum_snd_mem (l : List α) (p : Nat × α) (hp : p ∈ l.enum) :
    p.2 ∈ l :=
  enumFrom_snd_mem l 0 p hp

theorem insertSorted_mem (cmp : α → α → Ordering) (x y : α) (l : List α)
    (h : x ∈ insertSorted cmp y l) : x = y ∨ x ∈ l := by
  induction l with
  | nil => simpa [insertSorted] using h
  | cons a t ih =>
    unfold insertSorted at h
    by_cases hc : cmp y a = .gt
    · rw [if_pos hc] at h
      rcases List.mem_cons.1 h with rfl | h2
      · exact Or.inr (List.mem_cons_self _ _)
      · rcases ih h2 with h3 | h4
        · exact Or.inl h3
        · exact Or.inr (List.mem_cons_of_mem a h4)
    · rw [if_neg hc] at h
      rcases List.mem_cons.1 h with rfl | h2
      · exact Or.inl rfl
      · exact Or.inr h2

theorem stableSortBy_mem (cmp : α → α → Ordering) (x : α) (l : List α)
    (h : x ∈ stableSortBy cmp l) : x ∈ l := by
  unfold stableSortBy at h
  induction l with
  | nil => simpa using h
  | cons a t ih =>
    rw [List.foldr_cons] at h
    rcases insertSorted_mem cmp x a _ h with rfl | h2
    · exact List.mem_cons_self _ _
    · exact List.mem_cons_of_mem a (ih h2)

theorem mapPush_values (k k' : String) (v : β) (m : List (String × List β))
    (x : β) (hx : x ∈ (mapGet? k' (mapPush k v m)).getD []) :
    x = v ∨ x ∈ (mapGet? k' m).getD [] := by
  unfold mapPush at hx
  by_cases hk : k' = k
  · subst hk
    rw [mapGet?_mapSet_self] at hx
    dsimp only [Option.getD] at hx
    rcases List.mem_append.1 hx with h1 | h2
    · exact Or.inr h1
    · exact Or.inl (by simpa using h2)
  · rw [mapGet?_mapSet_ne k' k _ m (fun hkk => hk hkk.symm)] at hx
    exact Or.inr hx

theorem groupFold_values (key : β → String) (P : β → Prop) :
    ∀ (ves : List β) (g0 : List (String × List β)),
      (∀ k x, x ∈ (mapGet? k g0).getD [] → P x) →
      (∀ v ∈ ves, P v) →
      ∀ k x,
        x ∈ (mapGet? k
          (ves.foldl (fun g v => mapPush (key v) v g) g0)).getD [] → P x := by
  intro ves
  induction ves with
  | nil =>
    intro g0 hg _ k x hx
    exact hg k x hx
  | cons v vt ih =>
    intro g0 hg hv k x hx
    rw [List.foldl_cons] at hx
    refine ih (mapPush (key v) v g0) ?_
      (fun w hw => hv w (List.mem_cons_of_mem v hw)) k x hx
    intro k2 y hy
    rcases mapPush_values (key v) k2 v g0 y hy with hyv | hy2
    · rw [hyv]
      exact hv v (List.mem_cons_self _ _)
    · exact hg k2 y hy2

theorem mapSet_keys (k : String) (v : β) :
    ∀ (m : List (String × β)) (k' : String),
      k' ∈ (mapSet k v m).map Prod.fst → k' = k ∨ k' ∈ m.map Prod.fst := by
  intro m
  induction m with
  | nil =>
    intro k' h
    exact Or.inl (by simpa [mapSet] using h)
  | cons kv t ih =>
    intro k' h
    unfold mapSet at h
    by_cases hk : kv.1 = k
    · rw [if_pos hk] at h
      rcases List.mem_map.1 h with ⟨q, hq, rfl⟩
      rcases List.mem_cons.1 hq with rfl | hq2
      · exact Or.inl rfl
      · exact Or.inr (List.mem_map.2 ⟨q, List.mem_cons_of_mem kv hq2, rfl⟩)
    · rw [if_neg hk] at h
      rcases List.mem_map.1 h with ⟨q, hq, rfl⟩
      rcases List.mem_cons.1 hq with hqe | hq2
      · exact Or.inr (List.mem_map.2
          ⟨q, by rw [hqe]; exact List.mem_cons_self _ _, rfl⟩)
      · rcases ih q.1 (List.mem_map.2 ⟨q, hq2, rfl⟩) with h3 | h4
        · exact Or.inl h3
        · exact Or.inr (List.mem_map.2
            (by rcases List.mem_map.1 h4 with ⟨w, hw, hweq⟩
                exact ⟨w, List.mem_cons_of_mem kv hw, hweq⟩))

theorem groupFold_keys (key : β → String) :
    ∀ (ves : List β) (g0 : List (String × List β)) (k' : String),
      k' ∈ (ves.foldl (fun g v => mapPush (key v) v g) g0).map Prod.fst →
      k' ∈ g0.map Prod.fst ∨ ∃ v ∈ ves, k' = key v := by
  intro ves
  induction ves with
  | nil =>
    intro g0 k' h
    exact Or.inl h
  | cons v vt ih =>
    intro g0 k' h
    rw [List.foldl_cons] at h
    rcases ih (mapPush (key v) v g0) k' h with h1 | h2
    · unfold mapPush at h1
      rcases mapSet_keys (key v) _ g0 k' h1 with h3 | h4
      · exact Or.inr ⟨v, List.mem_cons_self _ _, h3⟩
      · exact Or.inl h4
    · rcases h2 with ⟨w, hw, hweq⟩
      exact Or.inr ⟨w, List.mem_cons_of_mem v hw, hweq⟩

/-! ## C10 stage 5: the rendered lines -/

/-- Every output line is a comment, blank, or reparses to a valid entry. -/
def LineOK (psl : PslLib) (line : String) : Prop :=
  jsStartsWithChar (jsTrim line) '#' = true ∨ jsTrim line = "" ∨
  ∃ e, parseAdsTxtLine psl line 1 = .ok (some e) ∧ entryIsValid e = true

theorem vtStr_inv_clean (vt : VariableType) :
    hasInvalidCharacters (vt.str ++ "=") = false := by
  cases vt <;> decide

theorem vtStr_no_nl (vt : VariableType) :
    ∀ c ∈ vt.str.data, ¬(c = '\x0a') := by
  cases vt <;> decide

theorem vtEq_no_nl (vt : VariableType) :
    ∀ c ∈ (vt.str ++ "=").data, ¬(c = '\x0a') := by
  cases vt <;> decide

theorem varline_ok (psl : PslLib) (v : ParsedAdsTxtVariable)
    (hv : VarGood v) :
    LineOK psl (v.variable_type.str ++ "=" ++ v.value) ∧
    ∀ c ∈ (v.variable_type.str ++ "=" ++ v.value).data, ¬(c = '\x0a') := by
  obtain ⟨hval, hinvv, hne, hterm⟩ := hv
  have hinv : hasInvalidCharacters (v.variable_type.str ++ "=" ++ v.value)
      = false := by
    rw [show v.variable_type.str ++ "=" ++ v.value =
      (v.variable_type.str ++ "=") ++ v.value from rfl,
      hasInvalidCharacters_append, vtStr_inv_clean, hinvv]
    rfl
  constructor
  · exact Or.inr (Or.inr ⟨_, parseAdsTxtLine_varline psl v.variable_type
      v.value 1 hinv hne hterm, rfl⟩)
  · intro c hc
    rw [show (v.variable_type.str ++ "=" ++ v.value) =
      (v.variable_type.str ++ "=") ++ v.value from rfl,
      string_data_append] at hc
    rcases List.mem_append.1 hc with h1 | h2
    · exact vtEq_no_nl v.variable_type c h1
    · intro hcc
      have h3 := List.all_eq_true.1 hterm c h2
      rw [hcc] at h3
      exact absurd h3 (by decide)

theorem jsStart_of_head (line : String) (t : List Char)
    (hdd : line.data = '#' :: t) :
    jsStartsWithChar (jsTrim line) '#' = true := by
  have hline : line = ⟨'#' :: t⟩ := string_ext _ _ (by rw [hdd])
  rw [hline]
  exact jsStartsWithChar_head '#' t (by decide)

theorem renderVariableGroups_ok (psl : PslLib)
    (ves : List ParsedAdsTxtVariable) (hves : ∀ v ∈ ves, VarGood v) :
    ∀ line ∈ renderVariableGroups ves,
      LineOK psl line ∧ ∀ c ∈ line.data, ¬(c = '\x0a') := by
  unfold renderVariableGroups
  intro line hline
  split at hline
  case isFalse => simp at hline
  case isTrue hlen =>
    dsimp only at hline
    rcases List.mem_flatMap.1 hline with ⟨vtKey, hk, hl⟩
    have hkey : ∃ v ∈ ves, vtKey = v.variable_type.str := by
      have hk2 := stableSortBy_mem jsCompare vtKey _ hk
      rcases groupFold_keys (fun v => v.variable_type.str) ves [] vtKey hk2
        with h0 | h1
      · simp at h0
      · exact h1
    obtain ⟨vW, hvW, hkeyEq⟩ := hkey
    rcases List.mem_append.1 hl with hl1 | hl2
    · rcases List.mem_append.1 hl1 with hl1a | hl1b
      · have hlineEq : line = "# " ++ vtKey ++ " Variables" := by
          simpa using hl1a
        rw [hlineEq]
        constructor
        · refine Or.inl (jsStart_of_head _
            (' ' :: (vtKey.data ++ (" Variables" : String).data)) ?_)
          rw [string_data_append, string_data_append]
          rfl
        · intro c hc
          rw [string_data_append, string_data_append] at hc
          have hsharp : ∀ x ∈ ("# " : String).data, ¬(x = '\x0a') := by decide
          have hvars : ∀ x ∈ (" Variables" : String).data, ¬(x = '\x0a') := by
            decide
          rcases List.mem_append.1 hc with hc1 | hc2
          · rcases List.mem_append.1 hc1 with hc3 | hc4
            · exact hsharp c hc3
            · rw [hkeyEq] at hc4
              exact vtStr_no_nl _ c hc4
          · exact hvars c hc2
      · rcases List.mem_map.1 hl1b with ⟨v, hvg, rfl⟩
        have hvv : VarGood v :=
          groupFold_values (fun v => v.variable_type.str) VarGood ves []
            (by intro k x hx; simp [mapGet?] at hx) hves vtKey v hvg
        exact varline_ok psl v hvv
    · have hlineEq : line = "" := by simpa using hl2
      rw [hlineEq]
      exact ⟨Or.inr (Or.inl rfl), by decide⟩

theorem renderRecordGroups_ok (psl : PslLib)
    (res : List ParsedAdsTxtRecord) (hres : ∀ r ∈ res, RecGood psl r) :
    ∀ line ∈ renderRecordGroups res,
      LineOK psl line ∧ ∀ c ∈ line.data, ¬(c = '\x0a') := by
  unfold renderRecordGroups
  intro line hl
  rcases List.mem_append.1 hl with hl1 | hl2
  · have hlineEq : line = "# Advertising System Records" := by simpa using hl1
    rw [hlineEq]
    exact ⟨Or.inl (by decide), by decide⟩
  · split at hl2
    case isFalse => simp at hl2
    case isTrue hlen =>
      dsimp only at hl2
      rcases List.mem_flatMap.1 hl2 with ⟨dom, hk, hl3⟩
      rcases List.mem_map.1 hl3 with ⟨r, hr, rfl⟩
      have hrg : RecGood psl r := by
        have hr2 := stableSortBy_mem recCmp r _ hr
        exact groupFold_values (fun r => jsTrim (jsToLower r.domain))
          (RecGood psl) res [] (by intro k x hx; simp [mapGet?] at hx)
          hres dom r hr2
      obtain ⟨hval, hpsl2, hane, hdC, haC, hcaC⟩ := hrg
      have hrr := reparse_record_line psl r 1 hdC haC hcaC hpsl2 hane
      exact ⟨Or.inr (Or.inr hrr.1), hrr.2⟩

theorem lines_ok_of (psl : PslLib) (ls : List String)
    (hok : ∀ l ∈ ls, LineOK psl l ∧ ∀ c ∈ l.data, ¬(c = '\x0a'))
    (hne : ls ≠ []) :
    ∀ line ∈ jsSplitChar '\x0a' (String.intercalate "\x0a" ls),
      LineOK psl line := by
  intro line hline
  obtain ⟨a, as, rfl⟩ := List.exists_cons_of_ne_nil hne
  rw [jsSplitChar_intercalate a as
    (fun c hc => (hok a (List.mem_cons_self _ _)).2 c hc)
    (fun s hs c hc => (hok s (List.mem_cons_of_mem a hs)).2 c hc)] at hline
  exact (hok line hline).1

/-- Sanity contract on the `psl` collaborator: a parsed root domain is a
printable, non-blank, single-line token.  (The default `OWNERDOMAIN`
variable prints it verbatim.) -/
def PslDomainsClean (psl : PslLib) : Prop :=
  ∀ d r, psl.parseDomain d = .ok (some r) →
    hasInvalidCharacters r = false ∧ jsTrimL r.data ≠ [] ∧
    r.data.all (fun c => !isLineTerm c) = true

/-- **C10**: every line of `optimizeAdsTxt`'s output is a comment, blank,
or reparses to a valid record or variable, provided the `psl` collaborator
returns clean root domains. -/
theorem optimizeAdsTxt_output_valid (psl : PslLib) (content : String)
    (publisherDomain : Option String) (hpsl : PslDomainsClean psl) :
    ∀ line ∈ jsSplitChar '\x0a' (optimizeAdsTxt psl content publisherDomain),
      jsStartsWithChar (jsTrim line) '#' = true ∨ jsTrim line = "" ∨
      ∃ e, parseAdsTxtLine psl line 1 = .ok (some e) ∧
        entryIsValid e = true := by
  intro line hline
  unfold optimizeAdsTxt at hline
  dsimp only at hline
  have hstG : StGood psl (((jsSplitChar '\x0a' content).enum).foldl
      (fun st p => optimizeLineStep psl st p.2 p.1) {}) := by
    refine fold_good psl _ {} ?_ ⟨?_, ?_⟩
    · intro p hp c hc
      have hmem := enum_snd_mem _ p hp
      unfold jsSplitChar at hmem
      rcases List.mem_map.1 hmem with ⟨pl, hpl, hplEq⟩
      intro hcc
      have hcpl : c ∈ pl := by
        rw [← hplEq] at hc
        exact hc
      exact splitL_no_sep '\x0a' content.data pl hpl c hcpl hcc
    · intro e he
      cases he
    · intro p hp
      cases hp
  refine lines_ok_of psl _ ?_ ?_ line hline
  · intro l hl
    rcases List.mem_append.1 hl with hl1 | hl2
    · rcases List.mem_append.1 hl1 with hlh | hlv
      · cases hcm : (((jsSplitChar '\x0a' content).enum).foldl
            (fun st p => optimizeLineStep psl st p.2 p.1)
            {} : OptimizeState).comments with
        | nil =>
          rw [hcm] at hlh
          cases hlh
        | cons p rest =>
          rw [hcm] at hlh
          obtain ⟨i, text⟩ := p
          cases i with
          | zero =>
            try dsimp only at hlh
            have hcp := hstG.2 (0, text)
              (by rw [hcm]; exact List.mem_cons_self _ _)
            rcases List.mem_cons.1 hlh with rfl | hlh2
            · exact ⟨Or.inl hcp.1, hcp.2⟩
            · have hl0 : l = "" := by simpa using hlh2
              rw [hl0]
              exact ⟨Or.inr (Or.inl rfl), by decide⟩
          | succ k =>
            try dsimp only at hlh
            cases hlh
      · refine renderVariableGroups_ok psl _ ?_ l hlv
        intro v hv2
        rcases List.mem_filterMap.1 hv2 with ⟨e, he, hfe⟩
        have he2 := stableSortBy_mem entryCmp e _ he
        have heG : EntryGood psl e := by
          split at he2
          · split at he2
            all_goals
              first
                | exact hstG.1 e he2
                | (rename_i rd heq
                   rcases List.mem_append.1 he2 with h1 | h2
                   · exact hstG.1 e h1
                   · have he3 : e = ParsedAdsTxtEntry.varEntry
                         { variable_type := .OWNERDOMAIN, value := rd,
                           line_number := -1,
                           raw_line := "OWNERDOMAIN=" ++ rd,
                           is_valid := true } := by simpa using h2
                     rw [he3]
                     obtain ⟨hA, hB, hC⟩ := hpsl _ rd heq
                     exact ⟨rfl, hA, hB, hC⟩)
          · exact hstG.1 e he2
        cases e with
        | varEntry v' =>
          have hv3 : v' = v := by simpa [entryVariable?] using hfe
          rw [← hv3]
          exact heG
        | record r => simp [entryVariable?] at hfe
    · refine renderRecordGroups_ok psl _ ?_ l hl2
      intro r hr2
      rcases List.mem_filterMap.1 hr2 with ⟨e, he, hfe⟩
      have he2 := stableSortBy_mem entryCmp e _ he
      have heG : EntryGood psl e := by
        split at he2
        · split at he2
          all_goals
            first
              | exact hstG.1 e he2
              | (rename_i rd heq
                 rcases List.mem_append.1 he2 with h1 | h2
                 · exact hstG.1 e h1
                 · have he3 : e = ParsedAdsTxtEntry.varEntry
                       { variable_type := .OWNERDOMAIN, value := rd,
                         line_number := -1,
                         raw_line := "OWNERDOMAIN=" ++ rd,
                         is_valid := true } := by simpa using h2
                   rw [he3]
                   obtain ⟨hA, hB, hC⟩ := hpsl _ rd heq
                   exact ⟨rfl, hA, hB, hC⟩)
        · exact hstG.1 e he2
      cases e with
      | varEntry v' => simp [entryRecord?] at hfe
      | record r' =>
        have hr3 : r' = r := by simpa [entryRecord?] using hfe
        rw [← hr3]
        exact heG
  · intro h0
    have h1 := congrArg List.length h0
    rw [List.length_append, List.length_append] at h1
    unfold renderRecordGroups at h1
    rw [List.length_append] at h1
    simp at h1

/-- Witness for C10 at a concrete input: the record line of the optimized
output of "example.com, 1, DIRECT" reparses to a valid entry. -/
theorem optimizeAdsTxt_output_valid_witness :
    jsStartsWithChar (jsTrim "example.com, 1, DIRECT") '#' = true ∨
    jsTrim "example.com, 1, DIRECT" = "" ∨
    ∃ e, parseAdsTxtLine ⟨fun _ => .ok true, fun _ => .ok none⟩
      "example.com, 1, DIRECT" 1 = .ok (some e) ∧ entryIsValid e = true :=
  optimizeAdsTxt_output_valid ⟨fun _ => .ok true, fun _ => .ok none⟩
    "example.com, 1, DIRECT" none
    (fun _ r h => Option.noConfusion (Except.ok.inj h))
    "example.com, 1, DIRECT" (by decide)

end AdsTxt
